import Mathlib

/-!
# The URDF scene importer of MARS (`urdf_loader/src/Load.cpp`)

A shallow embedding of the importer that turns a tree of links into the flat
node / joint / material descriptor lists, and the properties of it that the
specification states.

Conventions of the embedding:

* `double` values are exact rationals (`ℚ`) and the operations on them are exact;
  only the functions whose name ends in `Double` round every operation to the
  nearest `double` value, as the arithmetic of the source does.
* A `ConfigMap` is a record with one optional field per key the importer writes;
  `none` means the key was never written.
* The members of the `Load` object (`nextNodeID`, `nodeList`, ...) are the fields
  of `LoadState`, threaded explicitly through every function that touches them.
* `link->getParent()` is a back pointer and cannot be stored in a tree value: the
  walker passes the parent link down to the functions that read it. A function
  that dereferences it returns `none` where the pointer is null.
* The two `while` loops of `handleKinematics` advance their array index by one in
  every pass; they are recursions over the elements from the starting index on.
* The diagnostic dump `debugMap` is written and never read; it is left out.
* `mars::utils::Vector` and `Quaternion` values are copied componentwise from the
  `urdf` values and are represented by the same types.
-/

namespace Mars

/-! ## Poses (the `urdf::Vector3`, `urdf::Rotation`, `urdf::Pose` value types) -/

/-- Modelled from the spec: the 3-vector type `urdf::Vector3` of the document
parser library (not under `src/`); default value `(0, 0, 0)`. -/
structure Vector3 where
  x : ℚ := 0
  y : ℚ := 0
  z : ℚ := 0
deriving DecidableEq, Repr

/-- Modelled from the spec: the quaternion type `urdf::Rotation` of the document
parser library (not under `src/`); default value the identity `(0, 0, 0, 1)`. -/
structure Rotation where
  x : ℚ := 0
  y : ℚ := 0
  z : ℚ := 0
  w : ℚ := 1
deriving DecidableEq, Repr

/-- Modelled from the spec: `urdf::Vector3::operator+`, componentwise addition. -/
def Vector3.add (a b : Vector3) : Vector3 :=
  { x := a.x + b.x, y := a.y + b.y, z := a.z + b.z }

/-- Componentwise negation: the effect of the three `*= -1` statements the
importer applies to a position. -/
def Vector3.neg (a : Vector3) : Vector3 :=
  { x := a.x * (-1), y := a.y * (-1), z := a.z * (-1) }

/-- Modelled from the spec: `urdf::Rotation::GetInverse`, the quaternion inverse
(the conjugate divided by the squared norm, which is the conjugate for a unit
quaternion); a quaternion of norm zero yields the default rotation. -/
def Rotation.GetInverse (q : Rotation) : Rotation :=
  let norm := q.w * q.w + q.x * q.x + q.y * q.y + q.z * q.z
  if norm > 0 then
    { x := -q.x / norm, y := -q.y / norm, z := -q.z / norm, w := q.w / norm }
  else
    {}

/-- Modelled from the spec: `urdf::Rotation::operator*(Rotation)`, the Hamilton
product of two quaternions. -/
def Rotation.mul (a qt : Rotation) : Rotation :=
  { x := a.w * qt.x + a.x * qt.w + a.y * qt.z - a.z * qt.y,
    y := a.w * qt.y - a.x * qt.z + a.y * qt.w + a.z * qt.x,
    z := a.w * qt.z + a.x * qt.y - a.y * qt.x + a.z * qt.w,
    w := a.w * qt.w - a.x * qt.x - a.y * qt.y - a.z * qt.z }

/-- Modelled from the spec: `urdf::Rotation::operator*(Vector3)`, the rotation of a
vector by a quaternion, `q * (0, vec) * inverse q`. -/
def Rotation.rotate (q : Rotation) (vec : Vector3) : Vector3 :=
  let tmp : Rotation := q.mul (Rotation.mul { x := vec.x, y := vec.y, z := vec.z, w := 0 } q.GetInverse)
  { x := tmp.x, y := tmp.y, z := tmp.z }

/-- Componentwise subtraction, used to state the pose formulas. -/
def Vector3.sub (a b : Vector3) : Vector3 :=
  { x := a.x - b.x, y := a.y - b.y, z := a.z - b.z }

instance : Add Vector3 := ⟨Vector3.add⟩
instance : Sub Vector3 := ⟨Vector3.sub⟩
instance : Mul Rotation := ⟨Rotation.mul⟩
instance : HMul Rotation Vector3 Vector3 := ⟨Rotation.rotate⟩

/-- Modelled from the spec: `urdf::Pose`, a position and a rotation; the default
pose is the identity pose. -/
structure Pose where
  position : Vector3 := {}
  rotation : Rotation := {}
deriving DecidableEq, Repr

/-! ## The parsed document (`urdf::Link` and its parts) -/

/-- Modelled from the spec: the geometry variants of `urdf::Geometry`
(`SPHERE`, `BOX`, `CYLINDER`, `MESH`) with their parameters. -/
inductive Geometry where
  | sphere (radius : ℚ)
  | box (dim : Vector3)
  | cylinder (radius : ℚ) (length : ℚ)
  | mesh (filename : String) (scale : Vector3)
deriving DecidableEq, Repr

/-- The test `geometry->type == urdf::Geometry::MESH`. -/
def Geometry.isMesh : Geometry → Bool
  | .mesh _ _ => true
  | _ => false

/-- The `filename` member read through the cast `(urdf::Mesh*)geometry.get()`; the
importer performs the cast only after the type test succeeded, other variants
have no such member and read as the empty string here. -/
def Geometry.meshFilename : Geometry → String
  | .mesh f _ => f
  | _ => ""

/-- Modelled from the spec: `urdf::Inertial`. -/
structure Inertial where
  origin : Pose := {}
  mass : ℚ := 0
  ixx : ℚ := 0
  ixy : ℚ := 0
  ixz : ℚ := 0
  iyy : ℚ := 0
  iyz : ℚ := 0
  izz : ℚ := 0
deriving DecidableEq, Repr

/-- Modelled from the spec: `urdf::Visual`. -/
structure Visual where
  origin : Pose := {}
  geometry : Geometry
  material_name : String := ""
  name : String := ""
deriving DecidableEq, Repr

/-- Modelled from the spec: `urdf::Collision`. -/
structure Collision where
  origin : Pose := {}
  geometry : Geometry
  name : String := ""
deriving DecidableEq, Repr

/-- Modelled from the spec: the joint kinds of `urdf::Joint`. -/
inductive JointType where
  | UNKNOWN | REVOLUTE | CONTINUOUS | PRISMATIC | FLOATING | PLANAR | FIXED
deriving DecidableEq, Repr

/-- Modelled from the spec: the members of `urdf::Joint` the importer reads. -/
structure Joint where
  name : String := ""
  type : JointType := .UNKNOWN
  axis : Vector3 := {}
  parent_to_joint_origin_transform : Pose := {}
  parent_link_name : String := ""
  child_link_name : String := ""
deriving DecidableEq, Repr

/-- Modelled from the spec: `urdf::Link`. `visual` and `collision` are the primary
records, `visual_array` and `collision_array` all records in document order. -/
inductive Link where
  | mk (name : String) (inertial : Option Inertial)
      (visual : Option Visual) (collision : Option Collision)
      (visual_array : List Visual) (collision_array : List Collision)
      (parent_joint : Option Joint) (child_links : List Link) : Link

namespace Link

def name : Link → String
  | mk n _ _ _ _ _ _ _ => n

def inertial : Link → Option Inertial
  | mk _ i _ _ _ _ _ _ => i

def visual : Link → Option Visual
  | mk _ _ v _ _ _ _ _ => v

def collision : Link → Option Collision
  | mk _ _ _ c _ _ _ _ => c

def visual_array : Link → List Visual
  | mk _ _ _ _ va _ _ _ => va

def collision_array : Link → List Collision
  | mk _ _ _ _ _ ca _ _ => ca

def parent_joint : Link → Option Joint
  | mk _ _ _ _ _ _ j _ => j

def child_links : Link → List Link
  | mk _ _ _ _ _ _ _ cs => cs

/-- The same link with another list of child links. -/
def withChildren : Link → List Link → Link
  | mk n i v c va ca j _, cs => mk n i v c va ca j cs

end Link

/-- Modelled from the spec: `urdf::Material` (name, RGBA colour, texture file). -/
structure Material where
  name : String := ""
  r : ℚ := 0
  g : ℚ := 0
  b : ℚ := 0
  a : ℚ := 0
  texture_filename : String := ""
deriving DecidableEq, Repr

/-- Modelled from the spec: what `urdf::parseURDFFile` delivers: the flat material
table `materials_` (listed in the iteration order of the map) and the root link. -/
structure ModelInterface where
  materials_ : List Material
  root_link_ : Link

/-! ## Descriptors (the `ConfigMap` values the importer builds) -/

/-- The `ConfigMap` of a node: one optional field per key written by
`handleKinematics` and its helpers. -/
structure NodeDescriptor where
  name : Option String := none
  index : Option Nat := none
  groupid : Option Nat := none
  relativeid : Option Nat := none
  mass : Option ℚ := none
  density : Option ℚ := none
  inertia : Option Bool := none
  i00 : Option ℚ := none
  i01 : Option ℚ := none
  i02 : Option ℚ := none
  i10 : Option ℚ := none
  i11 : Option ℚ := none
  i12 : Option ℚ := none
  i20 : Option ℚ := none
  i21 : Option ℚ := none
  i22 : Option ℚ := none
  position : Option Vector3 := none
  rotation : Option Rotation := none
  filename : Option String := none
  origname : Option String := none
  materialName : Option String := none
  visualsize : Option Vector3 := none
  visualscale : Option Vector3 := none
  visualposition : Option Vector3 := none
  visualrotation : Option Rotation := none
  physicmode : Option String := none
  extend : Option Vector3 := none
  scale : Option Vector3 := none
  coll_bitmask : Option Nat := none
  noPhysical : Option Bool := none
deriving DecidableEq, Repr

/-- The `ConfigMap` of a joint as written at the end of `handleKinematics`. -/
structure JointDescriptor where
  name : String
  index : Nat
  nodeindex1 : Nat
  nodeindex2 : Nat
  anchorpos : Nat
  type : String
  axis1 : Vector3
deriving DecidableEq, Repr

/-- The `ConfigMap` of a material (`createFakeMaterial`, `handleMaterial`);
`cullMask` is written for the fallback material only. -/
structure MaterialDescriptor where
  id : Nat
  name : String
  exists_ : Bool
  diffuseFront_a : ℚ
  diffuseFront_r : ℚ
  diffuseFront_g : ℚ
  diffuseFront_b : ℚ
  texturename : String
  cullMask : Option Nat := none
deriving DecidableEq, Repr

/-! ## The state of the `Load` object -/

/-- Modelled from the spec: the range of the `unsigned long` group id counter
declared in `Load.h` (not under `src/`), as on an LP64 platform. -/
def ULONG_RANGE : Nat := 2 ^ 64

/-- The name-to-index map `nodeIDMap`; a later entry for a name shadows an
earlier one. -/
abbrev NodeIDMap := List (String × Nat)

/-- The read `nodeIDMap[name]`: the stored index, and `0` for a name that has no
entry (`std::map::operator[]` default-inserts `0`, which later reads cannot tell
from the absence of the entry). -/
def NodeIDMap.get (m : NodeIDMap) (name : String) : Nat :=
  (m.lookup name).getD 0

/-- The write `nodeIDMap[name] = id`. -/
def NodeIDMap.set (m : NodeIDMap) (name : String) (id : Nat) : NodeIDMap :=
  (name, id) :: m

/-- The members of `Load` that the tree walk reads and writes. The node, joint
and material counters are natural numbers without wrap-around: `prepareLoad`
starts them at `1` and each descriptor in memory consumes one value, so they
cannot reach the end of their range; the group id counter starts from a value
supplied by the node manager and wraps at `ULONG_RANGE`. -/
structure LoadState where
  nextGroupID : Nat := 0
  nextNodeID : Nat := 0
  nextJointID : Nat := 0
  nextMaterialID : Nat := 0
  nodeIDMap : NodeIDMap := []
  materialList : List MaterialDescriptor := []
  nodeList : List NodeDescriptor := []
  jointList : List JointDescriptor := []

/-! ## Pose utilities -/

/-- `Load::handleInertial`: mass and the symmetric inertia tensor of the link, and
the flag `inertia`. -/
def handleInertial (map : NodeDescriptor) (link : Link) : NodeDescriptor :=
  match link.inertial with
  | some inertial =>
    { map with
      mass := some inertial.mass,
      i00 := some inertial.ixx, i01 := some inertial.ixy, i02 := some inertial.ixz,
      i10 := some inertial.ixy, i11 := some inertial.iyy, i12 := some inertial.iyz,
      i20 := some inertial.ixz, i21 := some inertial.iyz, i22 := some inertial.izz,
      inertia := some true }
  | none => { map with inertia := some false }

/-- `Load::calculatePose`. `parent` is `link->getParent()`; the result is `none`
exactly when the code dereferences a null parent, that is for a link that has a
parent joint but no parent link (the parser never produces such a link). -/
def calculatePose (nodeIDMap : NodeIDMap) (map : NodeDescriptor) (link : Link)
    (parent : Option Link) : Option NodeDescriptor :=
  let first : Option (Pose × Pose × NodeDescriptor) :=
    match link.parent_joint with
    | some parent_joint =>
      match parent with
      | some parentLink =>
        let jointPose := parent_joint.parent_to_joint_origin_transform
        let parentInertialPose : Pose :=
          match parentLink.inertial with
          | some inertial => inertial.origin
          | none => {}
        let parentID := nodeIDMap.get parentLink.name
        some (jointPose, parentInertialPose, { map with relativeid := some parentID })
      | none => none
    | none => some ({}, {}, { map with relativeid := some 0 })
  match first with
  | none => none
  | some (jointPose, parentInertialPose, map) =>
    let inertialPose : Pose :=
      match link.inertial with
      | some inertial => inertial.origin
      | none =>
        match link.collision with
        | some collision => collision.origin
        | none => {}
    let parentInertialPose : Pose :=
      { parentInertialPose with position := parentInertialPose.position.neg }
    let goalPosition : Vector3 := jointPose.position + parentInertialPose.position
    let goalPosition : Vector3 := goalPosition + jointPose.rotation * inertialPose.position
    let goalPosition : Vector3 := parentInertialPose.rotation.GetInverse * goalPosition
    let goalRotation : Rotation :=
      parentInertialPose.rotation.GetInverse * inertialPose.rotation * jointPose.rotation
    some { map with position := some goalPosition, rotation := some goalRotation }

/-- `Load::convertPose(pose, toPose, v, q)`; the pair is `(*v, *q)`. -/
def convertPose (pose toPose : Pose) : Vector3 × Rotation :=
  let pose_ := pose
  let toPose_ : Pose := { toPose with position := toPose.position.neg }
  let p : Vector3 := pose_.position + toPose_.position
  let p : Vector3 := toPose_.rotation * p
  let r : Rotation := toPose_.rotation.GetInverse * pose_.rotation
  (p, r)

/-- `Load::convertPose(pose, link, v, q)`. -/
def convertPoseLink (pose : Pose) (link : Link) : Vector3 × Rotation :=
  let toPose : Pose :=
    match link.inertial with
    | some inertial => inertial.origin
    | none =>
      match link.collision with
      | some collision => collision.origin
      | none => {}
  convertPose pose toPose

/-- `Load::isEqualPos`, with `epsilon = 0.00000000001`. -/
def isEqualPos (p1 p2 : Pose) : Bool :=
  let equal := true
  let epsilon : ℚ := 1 / 100000000000
  let equal := if |p1.position.x - p2.position.x| > epsilon then false else equal
  let equal := if |p1.position.y - p2.position.y| > epsilon then false else equal
  let equal := if |p1.position.z - p2.position.z| > epsilon then false else equal
  let equal := if |p1.rotation.x - p2.rotation.x| > epsilon then false else equal
  let equal := if |p1.rotation.y - p2.rotation.y| > epsilon then false else equal
  let equal := if |p1.rotation.z - p2.rotation.z| > epsilon then false else equal
  let equal := if |p1.rotation.w - p2.rotation.w| > epsilon then false else equal
  equal

/-! ## Geometry records -/

/-- `Load::handleVisual`. -/
def handleVisual (map : NodeDescriptor) (visual : Visual) : NodeDescriptor :=
  let size : Vector3 := { x := 0, y := 0, z := 0 }
  let scale : Vector3 := { x := 1, y := 1, z := 1 }
  let map := { map with filename := some "PRIMITIVE" }
  let (map, size, scale) : NodeDescriptor × Vector3 × Vector3 :=
    match visual.geometry with
    | .sphere radius => ({ map with origname := some "sphere" }, { size with x := radius }, scale)
    | .box v => ({ map with origname := some "box" }, { x := v.x, y := v.y, z := v.z }, scale)
    | .cylinder radius length =>
      ({ map with origname := some "cylinder" }, { size with x := radius, y := length }, scale)
    | .mesh filename v =>
      ({ map with filename := some filename, origname := some "" }, size,
        { x := v.x, y := v.y, z := v.z })
  { map with
    visualsize := some size, visualscale := some scale,
    materialName := some visual.material_name }

/-- `Load::handleCollision`. -/
def handleCollision (map : NodeDescriptor) (c : Collision) : NodeDescriptor :=
  let size : Vector3 := { x := 0, y := 0, z := 0 }
  let scale : Vector3 := { x := 1, y := 1, z := 1 }
  let (map, size, scale) : NodeDescriptor × Vector3 × Vector3 :=
    match c.geometry with
    | .sphere radius => ({ map with physicmode := some "sphere" }, { size with x := radius }, scale)
    | .box v => ({ map with physicmode := some "box" }, { x := v.x, y := v.y, z := v.z }, scale)
    | .cylinder radius length =>
      ({ map with physicmode := some "cylinder" }, { size with x := radius, y := length }, scale)
    | .mesh filename v =>
      ({ map with filename := some filename, origname := some "", physicmode := some "mesh" },
        size, { x := v.x, y := v.y, z := v.z })
  let map := { map with extend := some size, scale := some scale }
  if c.geometry.isMesh then { map with extend := some scale } else map

/-- `Load::createFakeVisual`. -/
def createFakeVisual (map : NodeDescriptor) : NodeDescriptor :=
  let size : Vector3 := { x := 1 / 100, y := 1 / 100, z := 1 / 100 }
  let scale : Vector3 := { x := 1, y := 1, z := 1 }
  { map with
    filename := some "PRIMITIVE", origname := some "box",
    materialName := some "_fakeMaterial",
    visualsize := some size, visualscale := some scale }

/-- `Load::createFakeCollision`. -/
def createFakeCollision (map : NodeDescriptor) : NodeDescriptor :=
  let size : Vector3 := { x := 1 / 100, y := 1 / 100, z := 1 / 100 }
  { map with physicmode := some "box", coll_bitmask := some 0, extend := some size }

/-! ## The node synthesizer and the tree walk (`Load::handleKinematics`) -/

/-- The three local flags decided by the block marked "special case handling" at
the head of `handleKinematics`. -/
structure SpecialCase where
  loadVisual : Bool
  loadCollision : Bool
  needGroupID : Bool
deriving DecidableEq, Repr

/-- The block marked "special case handling" at the head of `handleKinematics`:
`loadVisual` and `loadCollision` start as the presence of the primary visual and
collision, the three tests then clear them and raise `needGroupID`. -/
def specialCaseHandling (link : Link) : SpecialCase :=
  let loadVisual : Bool := link.visual.isSome
  let loadCollision : Bool := link.collision.isSome
  let needGroupID : Bool := false
  let needGroupID : Bool :=
    if link.visual_array.length > 1 ∧ link.collision_array.length > 1 then true
    else needGroupID
  let (loadCollision, needGroupID) : Bool × Bool :=
    match link.collision, link.inertial with
    | some collision, some inertial =>
      if isEqualPos collision.origin inertial.origin = false then (false, true)
      else (loadCollision, needGroupID)
    | _, _ => (loadCollision, needGroupID)
  let (loadVisual, needGroupID) : Bool × Bool :=
    match link.visual, link.collision with
    | some visual, some collision =>
      if loadCollision = true ∧ collision.geometry.isMesh = true then
        if visual.geometry.isMesh = false then (false, true)
        else if collision.geometry.meshFilename ≠ visual.geometry.meshFilename then (false, true)
        else (loadVisual, needGroupID)
      else (loadVisual, needGroupID)
    | _, _ => (loadVisual, needGroupID)
  { loadVisual := loadVisual, loadCollision := loadCollision, needGroupID := needGroupID }

/-- What the first part of `handleKinematics` (up to the first
`nodeList.push_back`) leaves behind: the primary descriptor `config`, the two
array indices and the state. -/
structure Primary where
  config : NodeDescriptor
  visualArrayIndex : Nat
  collisionArrayIndex : Nat
  state : LoadState

/-- The block `if(loadVisual) ... else ...` of `handleKinematics`: the primary
visual with its offset from the node, or the placeholder visual; the second
component is `visualArrayIndex`. `loadVisual` is only ever true when the primary
visual is present. -/
def primaryVisual (loadVisual : Bool) (link : Link) (config : NodeDescriptor) :
    NodeDescriptor × Nat :=
  match loadVisual, link.visual with
  | true, some visual =>
    let config := handleVisual config visual
    let (v, q) := convertPoseLink visual.origin link
    ({ config with visualposition := some v, visualrotation := some q }, 1)
  | _, _ => (createFakeVisual config, 0)

/-- The block `if(loadCollision) ... else ...` of `handleKinematics`: the primary
collision or the placeholder collision; the second component is
`collisionArrayIndex`. `loadCollision` is only ever true when the primary
collision is present. -/
def primaryCollision (loadCollision : Bool) (link : Link) (config : NodeDescriptor) :
    NodeDescriptor × Nat :=
  match loadCollision, link.collision with
  | true, some collision => (handleCollision config collision, 1)
  | _, _ => (createFakeCollision config, 0)

/-- The first part of `handleKinematics`: name and index of the primary
descriptor, the name-to-index entry, the group id, inertial, pose, primary visual
and primary collision (or their placeholders), and the append to `nodeList`. -/
def primaryNode (link : Link) (parent : Option Link) (s : LoadState) : Option Primary :=
  let config : NodeDescriptor := {}
  let config := { config with name := some link.name, index := some s.nextNodeID }
  let s := { s with nextNodeID := s.nextNodeID + 1 }
  let s := { s with nodeIDMap := s.nodeIDMap.set link.name (s.nextNodeID - 1) }
  let sc := specialCaseHandling link
  let (config, s) : NodeDescriptor × LoadState :=
    if sc.needGroupID then
      ({ config with groupid := some s.nextGroupID },
        { s with nextGroupID := (s.nextGroupID + 1) % ULONG_RANGE })
    else ({ config with groupid := some 0 }, s)
  let config := handleInertial config link
  match calculatePose s.nodeIDMap config link parent with
  | none => none
  | some config =>
    let (config, visualArrayIndex) := primaryVisual sc.loadVisual link config
    let (config, collisionArrayIndex) := primaryCollision sc.loadCollision link config
    some { config := config, visualArrayIndex := visualArrayIndex,
           collisionArrayIndex := collisionArrayIndex,
           state := { s with nodeList := s.nodeList ++ [config] } }

/-- The test inside the first child loop whether the candidate visual can share a
node with the collision: a mesh collision takes only a visual that is a mesh
with the same filename; `none` is the effect of `visual.reset()`. -/
def pairVisual (collision : Collision) (visual : Visual) : Option Visual :=
  if collision.geometry.isMesh = true then
    if visual.geometry.isMesh = false then none
    else if collision.geometry.meshFilename ≠ visual.geometry.meshFilename then none
    else some visual
  else some visual

/-- The block `if(visualArrayIndex < link->visual_array.size()) ...` of the first
child loop: the visual at `visualArrayIndex`, if there is one and it can share a
node with the collision; `none` is the null pointer `visual`. -/
def candidateVisual (link : Link) (collision : Collision) (visualArrayIndex : Nat) :
    Option Visual :=
  match link.visual_array[visualArrayIndex]? with
  | some visual => pairVisual collision visual
  | none => none

/-- One pass of the body of the first child loop, for the collision element
`collision = link->collision_array[collisionArrayIndex]`: the child descriptor
and the new `visualArrayIndex`. -/
def collisionChild (link : Link) (config : NodeDescriptor) (collision : Collision)
    (visualArrayIndex : Nat) (nextNodeID : Nat) : NodeDescriptor × Nat :=
  let visual : Option Visual := candidateVisual link collision visualArrayIndex
  let childNode : NodeDescriptor := {}
  let childNode := { childNode with index := some nextNodeID, relativeid := config.index }
  let childNode :=
    if collision.name.isEmpty then { childNode with name := some (config.name.getD "" ++ "_child") }
    else { childNode with name := some collision.name }
  let childNode := { childNode with groupid := config.groupid, mass := some 0, density := some 0 }
  let childNode := handleCollision childNode collision
  let (v, q) := convertPoseLink collision.origin link
  let childNode := { childNode with position := some v, rotation := some q }
  let p1 : Pose := { position := v, rotation := q }
  match visual with
  | some visual =>
    let childNode := handleVisual childNode visual
    let (v, q) := convertPoseLink visual.origin link
    let p2 : Pose := { position := v, rotation := q }
    let (v, q) := convertPose p2 p1
    ({ childNode with visualposition := some v, visualrotation := some q }, visualArrayIndex + 1)
  | none => (createFakeVisual childNode, visualArrayIndex)

/-- The first child loop `while(collisionArrayIndex < link->collision_array.size())`.
Every pass advances `collisionArrayIndex` by one, so the loop visits the
elements of `collision_array` from the starting index to the end in order: the
list argument is that remaining suffix. Returns the final `visualArrayIndex`. -/
def collisionChildren (link : Link) (config : NodeDescriptor) :
    List Collision → Nat → LoadState → Nat × LoadState
  | [], visualArrayIndex, s => (visualArrayIndex, s)
  | collision :: rest, visualArrayIndex, s =>
    let (childNode, visualArrayIndex) :=
      collisionChild link config collision visualArrayIndex s.nextNodeID
    collisionChildren link config rest visualArrayIndex
      { s with nextNodeID := s.nextNodeID + 1, nodeList := s.nodeList ++ [childNode] }

/-- One pass of the body of the second child loop, for the visual element
`visual = link->visual_array[visualArrayIndex]`. -/
def visualChild (link : Link) (config : NodeDescriptor) (visual : Visual)
    (nextNodeID : Nat) : NodeDescriptor :=
  let childNode : NodeDescriptor := {}
  let childNode := { childNode with index := some nextNodeID, relativeid := config.index }
  let childNode :=
    if visual.name.isEmpty then { childNode with name := some (config.name.getD "" ++ "_child") }
    else { childNode with name := some visual.name }
  let childNode :=
    { childNode with
      groupid := config.groupid, noPhysical := some true, mass := some 0, density := some 0 }
  let childNode := handleVisual childNode visual
  let childNode :=
    if visual.geometry.isMesh = false then { childNode with physicmode := childNode.origname }
    else childNode
  let childNode := { childNode with extend := childNode.visualsize }
  let (v, q) := convertPoseLink visual.origin link
  { childNode with position := some v, rotation := some q }

/-- The second child loop `while(visualArrayIndex < link->visual_array.size())`;
the list argument is the suffix of `visual_array` from the starting index. -/
def visualChildren (link : Link) (config : NodeDescriptor) :
    List Visual → LoadState → LoadState
  | [], s => s
  | visual :: rest, s =>
    let childNode := visualChild link config visual s.nextNodeID
    visualChildren link config rest
      { s with nextNodeID := s.nextNodeID + 1, nodeList := s.nodeList ++ [childNode] }

/-- The mapping of the joint kind to the `type` string of the joint descriptor. -/
def jointTypeName (t : JointType) : String :=
  if t = .REVOLUTE then "hinge"
  else if t = .PRISMATIC then "slider"
  else if t = .FIXED then "fixed"
  else "fixed"

/-- The block of `handleKinematics` that appends the joint descriptor of the
parent joint, if the link has one. -/
def handleParentJoint (link : Link) (s : LoadState) : LoadState :=
  match link.parent_joint with
  | some parent_joint =>
    let joint : JointDescriptor :=
      { name := parent_joint.name,
        index := s.nextJointID,
        nodeindex1 := s.nodeIDMap.get parent_joint.parent_link_name,
        nodeindex2 := s.nodeIDMap.get parent_joint.child_link_name,
        anchorpos := 2,
        type := jointTypeName parent_joint.type,
        axis1 := { x := parent_joint.axis.x, y := parent_joint.axis.y, z := parent_joint.axis.z } }
    { s with nextJointID := s.nextJointID + 1, jointList := s.jointList ++ [joint] }
  | none => s

/-- Everything `handleKinematics` does for one link before it recurses into
the child links: primary descriptor, collision children, visual-only children,
joint descriptor. -/
def handleLink (link : Link) (parent : Option Link) (s : LoadState) : Option LoadState :=
  match primaryNode link parent s with
  | none => none
  | some p =>
    let (visualArrayIndex, s) :=
      collisionChildren link p.config (link.collision_array.drop p.collisionArrayIndex)
        p.visualArrayIndex p.state
    let s := visualChildren link p.config (link.visual_array.drop visualArrayIndex) s
    some (handleParentJoint link s)

mutual
/-- `Load::handleKinematics`: the descriptors of the link, then the child links
in order, each with this link as its parent. -/
def handleKinematics : Link → Option Link → LoadState → Option LoadState
  | .mk name inertial visual collision visual_array collision_array parent_joint child_links,
    parent, s =>
    match handleLink
      (.mk name inertial visual collision visual_array collision_array parent_joint child_links)
      parent s with
    | none => none
    | some s =>
      handleChildLinks child_links
        (.mk name inertial visual collision visual_array collision_array parent_joint child_links) s
/-- The loop over `link->child_links` at the end of `handleKinematics`. -/
def handleChildLinks : List Link → Link → LoadState → Option LoadState
  | [], _, s => some s
  | child :: rest, link, s =>
    match handleKinematics child (some link) s with
    | none => none
    | some s => handleChildLinks rest link s
end

/-! ## Materials, `prepareLoad` and `parseScene` -/

/-- `Load::createFakeMaterial`. -/
def createFakeMaterial (s : LoadState) : LoadState :=
  let config : MaterialDescriptor :=
    { id := s.nextMaterialID, name := "_fakeMaterial", exists_ := true,
      diffuseFront_a := 1, diffuseFront_r := 1, diffuseFront_g := 0, diffuseFront_b := 0,
      texturename := "", cullMask := some 0 }
  { s with nextMaterialID := s.nextMaterialID + 1, materialList := s.materialList ++ [config] }

/-- `Load::handleMaterial`. -/
def handleMaterial (material : Material) (s : LoadState) : LoadState :=
  let config : MaterialDescriptor :=
    { id := s.nextMaterialID, name := material.name, exists_ := true,
      diffuseFront_a := material.a, diffuseFront_r := material.r,
      diffuseFront_g := material.g, diffuseFront_b := material.b,
      texturename := material.texture_filename }
  { s with nextMaterialID := s.nextMaterialID + 1, materialList := s.materialList ++ [config] }

/-- The counter assignments at the head of `Load::prepareLoad`; `maxGroupID` is
the value returned by `control->nodes->getMaxGroupID()`. -/
def prepareLoad (maxGroupID : Nat) (s : LoadState) : LoadState :=
  { s with
    nextGroupID := (maxGroupID + 1) % ULONG_RANGE,
    nextNodeID := 1, nextJointID := 1, nextMaterialID := 1 }

/-- The part of `Load::parseScene` that follows the successful parse of the
document into `model`: fallback material, one material descriptor per table
entry, then the walk from the root link. -/
def parseSceneModel (model : ModelInterface) (s : LoadState) : Option LoadState :=
  let s := createFakeMaterial s
  let s := model.materials_.foldl (fun s material => handleMaterial material s) s
  handleKinematics model.root_link_ none s

/-! ## The statements of the specification, as definitions -/

/-- The reference-origin policy in the words of the specification: (a) the
origin of the inertial record if the link has one, (b) else the origin of the
collision record if the link has one, (c) else the identity pose. -/
def referenceOrigin (link : Link) : Pose :=
  match link.inertial with
  | some inertial => inertial.origin
  | none =>
    match link.collision with
    | some collision => collision.origin
    | none => {}

/-- The pose composition formula in the words of the specification, for the joint
origin `J`, the parent reference `P` and the own reference `C`:
`position = inverse(Pr) * (J.position - Pp + J.rotation * Cp)` and
`rotation = inverse(Pr) * Cr * J.rotation`. -/
def composePose (J P C : Pose) : Vector3 × Rotation :=
  (P.rotation.GetInverse * (J.position - P.position + J.rotation * C.position),
   P.rotation.GetInverse * C.rotation * J.rotation)

/-- The joint origin `J` that `calculatePose` works with: the parent-to-joint
origin of the parent joint, the identity pose for a link without parent joint. -/
def jointPoseOf (link : Link) : Pose :=
  match link.parent_joint with
  | some parent_joint => parent_joint.parent_to_joint_origin_transform
  | none => {}

/-- The parent reference `P` that `calculatePose` works with: the inertial origin
of the parent if a parent joint and a parent with an inertial record exist, the
identity pose in every other case. -/
def parentInertialPoseOf (link : Link) (parent : Option Link) : Pose :=
  match link.parent_joint, parent with
  | some _, some parentLink =>
    match parentLink.inertial with
    | some inertial => inertial.origin
    | none => {}
  | _, _ => {}

/-- The value `handleVisual` writes to `filename`. -/
def visualFilename : Geometry → String
  | .mesh filename _ => filename
  | _ => "PRIMITIVE"

/-- The value `handleVisual` writes to `origname`. -/
def visualOrigname : Geometry → String
  | .sphere _ => "sphere"
  | .box _ => "box"
  | .cylinder _ _ => "cylinder"
  | .mesh _ _ => ""

/-- The value `handleVisual` writes to `visualsize`, and `handleCollision` to
`extend` before its final mesh adjustment. -/
def geometrySize : Geometry → Vector3
  | .sphere radius => { x := radius, y := 0, z := 0 }
  | .box v => { x := v.x, y := v.y, z := v.z }
  | .cylinder radius length => { x := radius, y := length, z := 0 }
  | .mesh _ _ => { x := 0, y := 0, z := 0 }

/-- The value `handleVisual` writes to `visualscale`, and `handleCollision` to
`scale`. -/
def geometryScale : Geometry → Vector3
  | .mesh _ v => { x := v.x, y := v.y, z := v.z }
  | _ => { x := 1, y := 1, z := 1 }

/-- The value `handleCollision` writes to `physicmode`. -/
def collisionPhysicmode : Geometry → String
  | .sphere _ => "sphere"
  | .box _ => "box"
  | .cylinder _ _ => "cylinder"
  | .mesh _ _ => "mesh"

/-- The value `handleCollision` leaves in `extend`: for a mesh the scale. -/
def collisionExtend (g : Geometry) : Vector3 :=
  if g.isMesh then geometryScale g else geometrySize g

/-- The descriptors the first child loop appends, in order: the loop started
on the remaining collision elements with the given `visualArrayIndex` and
`nextNodeID`. -/
def collisionChildNodes (link : Link) (config : NodeDescriptor) :
    List Collision → Nat → Nat → List NodeDescriptor
  | [], _, _ => []
  | collision :: rest, visualArrayIndex, nextNodeID =>
    (collisionChild link config collision visualArrayIndex nextNodeID).1 ::
      collisionChildNodes link config rest
        (collisionChild link config collision visualArrayIndex nextNodeID).2 (nextNodeID + 1)

/-- The value of `visualArrayIndex` when the first child loop ends. -/
def collisionChildrenIndex (link : Link) (config : NodeDescriptor) :
    List Collision → Nat → Nat → Nat
  | [], visualArrayIndex, _ => visualArrayIndex
  | collision :: rest, visualArrayIndex, nextNodeID =>
    collisionChildrenIndex link config rest
      (collisionChild link config collision visualArrayIndex nextNodeID).2 (nextNodeID + 1)

/-- The descriptors the second child loop appends, in order. -/
def visualChildNodes (link : Link) (config : NodeDescriptor) :
    List Visual → Nat → List NodeDescriptor
  | [], _ => []
  | visual :: rest, nextNodeID =>
    visualChild link config visual nextNodeID ::
      visualChildNodes link config rest (nextNodeID + 1)

/-- The child descriptors `handleKinematics` appends for a link after the
primary descriptor `p.config`: the collision children, then the visual-only
children. -/
def childNodes (link : Link) (p : Primary) : List NodeDescriptor :=
  collisionChildNodes link p.config (link.collision_array.drop p.collisionArrayIndex)
      p.visualArrayIndex p.state.nextNodeID ++
    visualChildNodes link p.config
      (link.visual_array.drop
        (collisionChildrenIndex link p.config (link.collision_array.drop p.collisionArrayIndex)
          p.visualArrayIndex p.state.nextNodeID))
      (p.state.nextNodeID + (link.collision_array.drop p.collisionArrayIndex).length)

/-- Rule 1 of the splitting policy: more than one visual element and more than
one collision element. -/
def rule1 (link : Link) : Prop :=
  link.visual_array.length > 1 ∧ link.collision_array.length > 1

/-- Rule 2 of the splitting policy: a primary collision and a primary inertial
exist and their origins are not equal under `isEqualPos`. -/
def rule2 (link : Link) : Prop :=
  ∃ c i, link.collision = some c ∧ link.inertial = some i ∧
    isEqualPos c.origin i.origin = false

/-- Rule 3 of the splitting policy: a primary visual and a primary collision
exist, the collision is a mesh, and the visual is not a mesh or its mesh
filename differs from that of the collision. -/
def rule3 (link : Link) : Prop :=
  ∃ v c, link.visual = some v ∧ link.collision = some c ∧ c.geometry.isMesh = true ∧
    (v.geometry.isMesh = false ∨ v.geometry.meshFilename ≠ c.geometry.meshFilename)

/-- The descriptor carries the visual `v`: its visual-geometry fields and its
material name are the ones `handleVisual` writes for `v`. -/
def carriesVisual (d : NodeDescriptor) (v : Visual) : Prop :=
  d.filename = (handleVisual {} v).filename ∧
  d.origname = (handleVisual {} v).origname ∧
  d.visualsize = (handleVisual {} v).visualsize ∧
  d.visualscale = (handleVisual {} v).visualscale ∧
  d.materialName = (handleVisual {} v).materialName

/-- The descriptor carries the collision `c`: its physical-geometry fields are
the ones `handleCollision` writes for `c`. -/
def carriesCollision (d : NodeDescriptor) (c : Collision) : Prop :=
  d.physicmode = (handleCollision {} c).physicmode ∧
  d.extend = (handleCollision {} c).extend ∧
  d.scale = (handleCollision {} c).scale

/-- The descriptor has the placeholder visual exactly as `createFakeVisual`
writes it: `PRIMITIVE` box of size `0.01`, scale `1`, material `_fakeMaterial`. -/
def hasFakeVisual (d : NodeDescriptor) : Prop :=
  d.filename = some "PRIMITIVE" ∧ d.origname = some "box" ∧
  d.visualsize = some { x := 1 / 100, y := 1 / 100, z := 1 / 100 } ∧
  d.visualscale = some { x := 1, y := 1, z := 1 } ∧
  d.materialName = some "_fakeMaterial"

/-- The descriptor has the placeholder collision as `createFakeCollision` writes
it: box of size `0.01` with collision mask `0`. -/
def hasFakeCollision (d : NodeDescriptor) : Prop :=
  d.physicmode = some "box" ∧
  d.extend = some { x := 1 / 100, y := 1 / 100, z := 1 / 100 } ∧
  d.coll_bitmask = some 0

/-- The geometry fields of a descriptor are set: `extend` and the four
visual-geometry fields always, and `physicmode` on every descriptor but a
visual-only child (`noPhysical`) whose visual is a mesh (`origname` empty). -/
def geometryFieldsSet (d : NodeDescriptor) : Prop :=
  d.extend.isSome = true ∧ d.filename.isSome = true ∧ d.origname.isSome = true ∧
  d.visualsize.isSome = true ∧ d.visualscale.isSome = true ∧
  (d.physicmode = none ↔ d.noPhysical = some true ∧ d.origname = some "")

/-- The identifiers continue from state `a` to state `b`: `b` extends the node
list and the joint list of `a` by descriptors whose indices are the consecutive
values of the counters of `a`, the counters of `b` stand right behind them, and
the materials are untouched. -/
def IdsContinue (a b : LoadState) : Prop :=
  (∃ new : List NodeDescriptor, b.nodeList = a.nodeList ++ new ∧
    b.nextNodeID = a.nextNodeID + new.length ∧
    new.map (fun d => d.index) = (List.range' a.nextNodeID new.length).map some) ∧
  (∃ newJ : List JointDescriptor, b.jointList = a.jointList ++ newJ ∧
    b.nextJointID = a.nextJointID + newJ.length ∧
    newJ.map (fun j => j.index) = List.range' a.nextJointID newJ.length) ∧
  b.materialList = a.materialList ∧ b.nextMaterialID = a.nextMaterialID

/-- The link `link` has a parent to read wherever `calculatePose` needs one:
it has no parent joint, or `link->getParent()` is not null. -/
def parentAvailable (link : Link) (parent : Option Link) : Prop :=
  link.parent_joint = none ∨ parent.isSome = true

/-! ## Example documents -/

/-- A unit box. -/
def unitBox : Geometry := .box { x := 1, y := 1, z := 1 }

/-- A root link with an inertial record, displaced and rotated about `z`. -/
def poseParent : Link :=
  .mk "base" (some { origin := { position := { x := 1 }, rotation := { z := 3 / 5, w := 4 / 5 } } })
    none none [] [] none []

/-- The parent joint of `poseChild`. -/
def poseJoint : Joint :=
  { name := "shoulder", parent_link_name := "base", child_link_name := "arm",
    parent_to_joint_origin_transform :=
      { position := { x := 3, z := 1 }, rotation := { y := 4 / 5, w := 3 / 5 } } }

/-- The inertial record of `poseChild`. -/
def poseChildInertial : Inertial :=
  { origin := { position := { y := 2 }, rotation := { x := 1, w := 0 } } }

/-- A child link of `poseParent` with an inertial record. -/
def poseChild : Link :=
  .mk "arm" (some poseChildInertial) none none [] [] (some poseJoint) []

/-- A root link without inertial record whose collision sits at `(1, 0, 0)`. -/
def collisionOnlyParent : Link :=
  .mk "base" none none
    (some { origin := { position := { x := 1 } }, geometry := unitBox })
    [] [{ origin := { position := { x := 1 } }, geometry := unitBox }] none []

/-- A child link of `collisionOnlyParent` without any record, joined at the
origin of the parent. -/
def bareChild : Link :=
  .mk "arm" none none none [] []
    (some { name := "shoulder", parent_link_name := "base", child_link_name := "arm" }) []

/-- A mesh visual `body.dae`. -/
def bodyVisual : Visual :=
  { geometry := .mesh "body.dae" { x := 1, y := 1, z := 1 }, material_name := "grey" }

/-- A mesh collision `hull.stl`. -/
def hullCollision : Collision :=
  { geometry := .mesh "hull.stl" { x := 1, y := 1, z := 1 } }

/-- A root link without inertial record whose primary visual and primary
collision are meshes of different files. -/
def meshMismatchLink : Link :=
  .mk "body" none (some bodyVisual) (some hullCollision) [bodyVisual] [hullCollision] none []

/-- A box visual. -/
def boxVisual : Visual := { geometry := unitBox, material_name := "grey" }

/-- A sphere visual named `lamp`. -/
def lampVisual : Visual := { geometry := .sphere (1 / 2), material_name := "white", name := "lamp" }

/-- A box collision. -/
def boxCollision : Collision := { geometry := unitBox }

/-- A root link with two visual elements and one box collision, no inertial. -/
def twoVisualLink : Link :=
  .mk "head" none (some boxVisual) (some boxCollision) [boxVisual, lampVisual] [boxCollision]
    none []

/-- A root link with two visual elements and one mesh collision, no inertial. -/
def twoVisualMeshLink : Link :=
  .mk "head" none (some boxVisual) (some hullCollision) [boxVisual, lampVisual] [hullCollision]
    none []

/-- A root link with a box visual and a mesh visual, and no collision. -/
def visualOnlyMeshLink : Link :=
  .mk "sign" none (some boxVisual) none [boxVisual, bodyVisual] [] none []

/-- A document with two materials whose root link `twoVisualMeshLink` has the
child link `bareChild`. -/
def sampleModel : ModelInterface :=
  { materials_ := [{ name := "grey", r := 1 / 2, g := 1 / 2, b := 1 / 2, a := 1 },
      { name := "white", r := 1, g := 1, b := 1, a := 1 }],
    root_link_ :=
      .mk "head" none (some boxVisual) (some hullCollision) [boxVisual, lampVisual]
        [hullCollision] none [bareChild] }

/-- The state of a `Load` object after `prepareLoad` in an empty scene. -/
def freshState : LoadState := prepareLoad 0 {}

/-- A root link without visual whose only collision is the mesh `hull.stl`. -/
def meshCollisionOnlyLink : Link :=
  .mk "hull" none none (some hullCollision) [] [hullCollision] none []


/-- Modelled from the spec: the scene that exists in the engine before a load,
as the node manager holds it: the indices of the existing nodes and the value
`getMaxGroupID()` returns. -/
structure ExistingScene where
  nodeIndices : List Nat := []
  maxGroupID : Nat := 0

/-- The current maximum existing node index of a scene (`0` for an empty one). -/
def ExistingScene.maxNodeIndex (scene : ExistingScene) : Nat :=
  scene.nodeIndices.foldl max 0

/-- The counter assignments of `Load::prepareLoad` for a load into `scene`: of
the scene it reads `getMaxGroupID()` only. -/
def prepareLoadIn (scene : ExistingScene) (s : LoadState) : LoadState :=
  prepareLoad scene.maxGroupID s

/-- The name, colour and texture of a material descriptor. -/
def MaterialDescriptor.content (d : MaterialDescriptor) : String × ℚ × ℚ × ℚ × ℚ × String :=
  (d.name, d.diffuseFront_r, d.diffuseFront_g, d.diffuseFront_b, d.diffuseFront_a, d.texturename)

/-- The name, colour and texture of an entry of the material table. -/
def Material.content (m : Material) : String × ℚ × ℚ × ℚ × ℚ × String :=
  (m.name, m.r, m.g, m.b, m.a, m.texture_filename)

/-- A scene that already holds the nodes `1` to `5`. -/
def occupiedScene : ExistingScene := { nodeIndices := [1, 2, 3, 4, 5], maxGroupID := 2 }

/-- A document without materials whose only link is `twoVisualLink`. -/
def singleLinkModel : ModelInterface := { materials_ := [], root_link_ := twoVisualLink }

/-! ## The commit phase (`Load::loadScene`) -/

/-- Modelled from the spec: `MaterialData` (interfaces, not under `src/`): the
engine-side material that `MaterialData::fromConfigMap` builds from a material
descriptor. -/
structure MaterialData where
  name : String := ""
  diffuseFront_a : ℚ := 0
  diffuseFront_r : ℚ := 0
  diffuseFront_g : ℚ := 0
  diffuseFront_b : ℚ := 0
  texturename : String := ""
deriving DecidableEq, Repr

/-- Modelled from the spec: `NodeData` (interfaces, not under `src/`): of the
engine-side node the importer reads `index` and `name` and writes `material`;
`config` stands for everything else `NodeData::fromConfigMap` takes from the
descriptor. -/
structure NodeData where
  index : Nat := 0
  name : String := ""
  material : MaterialData := {}
  config : NodeDescriptor := {}
deriving DecidableEq, Repr

/-- Modelled from the spec: `JointData` (interfaces, not under `src/`): of the
engine-side joint the importer reads `index` and `name`; `config` stands for
everything else `JointData::fromConfigMap` takes from the descriptor. -/
structure JointData where
  index : Nat := 0
  name : String := ""
  config : Option JointDescriptor := none
deriving DecidableEq, Repr

/-- Modelled from the spec: the two id spaces of the identity-mapping registry,
the constants `MAP_TYPE_NODE` and `MAP_TYPE_JOINT`. -/
inductive MapType where
  | MAP_TYPE_NODE | MAP_TYPE_JOINT
deriving DecidableEq, Repr

/-- The calls the commit phase makes to its collaborators, in the order they are
made: the three `fromConfigMap` conversions, `control->nodes->addNode` and
`control->joints->addJoint` with the id they return,
`control->loadCenter->setMappedID`, and `control->entities->addNode` and
`addJoint`. -/
inductive Event where
  | materialFromConfigMap (config : MaterialDescriptor)
  | nodeFromConfigMap (config : NodeDescriptor) (mapIndex : Nat)
  | addNode (node : NodeData) (newId : Nat)
  | setMappedID (oldId : Nat) (newId : Nat) (kind : MapType) (mapIndex : Nat)
  | entitiesAddNode (robot : String) (index : Nat) (name : String)
  | jointFromConfigMap (config : JointDescriptor) (mapIndex : Nat)
  | addJoint (joint : JointData) (newId : Nat)
  | entitiesAddJoint (robot : String) (index : Nat) (name : String)
deriving DecidableEq, Repr

/-- Modelled from the spec: the collaborators of the commit phase as functions
that accept or reject a descriptor (none of them is under `src/`): the three
`fromConfigMap` conversions with their validity result, and the node and joint
managers with the new id they return, `0` for a rejection, and the node or
joint as they leave it (they receive a pointer to it). -/
structure Collaborators where
  materialFromConfigMap : MaterialDescriptor → Bool × MaterialData
  nodeFromConfigMap : NodeDescriptor → Nat → Bool × NodeData
  jointFromConfigMap : JointDescriptor → Nat → Bool × JointData
  addNode : NodeData → Nat × NodeData
  addJoint : JointData → Nat × JointData

/-- The members `mapIndex` and `mRobotName` of the `Load` object, fixed before
the commit phase starts. -/
structure LoadContext where
  mapIndex : Nat := 0
  mRobotName : String := ""
deriving DecidableEq, Repr

/-- The name-to-material map `materialMap`; a later entry for a name shadows an
earlier one. -/
abbrev MaterialMap := List (String × MaterialData)

/-- What the commit phase changes: the member `materialMap` and the calls made
to the collaborators so far. -/
structure CommitState where
  materialMap : MaterialMap := []
  log : List Event := []

/-- `Load::loadMaterial`: the material is stored in `materialMap` whether or
not it is valid; the result is the validity (`1` valid, `0` invalid). -/
def loadMaterial (mgr : Collaborators) (config : MaterialDescriptor) (c : CommitState) :
    Nat × CommitState :=
  let (valid, material) := mgr.materialFromConfigMap config
  let c : CommitState :=
    { c with
      log := c.log ++ [.materialFromConfigMap config],
      materialMap := (config.name, material) :: c.materialMap }
  (if valid = true then 1 else 0, c)

/-- The block of `Load::loadNode` that resolves the material of the node: the
material stored under the `materialName` of the descriptor, if that name is not
empty and is in `materialMap`; a descriptor without the key reads as the empty
name. -/
def resolveMaterial (materialMap : MaterialMap) (config : NodeDescriptor) (node : NodeData) :
    NodeData :=
  if config.materialName.getD "" ≠ "" then
    match materialMap.lookup (config.materialName.getD "") with
    | some material => { node with material := material }
    | none => node
  else node

/-- `Load::loadNode`. -/
def loadNode (mgr : Collaborators) (ctx : LoadContext) (config : NodeDescriptor)
    (c : CommitState) : Nat × CommitState :=
  let (valid, node) := mgr.nodeFromConfigMap config ctx.mapIndex
  let c : CommitState := { c with log := c.log ++ [.nodeFromConfigMap config ctx.mapIndex] }
  if valid = false then (0, c)
  else
    let node := resolveMaterial c.materialMap config node
    let oldId := node.index
    let (newId, node1) := mgr.addNode node
    let c : CommitState := { c with log := c.log ++ [.addNode node newId] }
    if newId = 0 then (0, c)
    else
      let c : CommitState :=
        { c with log := c.log ++ [.setMappedID oldId newId .MAP_TYPE_NODE ctx.mapIndex] }
      let c : CommitState :=
        if ctx.mRobotName ≠ "" then
          { c with log := c.log ++ [.entitiesAddNode ctx.mRobotName node1.index node1.name] }
        else c
      (1, c)

/-- `Load::loadJoint`. -/
def loadJoint (mgr : Collaborators) (ctx : LoadContext) (config : JointDescriptor)
    (c : CommitState) : Nat × CommitState :=
  let (valid, joint) := mgr.jointFromConfigMap config ctx.mapIndex
  let c : CommitState := { c with log := c.log ++ [.jointFromConfigMap config ctx.mapIndex] }
  if valid = false then (0, c)
  else
    let oldId := joint.index
    let (newId, joint1) := mgr.addJoint joint
    let c : CommitState := { c with log := c.log ++ [.addJoint joint newId] }
    if newId = 0 then (0, c)
    else
      let c : CommitState :=
        { c with log := c.log ++ [.setMappedID oldId newId .MAP_TYPE_JOINT ctx.mapIndex] }
      let c : CommitState :=
        if ctx.mRobotName ≠ "" then
          { c with log := c.log ++ [.entitiesAddJoint ctx.mRobotName joint1.index joint1.name] }
        else c
      (1, c)

/-- The loop `for (i = 0; i < list.size(); ++i) if (!load(list[i])) return 0;`
that `loadScene` runs over each of its three lists; the result `1` means the
loop ran to its end. -/
def loadEach {α : Type} (load : α → CommitState → Nat × CommitState) :
    List α → CommitState → Nat × CommitState
  | [], c => (1, c)
  | x :: rest, c =>
    let r := load x c
    if r.1 = 0 then (0, r.2) else loadEach load rest r.2

/-- `Load::loadScene`. -/
def loadScene (mgr : Collaborators) (ctx : LoadContext) (s : LoadState) (c : CommitState) :
    Nat × CommitState :=
  let r := loadEach (loadMaterial mgr) s.materialList c
  if r.1 = 0 then (0, r.2)
  else
    let r := loadEach (loadNode mgr ctx) s.nodeList r.2
    if r.1 = 0 then (0, r.2)
    else
      let r := loadEach (loadJoint mgr ctx) s.jointList r.2
      if r.1 = 0 then (0, r.2) else (1, r.2)

/-- A descriptor of one of the three lists. -/
inductive Item where
  | material (config : MaterialDescriptor)
  | node (config : NodeDescriptor)
  | joint (config : JointDescriptor)
deriving DecidableEq, Repr

/-- The descriptors in the order of the specification: all materials in list
order, then all nodes, then all joints. -/
def itemsOf (s : LoadState) : List Item :=
  s.materialList.map .material ++ s.nodeList.map .node ++ s.jointList.map .joint

/-- The node handed to the node manager for a descriptor: the converted node
with its material resolved against `materialMap`. -/
def nodeToAdd (mgr : Collaborators) (ctx : LoadContext) (materialMap : MaterialMap)
    (config : NodeDescriptor) : NodeData :=
  resolveMaterial materialMap config (mgr.nodeFromConfigMap config ctx.mapIndex).2

/-- A descriptor is accepted: its conversion is valid and, for a node or joint,
the manager returns a new id that is not `0`. -/
def itemAccepted (mgr : Collaborators) (ctx : LoadContext) (materialMap : MaterialMap) :
    Item → Bool
  | .material config => (mgr.materialFromConfigMap config).1
  | .node config =>
    (mgr.nodeFromConfigMap config ctx.mapIndex).1 &&
      decide ((mgr.addNode (nodeToAdd mgr ctx materialMap config)).1 ≠ 0)
  | .joint config =>
    (mgr.jointFromConfigMap config ctx.mapIndex).1 &&
      decide ((mgr.addJoint (mgr.jointFromConfigMap config ctx.mapIndex).2).1 ≠ 0)

/-- The `setMappedID` call due for a descriptor: one for an accepted node and
one for an accepted joint, with the index of the converted node or joint as the
old id, and none for a rejected node or joint or for a material. -/
def mappedIDOf (mgr : Collaborators) (ctx : LoadContext) (materialMap : MaterialMap) :
    Item → List Event
  | .material _ => []
  | .node config =>
    if itemAccepted mgr ctx materialMap (.node config) = true then
      [.setMappedID (mgr.nodeFromConfigMap config ctx.mapIndex).2.index
        (mgr.addNode (nodeToAdd mgr ctx materialMap config)).1 .MAP_TYPE_NODE ctx.mapIndex]
    else []
  | .joint config =>
    if itemAccepted mgr ctx materialMap (.joint config) = true then
      [.setMappedID (mgr.jointFromConfigMap config ctx.mapIndex).2.index
        (mgr.addJoint (mgr.jointFromConfigMap config ctx.mapIndex).2).1 .MAP_TYPE_JOINT
        ctx.mapIndex]
    else []

/-- The `entities` call due for a descriptor: one for an accepted node or joint
if a robot name is set. -/
def entityCallOf (mgr : Collaborators) (ctx : LoadContext) (materialMap : MaterialMap) :
    Item → List Event
  | .material _ => []
  | .node config =>
    if itemAccepted mgr ctx materialMap (.node config) = true ∧ ctx.mRobotName ≠ "" then
      [.entitiesAddNode ctx.mRobotName
        (mgr.addNode (nodeToAdd mgr ctx materialMap config)).2.index
        (mgr.addNode (nodeToAdd mgr ctx materialMap config)).2.name]
    else []
  | .joint config =>
    if itemAccepted mgr ctx materialMap (.joint config) = true ∧ ctx.mRobotName ≠ "" then
      [.entitiesAddJoint ctx.mRobotName
        (mgr.addJoint (mgr.jointFromConfigMap config ctx.mapIndex).2).2.index
        (mgr.addJoint (mgr.jointFromConfigMap config ctx.mapIndex).2).2.name]
    else []

/-- The calls due for one descriptor when it is its turn: the conversion of the
descriptor; for a valid node or joint the call to its manager; for an accepted
one the registration of the id pair and the entity call. Every call names this
descriptor or what was converted from it. -/
def itemEvents (mgr : Collaborators) (ctx : LoadContext) (materialMap : MaterialMap) :
    Item → List Event
  | .material config => [.materialFromConfigMap config]
  | .node config =>
    .nodeFromConfigMap config ctx.mapIndex ::
      ((if (mgr.nodeFromConfigMap config ctx.mapIndex).1 = true then
          [.addNode (nodeToAdd mgr ctx materialMap config)
            (mgr.addNode (nodeToAdd mgr ctx materialMap config)).1]
        else []) ++
        mappedIDOf mgr ctx materialMap (.node config) ++
        entityCallOf mgr ctx materialMap (.node config))
  | .joint config =>
    .jointFromConfigMap config ctx.mapIndex ::
      ((if (mgr.jointFromConfigMap config ctx.mapIndex).1 = true then
          [.addJoint (mgr.jointFromConfigMap config ctx.mapIndex).2
            (mgr.addJoint (mgr.jointFromConfigMap config ctx.mapIndex).2).1]
        else []) ++
        mappedIDOf mgr ctx materialMap (.joint config) ++
        entityCallOf mgr ctx materialMap (.joint config))

/-- The test whether a call is a `setMappedID` call. -/
def Event.isSetMappedID : Event → Bool
  | .setMappedID _ _ _ _ => true
  | _ => false

/-- The dispatch of a descriptor to the function that loads it. -/
def loadItem (mgr : Collaborators) (ctx : LoadContext) : Item → CommitState → Nat × CommitState
  | .material config => loadMaterial mgr config
  | .node config => loadNode mgr ctx config
  | .joint config => loadJoint mgr ctx config

/-- The outcome of a run over the descriptors `xs` that returned `r` after it
handled the first `k` of them: either it returned `1`, handled all of them and
all of them were accepted; or it returned `0` and the last descriptor it
handled, the `k`-th, is the first one that was rejected. -/
def RunOutcome {α : Type} (acc : α → Bool) (xs : List α) (r : Nat) (k : Nat) : Prop :=
  (r = 1 ∧ k = xs.length ∧ ∀ x ∈ xs, acc x = true) ∨
  (r = 0 ∧ 0 < k ∧ k ≤ xs.length ∧ (∀ x ∈ xs.take (k - 1), acc x = true) ∧
    ∃ x, xs[k - 1]? = some x ∧ acc x = false)

/-- The `setMappedID` call the specification asks for a descriptor: for an
accepted node or joint one call with the index of the descriptor as the old id,
the id the manager returned as the new id, the kind of the descriptor and the
mapping index of the load; no call for a rejected node or joint, and none for
a material. -/
def registrationOf (mgr : Collaborators) (ctx : LoadContext) (materialMap : MaterialMap) :
    Item → List Event
  | .material _ => []
  | .node config =>
    if itemAccepted mgr ctx materialMap (.node config) = true then
      [.setMappedID (config.index.getD 0)
        (mgr.addNode (nodeToAdd mgr ctx materialMap config)).1 .MAP_TYPE_NODE ctx.mapIndex]
    else []
  | .joint config =>
    if itemAccepted mgr ctx materialMap (.joint config) = true then
      [.setMappedID config.index
        (mgr.addJoint (mgr.jointFromConfigMap config ctx.mapIndex).2).1 .MAP_TYPE_JOINT
        ctx.mapIndex]
    else []

/-- Collaborators that accept every descriptor: the conversions copy name and
index (and the colour of a material), a converted node starts with the
material `default`, and the managers return the index plus `100` as the new id
and write it into the node or joint. -/
def acceptingCollaborators : Collaborators :=
  { materialFromConfigMap := fun d =>
      (true, { name := d.name, diffuseFront_a := d.diffuseFront_a,
               diffuseFront_r := d.diffuseFront_r, diffuseFront_g := d.diffuseFront_g,
               diffuseFront_b := d.diffuseFront_b, texturename := d.texturename }),
    nodeFromConfigMap := fun d _ =>
      (true, { index := d.index.getD 0, name := d.name.getD "",
               material := { name := "default" }, config := d }),
    jointFromConfigMap := fun d _ => (true, { index := d.index, name := d.name, config := some d }),
    addNode := fun n => (n.index + 100, { n with index := n.index + 100 }),
    addJoint := fun j => (j.index + 100, { j with index := j.index + 100 }) }

/-- Collaborators like `acceptingCollaborators` whose node manager rejects the
node with index `2`. -/
def rejectingCollaborators : Collaborators :=
  { acceptingCollaborators with
    addNode := fun n => if n.index = 2 then (0, n) else (n.index + 100, n) }

/-- The fallback material descriptor as `createFakeMaterial` builds it first. -/
def fakeMaterialDescriptor : MaterialDescriptor :=
  { id := 1, name := "_fakeMaterial", exists_ := true,
    diffuseFront_a := 1, diffuseFront_r := 1, diffuseFront_g := 0, diffuseFront_b := 0,
    texturename := "", cullMask := some 0 }

/-- A node descriptor whose source visual names no material. -/
def unnamedMaterialNode : NodeDescriptor :=
  { name := some "head", index := some 1, materialName := some "" }

/-- A node descriptor whose source visual names the material `blue`. -/
def blueMaterialNode : NodeDescriptor :=
  { name := some "lamp", index := some 2, materialName := some "blue" }

/-- The lists of a small load: the fallback material, the two nodes
`unnamedMaterialNode` and `blueMaterialNode`, and a joint between them. -/
def smallLoad : LoadState :=
  { materialList := [fakeMaterialDescriptor],
    nodeList := [unnamedMaterialNode, blueMaterialNode],
    jointList :=
      [{ name := "neck", index := 1, nodeindex1 := 1, nodeindex2 := 2, anchorpos := 2,
         type := "fixed", axis1 := {} }] }

/-! ## The link tree and the name-to-index map -/

mutual
/-- The names of the links of a tree, in the order of the walk. -/
def Link.subtreeNames : Link → List String
  | .mk name _ _ _ _ _ _ child_links => name :: Link.childrenNames child_links
/-- The names of the links of the trees of a list of child links. -/
def Link.childrenNames : List Link → List String
  | [] => []
  | child :: rest => child.subtreeNames ++ Link.childrenNames rest
end

mutual
/-- The pairs (parent link, child link) of a tree, in the order in which the walk
reaches the child. -/
def Link.edges : Link → List (Link × Link)
  | .mk name inertial visual collision visual_array collision_array parent_joint child_links =>
    Link.edgesFrom
      (.mk name inertial visual collision visual_array collision_array parent_joint child_links)
      child_links
/-- The pairs (parent link, child link) below `parent` for a list of its child
links. -/
def Link.edgesFrom (parent : Link) : List Link → List (Link × Link)
  | [] => []
  | child :: rest => (parent, child) :: (child.edges ++ Link.edgesFrom parent rest)
end

/-- The parent joint of the child link of an edge names its actual parent and
child link. -/
def JointNamesEdge (e : Link × Link) : Prop :=
  ∃ j, e.2.parent_joint = some j ∧ j.parent_link_name = e.1.name ∧
    j.child_link_name = e.2.name

/-- A descriptor is a primary descriptor: it carries the key `inertia`, which
`handleInertial` writes for the primary descriptor of every link and which no
child descriptor gets. -/
def isPrimary (d : NodeDescriptor) : Bool := d.inertia.isSome

/-- The joint descriptor `jd` is resolved for the edge from `p` to `c` within the
node list `nodes`: it is the descriptor of the parent joint of `c`, its
`nodeindex1` is the index of the primary descriptor of `p`, its `nodeindex2`
the index of the primary descriptor of `c`, both are not `0` and the first is
the smaller one, and the `relativeid` of the primary descriptor of `c` is the
index of the primary descriptor of `p`. -/
def JointResolved (nodes : List NodeDescriptor) (jd : JointDescriptor) (p c : Link) : Prop :=
  ∃ j dp dc, c.parent_joint = some j ∧ jd.name = j.name ∧
    0 < jd.nodeindex1 ∧ jd.nodeindex1 < jd.nodeindex2 ∧
    dp ∈ nodes ∧ isPrimary dp = true ∧ dp.name = some p.name ∧
    dp.index = some jd.nodeindex1 ∧
    dc ∈ nodes ∧ isPrimary dc = true ∧ dc.name = some c.name ∧
    dc.index = some jd.nodeindex2 ∧ dc.relativeid = some jd.nodeindex1

/-- The value `calculatePose` writes to `relativeid` with the name-to-index map
`m`: the entry of the parent link, `0` for a link without parent joint. -/
def parentIndexIn (m : NodeIDMap) (link : Link) (parent : Option Link) : Nat :=
  match link.parent_joint, parent with
  | some _, some parentLink => m.get parentLink.name
  | _, _ => 0

/-- The value `calculatePose` writes to `relativeid` for a link handled in state
`s`: at that point the map holds the entry of the link itself. -/
def parentIndexAt (link : Link) (parent : Option Link) (s : LoadState) : Nat :=
  parentIndexIn (s.nodeIDMap.set link.name s.nextNodeID) link parent

/-- The joint descriptors `handleKinematics` appends for the parent joint of a
link handled in state `s`: none without parent joint, else one, with the
entries of the two link names of the joint as its node indices. -/
def OwnJoint (link : Link) (s : LoadState) (own : List JointDescriptor) : Prop :=
  match link.parent_joint with
  | none => own = []
  | some j =>
    ∃ jd : JointDescriptor, own = [jd] ∧ jd.name = j.name ∧
      jd.nodeindex1 = (s.nodeIDMap.set link.name s.nextNodeID).get j.parent_link_name ∧
      jd.nodeindex2 = (s.nodeIDMap.set link.name s.nextNodeID).get j.child_link_name

/-- What the walk from `link` leaves behind: the primary descriptor of the link
first, the primary descriptors in the order of the walk, the joint descriptor
of the link followed by one resolved joint descriptor per edge below it, and
a name-to-index map that holds the index of the link and is unchanged for the
names outside the tree. -/
def KinematicsSpec (link : Link) (parent : Option Link) (s s1 : LoadState) : Prop :=
  ∃ d0 rest own newJ,
    s1.nodeList = s.nodeList ++ d0 :: rest ∧
    s1.jointList = s.jointList ++ own ++ newJ ∧
    isPrimary d0 = true ∧ d0.name = some link.name ∧ d0.index = some s.nextNodeID ∧
    d0.relativeid = some (parentIndexAt link parent s) ∧
    ((d0 :: rest).filter isPrimary).map (fun d => d.name) = link.subtreeNames.map some ∧
    OwnJoint link s own ∧
    List.Forall₂ (fun jd e => JointResolved s1.nodeList jd e.1 e.2) newJ link.edges ∧
    (∀ n, n ∉ link.subtreeNames → s1.nodeIDMap.get n = s.nodeIDMap.get n) ∧
    s1.nodeIDMap.get link.name = s.nextNodeID ∧
    s.nextNodeID < s1.nextNodeID

/-- What the loop over the child links `cs` of `link` leaves behind. -/
def ChildLinksSpec (cs : List Link) (link : Link) (s s1 : LoadState) : Prop :=
  ∃ new newJ,
    s1.nodeList = s.nodeList ++ new ∧
    s1.jointList = s.jointList ++ newJ ∧
    (new.filter isPrimary).map (fun d => d.name) = (Link.childrenNames cs).map some ∧
    List.Forall₂ (fun jd e => JointResolved s1.nodeList jd e.1 e.2) newJ
      (Link.edgesFrom link cs) ∧
    (∀ n, n ∉ Link.childrenNames cs → s1.nodeIDMap.get n = s.nodeIDMap.get n) ∧
    s.nextNodeID ≤ s1.nextNodeID

/-- A root link `base` whose child link is `bareChild`, joined by `shoulder`. -/
def jointedRoot : Link := .mk "base" none none none [] [] none [bareChild]

/-- A document without materials whose link tree is `jointedRoot`. -/
def jointedModel : ModelInterface := { materials_ := [], root_link_ := jointedRoot }

/-- The statement of the specification on the numeric equivalence of two poses:
every position component and every rotation component differs by no more than
`ε` in absolute value. -/
def Pose.within (ε : ℚ) (p1 p2 : Pose) : Prop :=
  |p1.position.x - p2.position.x| ≤ ε ∧ |p1.position.y - p2.position.y| ≤ ε ∧
  |p1.position.z - p2.position.z| ≤ ε ∧ |p1.rotation.x - p2.rotation.x| ≤ ε ∧
  |p1.rotation.y - p2.rotation.y| ≤ ε ∧ |p1.rotation.z - p2.rotation.z| ≤ ε ∧
  |p1.rotation.w - p2.rotation.w| ≤ ε

/-- The squared norm of a quaternion, as `GetInverse` computes it. -/
def Rotation.normSq (q : Rotation) : ℚ :=
  q.w * q.w + q.x * q.x + q.y * q.y + q.z * q.z

/-- A displaced and rotated box collision. -/
def tiltedBox : Collision :=
  { origin := { position := { x := 1, y := 2 }, rotation := { z := 3 / 5, w := 4 / 5 } },
    geometry := unitBox }

/-- A link without inertial record whose only collision is `tiltedBox`. -/
def tiltedCollisionLink : Link :=
  .mk "lid" none none (some tiltedBox) [] [tiltedBox] none []

/-- A mesh collision `hull.stl` displaced by `(1, 0, 0)`. -/
def offsetHull : Collision :=
  { origin := { position := { x := 1 } },
    geometry := .mesh "hull.stl" { x := 1, y := 1, z := 1 } }

/-- A root link with an inertial record at the identity pose, the mesh visual
`body.dae` and the collision `offsetHull`, whose origin differs from that of the
inertial record. -/
def offsetCollisionLink : Link :=
  .mk "body" (some {}) (some bodyVisual) (some offsetHull) [bodyVisual] [offsetHull] none []

/-- The collision elements the first child loop visits: those from
`collisionArrayIndex` on. -/
def remainingCollisions (link : Link) (p : Primary) : List Collision :=
  link.collision_array.drop p.collisionArrayIndex

/-- The value of `visualArrayIndex` at the head of pass `k` of the first child
loop (and, for `k` the number of passes, when the loop ends). -/
def pairingIndex (link : Link) (p : Primary) (k : Nat) : Nat :=
  collisionChildrenIndex link p.config ((remainingCollisions link p).take k)
    p.visualArrayIndex p.state.nextNodeID

/-- The descriptors the first child loop appends for a link. -/
def collisionChildrenOf (link : Link) (p : Primary) : List NodeDescriptor :=
  collisionChildNodes link p.config (remainingCollisions link p) p.visualArrayIndex
    p.state.nextNodeID

/-- The descriptors the second child loop appends for a link. -/
def visualChildrenOf (link : Link) (p : Primary) : List NodeDescriptor :=
  visualChildNodes link p.config
    (link.visual_array.drop (pairingIndex link p (remainingCollisions link p).length))
    (p.state.nextNodeID + (remainingCollisions link p).length)

/-- A sphere collision. -/
def ballCollision : Collision := { geometry := .sphere (1 / 4) }

/-- A root link with two visual elements and three collision elements: the
second collision is a mesh, the third one a sphere. -/
def retriedVisualLink : Link :=
  .mk "rig" none (some boxVisual) (some boxCollision) [boxVisual, lampVisual]
    [boxCollision, hullCollision, ballCollision] none []

/-! ## The whole load (`Load::load`, `Load::prepareLoad`, `Load::parseScene`) -/

/-- Modelled from the spec: what opening `sceneFilename` (`QFile::open`) and
parsing it (`urdf::parseURDFFile`, not under `src/`) give: the file cannot be
opened, the parser returns a null model, or the parser returns a model. -/
inductive Document where
  | unreadable
  | malformed
  | parsed (model : ModelInterface)

/-- Modelled from the spec: the collaborators as `prepareLoad` reads them (the
node manager, the identity-mapping registry, the archive library; none of them
is under `src/`): the value of `getMaxGroupID()`, the value of
`getMappedSceneByName` for a file name before and after
`setMappedSceneName`, whether `unzip` succeeds, and the document behind
`sceneFilename`. -/
structure LoadEnvironment where
  maxGroupID : Nat := 0
  mappedSceneByName : String → Nat := fun _ => 0
  mappedSceneAfterSet : String → Nat := fun _ => 1
  unzipOk : Bool := true
  document : Document := .unreadable

/-- The arguments of the constructor of `Load`: the file name, the robot name,
and the suffix of the file name as `getFilenameSuffix` (not under `src/`)
returns it. -/
structure LoadRequest where
  mFileName : String
  mRobotName : String := ""
  mFileSuffix : String := ".urdf"

/-- A state-changing call `prepareLoad` makes to a collaborator. -/
inductive SetupEvent where
  | addEntity (name : String)
  | unzip (zipFilename : String)
  | setMappedSceneName (fileName : String)
deriving DecidableEq, Repr

/-- What `prepareLoad` leaves behind: its result, the counters, the member
`mapIndex` and the calls it made. -/
structure Prepared where
  result : Nat
  state : LoadState
  mapIndex : Nat
  log : List SetupEvent

/-- `Load::prepareLoad` with its calls to the collaborators. The member
`mapIndex` is not assigned when `unzip` fails; it is never read after that and
is `0` here. The path and file name computations only determine which file
`parseScene` opens, which is `env.document`. -/
def prepareLoadCalls (env : LoadEnvironment) (req : LoadRequest) (s : LoadState) : Prepared :=
  let s := prepareLoad env.maxGroupID s
  let log : List SetupEvent :=
    if req.mRobotName ≠ "" then [.addEntity req.mRobotName] else []
  if req.mFileSuffix = ".zsmurf" ∧ env.unzipOk = false then
    { result := 0, state := s, mapIndex := 0, log := log ++ [.unzip req.mFileName] }
  else
    let log : List SetupEvent :=
      if req.mFileSuffix = ".zsmurf" then log ++ [.unzip req.mFileName] else log
    let mapIndex := env.mappedSceneByName req.mFileName
    if mapIndex = 0 then
      { result := 1, state := s, mapIndex := env.mappedSceneAfterSet req.mFileName,
        log := log ++ [.setMappedSceneName req.mFileName] }
    else
      { result := 1, state := s, mapIndex := mapIndex, log := log }

/-- `Load::parseScene`: `0` when the file cannot be opened or parsed, else the
descriptors of the model and `1`; `none` where the walk dereferences a null
parent. -/
def parseScene (doc : Document) (s : LoadState) : Option (Nat × LoadState) :=
  match doc with
  | .unreadable => some (0, s)
  | .malformed => some (0, s)
  | .parsed model =>
    match parseSceneModel model s with
    | some s1 => some (1, s1)
    | none => none

/-- What a load leaves behind: its result, the members of the `Load` object,
the calls of `prepareLoad` and the state of the commit phase. -/
structure LoadOutcome where
  result : Nat
  state : LoadState
  setup : List SetupEvent
  commit : CommitState

/-- `Load::load`. -/
def load (mgr : Collaborators) (env : LoadEnvironment) (req : LoadRequest) (s : LoadState)
    (c : CommitState) : Option LoadOutcome :=
  let pr := prepareLoadCalls env req s
  if pr.result = 0 then some { result := 0, state := pr.state, setup := pr.log, commit := c }
  else
    match parseScene env.document pr.state with
    | none => none
    | some (r, s1) =>
      if r = 0 then some { result := 0, state := s1, setup := pr.log, commit := c }
      else
        let rc := loadScene mgr { mapIndex := pr.mapIndex, mRobotName := req.mRobotName } s1 c
        some { result := rc.1, state := s1, setup := pr.log, commit := rc.2 }

/-- The calls `prepareLoad` makes when `unzip` does not fail. -/
def setupCalls (env : LoadEnvironment) (req : LoadRequest) : List SetupEvent :=
  (if req.mRobotName ≠ "" then [.addEntity req.mRobotName] else []) ++
  (if req.mFileSuffix = ".zsmurf" then [.unzip req.mFileName] else []) ++
  (if env.mappedSceneByName req.mFileName = 0 then [.setMappedSceneName req.mFileName] else [])

/-- A request to load the file `robot.urdf` as the robot `robot`. -/
def robotRequest : LoadRequest := { mFileName := "robot.urdf", mRobotName := "robot" }

/-! ## The walk as a list of links in pre-order -/

mutual
/-- The links of a tree in the order in which `handleKinematics` visits them. -/
def Link.subtree : Link → List Link
  | .mk name inertial visual collision visual_array collision_array parent_joint child_links =>
    .mk name inertial visual collision visual_array collision_array parent_joint child_links ::
      Link.subtrees child_links
/-- The links of the trees of a list of child links, in the order of the walk. -/
def Link.subtrees : List Link → List Link
  | [] => []
  | child :: rest => child.subtree ++ Link.subtrees rest
end

/-- The descriptors of one link as a block: the primary descriptor and the
child descriptors behind it. -/
abbrev Block := NodeDescriptor × List NodeDescriptor

/-- The descriptors of a block in the order of the node list. -/
def Block.nodes (b : Block) : List NodeDescriptor := b.1 :: b.2

/-- The block `b` holds the descriptors `handleKinematics` builds for the link
`l`: the primary descriptor and the child descriptors of `l`, built in some
state with some parent. -/
def LinkBlock (l : Link) (b : Block) : Prop :=
  ∃ parent s p, primaryNode l parent s = some p ∧ b = (p.config, childNodes l p)

/-- The flag `needGroupID` of each link of a list. -/
def groupFlags (links : List Link) : List Bool :=
  links.map (fun l => (specialCaseHandling l).needGroupID)

/-- The group ids the statement `config["groupid"] = nextGroupID++` (or `= 0`)
hands out for a sequence of links with the given `needGroupID` flags, when the
counter stands at `c`; the counter wraps at `ULONG_RANGE`. -/
def groupIDsFrom (c : Nat) : List Bool → List Nat
  | [] => []
  | true :: rest => c :: groupIDsFrom ((c + 1) % ULONG_RANGE) rest
  | false :: rest => 0 :: groupIDsFrom c rest

/-- The value of `nextGroupID` behind a sequence of links. -/
def groupCounterAfter (c : Nat) : List Bool → Nat
  | [] => c
  | true :: rest => groupCounterAfter ((c + 1) % ULONG_RANGE) rest
  | false :: rest => groupCounterAfter c rest

/-- The group ids in the words of the specification: the links that need a
group id get `c`, `c + 1`, ... in order, the others `0`. -/
def preorderGroupIDs (c : Nat) : List Bool → List Nat
  | [] => []
  | true :: rest => c :: preorderGroupIDs (c + 1) rest
  | false :: rest => 0 :: preorderGroupIDs c rest

/-- What the walk over the links `links` (in this order) leaves behind: one
block per link appended to the node list, with the group ids handed out in
order. -/
def WalkBlocks (links : List Link) (s s1 : LoadState) : Prop :=
  ∃ blocks : List Block,
    s1.nodeList = s.nodeList ++ blocks.flatMap Block.nodes ∧
    List.Forall₂ LinkBlock links blocks ∧
    blocks.map (fun b => b.1.groupid) =
      (groupIDsFrom s.nextGroupID (groupFlags links)).map some ∧
    s1.nextGroupID = groupCounterAfter s.nextGroupID (groupFlags links)

/-! ## Which elements a descriptor is built from -/

/-- The elements of a link a descriptor is built from: the position in
`visual_array` of the visual given to `handleVisual`, and the position in
`collision_array` of the collision given to `handleCollision`; `none` where
the descriptor gets no element. -/
structure Usage where
  visual : Option Nat
  collision : Option Nat
deriving DecidableEq, Repr

/-- The elements the primary descriptor is built from: `link->visual` if
`loadVisual` is set and `link->collision` if `loadCollision` is set, both read
as element `0` of their array. -/
def primaryUsage (link : Link) : Usage :=
  { visual := if (specialCaseHandling link).loadVisual = true then some 0 else none,
    collision := if (specialCaseHandling link).loadCollision = true then some 0 else none }

/-- The elements the descriptors of the first child loop are built from: each
pass takes the collision at `collisionArrayIndex` and, if the check passes, the
visual at `visualArrayIndex`. -/
def collisionChildUsages (link : Link) : List Collision → Nat → Nat → List Usage
  | [], _, _ => []
  | collision :: rest, visualArrayIndex, collisionArrayIndex =>
    match candidateVisual link collision visualArrayIndex with
    | some _ =>
      { visual := some visualArrayIndex, collision := some collisionArrayIndex } ::
        collisionChildUsages link rest (visualArrayIndex + 1) (collisionArrayIndex + 1)
    | none =>
      { visual := none, collision := some collisionArrayIndex } ::
        collisionChildUsages link rest visualArrayIndex (collisionArrayIndex + 1)

/-- The elements the descriptors of the second child loop are built from: the
visuals from `visualArrayIndex` on, one per pass. -/
def visualChildUsages (visualArrayIndex count : Nat) : List Usage :=
  (List.range' visualArrayIndex count).map (fun k => { visual := some k, collision := none })

/-- The elements the descriptors of a link are built from, in the order of the
descriptors. -/
def linkUsages (link : Link) (p : Primary) : List Usage :=
  primaryUsage link ::
    (collisionChildUsages link (remainingCollisions link p) p.visualArrayIndex
        p.collisionArrayIndex ++
      visualChildUsages (pairingIndex link p (remainingCollisions link p).length)
        (link.visual_array.length - pairingIndex link p (remainingCollisions link p).length))

/-- The descriptor `d` is built from the elements `u` names: it carries the
visual and the collision at these positions; without a visual it has the
material `_fakeMaterial` of the placeholder visual, and without a collision it
has the placeholder collision or is a visual-only child (`noPhysical`). -/
def Uses (link : Link) (d : NodeDescriptor) (u : Usage) : Prop :=
  (∀ k, u.visual = some k → ∃ v, link.visual_array[k]? = some v ∧ carriesVisual d v) ∧
  (u.visual = none → d.materialName = some "_fakeMaterial") ∧
  (∀ k, u.collision = some k →
    ∃ c, link.collision_array[k]? = some c ∧ carriesCollision d c) ∧
  (u.collision = none → hasFakeCollision d ∨ d.noPhysical = some true)

/-! ## Double arithmetic (the rounding of the `double` operations of the source) -/

/-- Rounding of a rational to the nearest integer, ties to the even one. -/
def roundHalfEven (y : ℚ) : ℤ :=
  if y - ⌊y⌋ < 1 / 2 then ⌊y⌋
  else if y - ⌊y⌋ > 1 / 2 then ⌊y⌋ + 1
  else if ⌊y⌋ % 2 = 0 then ⌊y⌋
  else ⌊y⌋ + 1

/-- The exponent of the spacing of the `double` values around `x`: the values
with `2 ^ e ≤ |x| < 2 ^ (e + 1)` are `2 ^ (e - 52)` apart, and below the
smallest normal value `2 ^ (-1022)` they are `2 ^ (-1074)` apart. -/
def doubleSpacingExponent (x : ℚ) : ℤ :=
  max (Int.log 2 |x|) (-1022) - 52

/-- Modelled from the spec: the result of a `double` operation whose exact result
is `x`, as IEEE 754 binary64 arithmetic in round-to-nearest-even mode (the
arithmetic of the C++ type `double`, not under `src/`) delivers it: the nearest
multiple of the spacing, which is `0` for a result that underflows. Overflow
to infinity and the sign of zero are not modelled. -/
def roundDouble (x : ℚ) : ℚ :=
  if x = 0 then 0
  else (roundHalfEven (x / (2 : ℚ) ^ doubleSpacingExponent x) : ℚ) *
    (2 : ℚ) ^ doubleSpacingExponent x

/-- Modelled from the spec: `urdf::Rotation::GetInverse` as it computes on
`double` members: every product, sum and quotient is rounded. -/
def Rotation.GetInverseDouble (q : Rotation) : Rotation :=
  let norm := roundDouble (roundDouble (roundDouble (roundDouble (q.w * q.w) +
    roundDouble (q.x * q.x)) + roundDouble (q.y * q.y)) + roundDouble (q.z * q.z))
  if norm > 0 then
    { x := roundDouble (-q.x / norm), y := roundDouble (-q.y / norm),
      z := roundDouble (-q.z / norm), w := roundDouble (q.w / norm) }
  else
    {}

/-- Modelled from the spec: `urdf::Rotation::operator*(Rotation)` on `double`
members, every product and every sum or difference rounded, evaluated from
left to right. -/
def Rotation.mulDouble (a qt : Rotation) : Rotation :=
  { x := roundDouble (roundDouble (roundDouble (roundDouble (a.w * qt.x) +
      roundDouble (a.x * qt.w)) + roundDouble (a.y * qt.z)) - roundDouble (a.z * qt.y)),
    y := roundDouble (roundDouble (roundDouble (roundDouble (a.w * qt.y) -
      roundDouble (a.x * qt.z)) + roundDouble (a.y * qt.w)) + roundDouble (a.z * qt.x)),
    z := roundDouble (roundDouble (roundDouble (roundDouble (a.w * qt.z) +
      roundDouble (a.x * qt.y)) - roundDouble (a.y * qt.x)) + roundDouble (a.z * qt.w)),
    w := roundDouble (roundDouble (roundDouble (roundDouble (a.w * qt.w) -
      roundDouble (a.x * qt.x)) - roundDouble (a.y * qt.y)) - roundDouble (a.z * qt.z)) }

/-- Modelled from the spec: `urdf::Rotation::operator*(Vector3)` on `double`
members. -/
def Rotation.rotateDouble (q : Rotation) (vec : Vector3) : Vector3 :=
  let tmp : Rotation :=
    q.mulDouble (Rotation.mulDouble { x := vec.x, y := vec.y, z := vec.z, w := 0 }
      q.GetInverseDouble)
  { x := tmp.x, y := tmp.y, z := tmp.z }

/-- Modelled from the spec: `urdf::Vector3::operator+` on `double` members. -/
def Vector3.addDouble (a b : Vector3) : Vector3 :=
  { x := roundDouble (a.x + b.x), y := roundDouble (a.y + b.y), z := roundDouble (a.z + b.z) }

/-- `Load::convertPose(pose, toPose, v, q)` as it computes on `double` members;
the three `*= -1` statements are exact. -/
def convertPoseDouble (pose toPose : Pose) : Vector3 × Rotation :=
  let pose_ := pose
  let toPose_ : Pose := { toPose with position := toPose.position.neg }
  let p : Vector3 := pose_.position.addDouble toPose_.position
  let p : Vector3 := toPose_.rotation.rotateDouble p
  let r : Rotation := toPose_.rotation.GetInverseDouble.mulDouble pose_.rotation
  (p, r)

/-- A pose at the origin whose rotation `(0, 0, 0, 2 ^ (-600))` has the norm
`2 ^ (-600)`, a `double` value; the square of the norm, `2 ^ (-1200)`, is below
the smallest positive `double` value `2 ^ (-1074)`. -/
def tinyRotationPose : Pose :=
  { rotation := { x := 0, y := 0, z := 0, w := 1 / 2 ^ 600 } }

/-! ## Properties -/

theorem Rotation.hmul_vec_eq (q : Rotation) (v : Vector3) : q * v = q.rotate v := rfl

theorem Rotation.mul_eq (a b : Rotation) : a * b = a.mul b := rfl

theorem Vector3.add_eq (a b : Vector3) : a + b = a.add b := rfl

theorem Vector3.sub_eq (a b : Vector3) : a - b = a.sub b := rfl

theorem Vector3.add_neg_eq_sub (a b : Vector3) : a + b.neg = a - b := by
  show Vector3.add a b.neg = Vector3.sub a b
  simp only [Vector3.add, Vector3.neg, Vector3.sub, Vector3.mk.injEq]
  refine ⟨?_, ?_, ?_⟩ <;> ring

/-- C1: for a non-root link with an inertial record whose parent has an inertial
record, `calculatePose` writes `position = inverse(Pr) * (J.position - Pp +
J.rotation * Cp)` and `rotation = inverse(Pr) * Cr * J.rotation`, with `J` the
parent-to-joint origin of the parent joint, `(Pp, Pr)` the inertial origin of the
parent and `(Cp, Cr)` the inertial origin of the link; and the result does not
change when the child links of the link (or of the parent) are replaced. -/
theorem C1_calculatePose_inertial_formula (nodeIDMap : NodeIDMap) (map : NodeDescriptor)
    (link parent : Link) (J : Joint) (Pi Ci : Inertial)
    (hJ : link.parent_joint = some J) (hP : parent.inertial = some Pi)
    (hC : link.inertial = some Ci) :
    (∃ out, calculatePose nodeIDMap map link (some parent) = some out ∧
      out.position = some (Pi.origin.rotation.GetInverse *
        (J.parent_to_joint_origin_transform.position - Pi.origin.position +
          J.parent_to_joint_origin_transform.rotation * Ci.origin.position)) ∧
      out.rotation = some (Pi.origin.rotation.GetInverse * Ci.origin.rotation *
        J.parent_to_joint_origin_transform.rotation)) ∧
    ∀ cs cs2 : List Link,
      calculatePose nodeIDMap map (link.withChildren cs) (some (parent.withChildren cs2)) =
        calculatePose nodeIDMap map link (some parent) := by
  constructor
  · simp only [calculatePose, hJ, hP, hC]
    exact ⟨_, rfl, by simp only [Vector3.add_neg_eq_sub], rfl⟩
  · intro cs cs2
    cases link
    cases parent
    rfl

/-- Witness of C1 on `poseChild` under `poseParent`. -/
theorem C1_calculatePose_inertial_formula_witness :
    poseChild.parent_joint = some poseJoint ∧
    poseParent.inertial =
      some { origin := { position := { x := 1 }, rotation := { z := 3 / 5, w := 4 / 5 } } } ∧
    poseChild.inertial = some poseChildInertial ∧
    ∃ out, calculatePose [("base", 1)] {} poseChild (some poseParent) = some out ∧
      out.position = some { x := 62 / 25, y := -34 / 25, z := 1 } ∧
      out.rotation = some { x := 12 / 25, y := -9 / 25, z := 16 / 25, w := 12 / 25 } := by
  refine ⟨rfl, rfl, rfl, ?_⟩
  obtain ⟨⟨out, h, hp, hr⟩, _⟩ :=
    C1_calculatePose_inertial_formula [("base", 1)] {} poseChild poseParent poseJoint
      { origin := { position := { x := 1 }, rotation := { z := 3 / 5, w := 4 / 5 } } }
      poseChildInertial rfl rfl rfl
  refine ⟨out, h, ?_, ?_⟩
  · rw [hp]
    simp only [poseJoint, poseChildInertial, Rotation.hmul_vec_eq, Vector3.add_eq, Vector3.sub_eq,
      Rotation.rotate, Rotation.mul, Rotation.GetInverse, Vector3.add, Vector3.sub]
    norm_num
  · rw [hr]
    simp only [poseJoint, poseChildInertial, Rotation.mul_eq, Rotation.mul, Rotation.GetInverse]
    norm_num

/-- C2 (the code departs from the claim): for the child `bareChild` of
`collisionOnlyParent`, a parent without inertial record whose collision origin
is `(1, 0, 0)`, `calculatePose` uses the identity pose as the parent pose and
writes the position `(0, 0, 0)`, whereas the composition with the resolved
reference pose of the parent (its collision origin) gives `(-1, 0, 0)`; the
parent node itself is placed at its collision origin `(1, 0, 0)`. -/
theorem C2_parent_collision_origin_not_used :
    (calculatePose [("base", 1)] {} bareChild (some collisionOnlyParent)).map
        (fun out => (out.position, out.rotation)) =
      some (some { x := 0, y := 0, z := 0 }, some { x := 0, y := 0, z := 0, w := 1 }) ∧
    parentInertialPoseOf bareChild (some collisionOnlyParent) = {} ∧
    referenceOrigin collisionOnlyParent = { position := { x := 1 } } ∧
    composePose (jointPoseOf bareChild) (referenceOrigin collisionOnlyParent)
        (referenceOrigin bareChild) =
      ({ x := -1, y := 0, z := 0 }, { x := 0, y := 0, z := 0, w := 1 }) ∧
    (calculatePose [] {} collisionOnlyParent none).map (fun out => out.position) =
      some (some { x := 1, y := 0, z := 0 }) := by
  refine ⟨?_, rfl, rfl, ?_, ?_⟩
  · simp only [calculatePose, bareChild, collisionOnlyParent, Link.parent_joint, Link.inertial,
      Link.collision, Link.name, Option.map, Rotation.hmul_vec_eq, Rotation.mul_eq,
      Vector3.add_eq, Rotation.rotate, Rotation.mul, Rotation.GetInverse, Vector3.add,
      Vector3.neg]
    norm_num
  · simp only [composePose, jointPoseOf, referenceOrigin, bareChild, collisionOnlyParent,
      Link.parent_joint, Link.inertial, Link.collision, Rotation.hmul_vec_eq, Rotation.mul_eq,
      Vector3.add_eq, Vector3.sub_eq, Rotation.rotate, Rotation.mul, Rotation.GetInverse,
      Vector3.add, Vector3.sub]
    norm_num
  · simp only [calculatePose, collisionOnlyParent, Link.parent_joint, Link.inertial,
      Link.collision, Option.map, Rotation.hmul_vec_eq, Rotation.mul_eq,
      Vector3.add_eq, Rotation.rotate, Rotation.mul, Rotation.GetInverse, Vector3.add,
      Vector3.neg]
    norm_num

theorem Rotation.identity_rotate (v : Vector3) : ({} : Rotation) * v = v := by
  cases v
  simp only [Rotation.hmul_vec_eq, Rotation.rotate, Rotation.mul, Rotation.GetInverse]
  norm_num

theorem Rotation.identity_inverse_mul (r : Rotation) : ({} : Rotation).GetInverse * r = r := by
  cases r
  simp only [Rotation.mul_eq, Rotation.mul, Rotation.GetInverse]
  norm_num

theorem Vector3.add_zero_neg (v : Vector3) : v + ({} : Vector3).neg = v := by
  cases v
  simp only [Vector3.add_eq, Vector3.add, Vector3.neg]
  norm_num

theorem convertPose_identity (pose : Pose) :
    convertPose pose {} = (pose.position, pose.rotation) := by
  simp only [convertPose, Vector3.add_zero_neg, Rotation.identity_rotate,
    Rotation.identity_inverse_mul]

theorem calculatePose_eq_composePose (nodeIDMap : NodeIDMap) (map : NodeDescriptor)
    (link : Link) (parent : Option Link) (out : NodeDescriptor)
    (h : calculatePose nodeIDMap map link parent = some out) :
    out.position = some (composePose (jointPoseOf link) (parentInertialPoseOf link parent)
        (referenceOrigin link)).1 ∧
    out.rotation = some (composePose (jointPoseOf link) (parentInertialPoseOf link parent)
        (referenceOrigin link)).2 := by
  unfold calculatePose at h
  unfold composePose jointPoseOf parentInertialPoseOf referenceOrigin
  cases hj : link.parent_joint with
  | none =>
    simp only [hj] at h
    cases h
    simp only [Vector3.add_neg_eq_sub, and_self]
  | some j =>
    cases parent with
    | none => simp [hj] at h
    | some p =>
      simp only [hj] at h
      cases h
      simp only [Vector3.add_neg_eq_sub, and_self]

theorem calculatePose_isSome (nodeIDMap : NodeIDMap) (map : NodeDescriptor)
    (link : Link) (parent : Option Link)
    (h : link.parent_joint = none ∨ parent.isSome = true) :
    (calculatePose nodeIDMap map link parent).isSome = true := by
  unfold calculatePose
  cases hj : link.parent_joint with
  | none => rfl
  | some j =>
    cases parent with
    | none => simp [hj] at h
    | some p => rfl

/-- C3: the reference origin of a link is its inertial origin if it has an
inertial record (whether or not it has a collision), else the origin of its
primary collision if it has one, else the identity pose: `convertPose(pose,
link)` converts against that pose, `calculatePose` (which returns whenever the
parent it needs is there) composes the node pose with that pose as the own
reference, and for a link with neither record `convertPose(pose, link)` returns
the position and rotation of `pose` unchanged. -/
theorem C3_reference_origin_policy (link : Link) :
    (∀ i, link.inertial = some i → referenceOrigin link = i.origin) ∧
    (∀ c, link.inertial = none → link.collision = some c → referenceOrigin link = c.origin) ∧
    (link.inertial = none → link.collision = none → referenceOrigin link = {}) ∧
    (∀ pose, convertPoseLink pose link = convertPose pose (referenceOrigin link)) ∧
    (∀ nodeIDMap map parent, (link.parent_joint = none ∨ parent.isSome = true) →
      ∃ out, calculatePose nodeIDMap map link parent = some out ∧
        out.position = some (composePose (jointPoseOf link) (parentInertialPoseOf link parent)
          (referenceOrigin link)).1 ∧
        out.rotation = some (composePose (jointPoseOf link) (parentInertialPoseOf link parent)
          (referenceOrigin link)).2) ∧
    (link.inertial = none → link.collision = none →
      ∀ pose, convertPoseLink pose link = (pose.position, pose.rotation)) := by
  refine ⟨?_, ?_, ?_, ?_, ?_, ?_⟩
  · intro i hi
    simp only [referenceOrigin, hi]
  · intro c hi hc
    simp only [referenceOrigin, hi, hc]
  · intro hi hc
    simp only [referenceOrigin, hi, hc]
  · intro pose
    rfl
  · intro nodeIDMap map parent hp
    have hs := calculatePose_isSome nodeIDMap map link parent hp
    obtain ⟨out, hout⟩ := Option.isSome_iff_exists.mp hs
    exact ⟨out, hout, calculatePose_eq_composePose nodeIDMap map link parent out hout⟩
  · intro hi hc pose
    simp only [convertPoseLink, hi, hc, convertPose_identity]

/-- Witness of C3 on `bareChild`, a link with neither inertial nor collision. -/
theorem C3_reference_origin_policy_witness :
    bareChild.inertial = none ∧ bareChild.collision = none ∧
    convertPoseLink { position := { x := 2, y := 3 }, rotation := { z := 1, w := 0 } } bareChild =
      ({ x := 2, y := 3 }, { z := 1, w := 0 }) :=
  ⟨rfl, rfl, (C3_reference_origin_policy bareChild).2.2.2.2.2 rfl rfl _⟩

/-- C4 (the code departs from the claim): `convertPose` rotates the displacement
by the rotation of the reference itself, not by its inverse. For the pose at
`(1, 0, 0)` and a reference at the origin rotated about `z` it returns the
position `(7/25, 24/25, 0)`, whereas `inverse(reference.rotation) *
(pose.position - reference.position)` is `(7/25, -24/25, 0)`; the rotation it
returns is `inverse(reference.rotation) * pose.rotation`. -/
theorem C4_convertPose_position_not_inverse_rotated :
    convertPose { position := { x := 1 } } { rotation := { z := 3 / 5, w := 4 / 5 } } =
      ({ x := 7 / 25, y := 24 / 25, z := 0 }, { x := 0, y := 0, z := -3 / 5, w := 4 / 5 }) ∧
    ({ z := 3 / 5, w := 4 / 5 } : Rotation).GetInverse * (({ x := 1 } : Vector3) - ({} : Vector3)) =
      { x := 7 / 25, y := -24 / 25, z := 0 } ∧
    ({ z := 3 / 5, w := 4 / 5 } : Rotation).GetInverse * ({} : Rotation) =
      { x := 0, y := 0, z := -3 / 5, w := 4 / 5 } ∧
    ∀ pose toPose : Pose, convertPose pose toPose =
      (toPose.rotation * (pose.position - toPose.position),
       toPose.rotation.GetInverse * pose.rotation) := by
  refine ⟨?_, ?_, ?_, ?_⟩
  · simp only [convertPose, Rotation.hmul_vec_eq, Rotation.mul_eq, Vector3.add_eq,
      Rotation.rotate, Rotation.mul, Rotation.GetInverse, Vector3.add, Vector3.neg]
    norm_num
  · simp only [Rotation.hmul_vec_eq, Vector3.sub_eq, Rotation.rotate, Rotation.mul,
      Rotation.GetInverse, Vector3.sub]
    norm_num
  · simp only [Rotation.mul_eq, Rotation.mul, Rotation.GetInverse]
    norm_num
  · intro pose toPose
    simp only [convertPose, Vector3.add_neg_eq_sub]

/-! ### The special case handling -/

theorem specialCaseHandling_needGroupID (link : Link) :
    (specialCaseHandling link).needGroupID = true ↔ rule1 link ∨ rule2 link ∨ rule3 link := by
  unfold specialCaseHandling rule1 rule2 rule3
  cases hv : link.visual <;> cases hc : link.collision <;> cases hi : link.inertial <;>
    simp only [Option.isSome] <;> split_ifs <;> simp_all <;> tauto

theorem specialCaseHandling_loadCollision (link : Link) :
    (specialCaseHandling link).loadCollision = true ↔
      link.collision.isSome = true ∧ ¬ rule2 link := by
  unfold specialCaseHandling rule2
  cases hv : link.visual <;> cases hc : link.collision <;> cases hi : link.inertial <;>
    simp only [Option.isSome] <;> (try split_ifs) <;> simp_all

theorem specialCaseHandling_loadVisual (link : Link) :
    (specialCaseHandling link).loadVisual = true ↔
      link.visual.isSome = true ∧ (rule3 link → rule2 link) := by
  unfold specialCaseHandling rule2 rule3
  cases hv : link.visual <;> cases hc : link.collision <;> cases hi : link.inertial <;>
    simp only [Option.isSome] <;> (try split_ifs) <;> simp_all <;>
    exact fun h => ‹¬ _› h.symm

/-! ### What the geometry builders write -/

theorem handleVisual_eq (map : NodeDescriptor) (v : Visual) :
    handleVisual map v =
      { map with
        filename := some (visualFilename v.geometry),
        origname := some (visualOrigname v.geometry),
        visualsize := some (geometrySize v.geometry),
        visualscale := some (geometryScale v.geometry),
        materialName := some v.material_name } := by
  unfold handleVisual
  cases v.geometry <;> rfl

theorem handleCollision_eq (map : NodeDescriptor) (c : Collision) :
    handleCollision map c =
      { map with
        filename := if c.geometry.isMesh then some c.geometry.meshFilename else map.filename,
        origname := if c.geometry.isMesh then some "" else map.origname,
        physicmode := some (collisionPhysicmode c.geometry),
        extend := some (collisionExtend c.geometry),
        scale := some (geometryScale c.geometry) } := by
  unfold handleCollision
  cases c.geometry <;> rfl

theorem calculatePose_frame (nodeIDMap : NodeIDMap) (map : NodeDescriptor)
    (link : Link) (parent : Option Link) (out : NodeDescriptor)
    (h : calculatePose nodeIDMap map link parent = some out) :
    ∃ r p q, out = { map with relativeid := some r, position := some p, rotation := some q } := by
  unfold calculatePose at h
  cases hj : link.parent_joint with
  | none =>
    simp only [hj] at h
    cases h
    exact ⟨_, _, _, rfl⟩
  | some j =>
    cases parent with
    | none => simp [hj] at h
    | some p =>
      simp only [hj] at h
      cases h
      exact ⟨_, _, _, rfl⟩

theorem handleInertial_frame (map : NodeDescriptor) (link : Link) :
    ∃ m i00 i01 i02 i10 i11 i12 i20 i21 i22 f,
      handleInertial map link =
        { map with
          mass := m, i00 := i00, i01 := i01, i02 := i02, i10 := i10, i11 := i11, i12 := i12,
          i20 := i20, i21 := i21, i22 := i22, inertia := f } := by
  unfold handleInertial
  cases link.inertial with
  | none => exact ⟨map.mass, map.i00, map.i01, map.i02, map.i10, map.i11, map.i12, map.i20,
      map.i21, map.i22, _, rfl⟩
  | some i => exact ⟨_, _, _, _, _, _, _, _, _, _, _, rfl⟩

/-! ### The primary descriptor -/

/-- The primary descriptor before the visual and collision blocks: header,
inertial and pose. -/
theorem primaryNode_eq (link : Link) (parent : Option Link) (s : LoadState)
    (h : parentAvailable link parent) :
    ∃ cfg : NodeDescriptor,
      cfg.name = some link.name ∧ cfg.index = some s.nextNodeID ∧
      cfg.groupid =
        some (if (specialCaseHandling link).needGroupID = true then s.nextGroupID else 0) ∧
      cfg.filename = none ∧ cfg.origname = none ∧ cfg.physicmode = none ∧
      cfg.noPhysical = none ∧ cfg.coll_bitmask = none ∧
      primaryNode link parent s = some
        { config := (primaryCollision (specialCaseHandling link).loadCollision link
            (primaryVisual (specialCaseHandling link).loadVisual link cfg).1).1,
          visualArrayIndex := (primaryVisual (specialCaseHandling link).loadVisual link cfg).2,
          collisionArrayIndex := (primaryCollision (specialCaseHandling link).loadCollision link
            (primaryVisual (specialCaseHandling link).loadVisual link cfg).1).2,
          state :=
            { s with
              nextNodeID := s.nextNodeID + 1,
              nodeIDMap := s.nodeIDMap.set link.name s.nextNodeID,
              nextGroupID :=
                if (specialCaseHandling link).needGroupID = true then
                  (s.nextGroupID + 1) % ULONG_RANGE
                else s.nextGroupID,
              nodeList := s.nodeList ++
                [(primaryCollision (specialCaseHandling link).loadCollision link
                  (primaryVisual (specialCaseHandling link).loadVisual link cfg).1).1] } } := by
  unfold primaryNode
  simp only [Nat.add_sub_cancel]
  cases hn : (specialCaseHandling link).needGroupID
  · simp only [Bool.false_eq_true, if_false]
    obtain ⟨cfg, hcfg⟩ := Option.isSome_iff_exists.mp
      (calculatePose_isSome (s.nodeIDMap.set link.name s.nextNodeID)
        (handleInertial { name := some link.name, index := some s.nextNodeID, groupid := some 0 }
          link) link parent h)
    obtain ⟨r, p, q, hfr⟩ := calculatePose_frame _ _ _ _ _ hcfg
    obtain ⟨m, a1, a2, a3, a4, a5, a6, a7, a8, a9, f, hin⟩ := handleInertial_frame
      { name := some link.name, index := some s.nextNodeID, groupid := some 0 } link
    rw [hin] at hfr
    refine ⟨cfg, ?_, ?_, ?_, ?_, ?_, ?_, ?_, ?_, ?_⟩
    · rw [hfr]
    · rw [hfr]
    · rw [hfr]
    · rw [hfr]
    · rw [hfr]
    · rw [hfr]
    · rw [hfr]
    · rw [hfr]
    · rw [hcfg]
  · simp only [if_true]
    obtain ⟨cfg, hcfg⟩ := Option.isSome_iff_exists.mp
      (calculatePose_isSome (s.nodeIDMap.set link.name s.nextNodeID)
        (handleInertial
          { name := some link.name, index := some s.nextNodeID, groupid := some s.nextGroupID }
          link) link parent h)
    obtain ⟨r, p, q, hfr⟩ := calculatePose_frame _ _ _ _ _ hcfg
    obtain ⟨m, a1, a2, a3, a4, a5, a6, a7, a8, a9, f, hin⟩ := handleInertial_frame
      { name := some link.name, index := some s.nextNodeID, groupid := some s.nextGroupID } link
    rw [hin] at hfr
    refine ⟨cfg, ?_, ?_, ?_, ?_, ?_, ?_, ?_, ?_, ?_⟩
    · rw [hfr]
    · rw [hfr]
    · rw [hfr]
    · rw [hfr]
    · rw [hfr]
    · rw [hfr]
    · rw [hfr]
    · rw [hfr]
    · rw [hcfg]

/-! ### The child loops -/

theorem collisionChildren_eq (link : Link) (config : NodeDescriptor) :
    ∀ (cs : List Collision) (visualArrayIndex : Nat) (s : LoadState),
      collisionChildren link config cs visualArrayIndex s =
        (collisionChildrenIndex link config cs visualArrayIndex s.nextNodeID,
          { s with
            nextNodeID := s.nextNodeID + cs.length,
            nodeList := s.nodeList ++
              collisionChildNodes link config cs visualArrayIndex s.nextNodeID })
  | [], _, s => by
    simp [collisionChildren, collisionChildrenIndex, collisionChildNodes]
  | c :: rest, visualArrayIndex, s => by
    simp only [collisionChildren, collisionChildrenIndex, collisionChildNodes]
    rw [collisionChildren_eq link config rest]
    simp only [List.length_cons, List.append_assoc, List.singleton_append, Prod.mk.injEq,
      true_and]
    congr 1
    omega

theorem visualChildren_eq (link : Link) (config : NodeDescriptor) :
    ∀ (vs : List Visual) (s : LoadState),
      visualChildren link config vs s =
        { s with
          nextNodeID := s.nextNodeID + vs.length,
          nodeList := s.nodeList ++ visualChildNodes link config vs s.nextNodeID }
  | [], s => by
    simp [visualChildren, visualChildNodes]
  | v :: rest, s => by
    simp only [visualChildren, visualChildNodes]
    rw [visualChildren_eq link config rest]
    simp only [List.length_cons, List.append_assoc, List.singleton_append]
    congr 1
    omega

theorem collisionChildNodes_length (link : Link) (config : NodeDescriptor) :
    ∀ (cs : List Collision) (visualArrayIndex n : Nat),
      (collisionChildNodes link config cs visualArrayIndex n).length = cs.length
  | [], _, _ => rfl
  | c :: rest, _, _ => by
    simp only [collisionChildNodes, List.length_cons,
      collisionChildNodes_length link config rest]

theorem visualChildNodes_length (link : Link) (config : NodeDescriptor) :
    ∀ (vs : List Visual) (n : Nat), (visualChildNodes link config vs n).length = vs.length
  | [], _ => rfl
  | v :: rest, _ => by
    simp only [visualChildNodes, List.length_cons, visualChildNodes_length link config rest]

/-- What `handleLink` returns, in terms of the primary descriptor and the child
descriptors. -/
theorem handleLink_eq (link : Link) (parent : Option Link) (s : LoadState) (p : Primary)
    (hp : primaryNode link parent s = some p) :
    handleLink link parent s = some (handleParentJoint link
      { p.state with
        nextNodeID := p.state.nextNodeID + (childNodes link p).length,
        nodeList := p.state.nodeList ++ childNodes link p }) := by
  unfold handleLink
  simp only [hp, collisionChildren_eq, visualChildren_eq, childNodes, List.length_append,
    collisionChildNodes_length, visualChildNodes_length, List.append_assoc, Nat.add_assoc]

theorem handleLink_isSome (link : Link) (parent : Option Link) (s : LoadState)
    (h : parentAvailable link parent) : ∃ s1, handleLink link parent s = some s1 := by
  obtain ⟨cfg, _, _, _, _, _, _, _, _, hp⟩ := primaryNode_eq link parent s h
  exact ⟨_, handleLink_eq link parent s _ hp⟩

/-! ### The tree walk -/

mutual
/-- The walk returns for every link whose parent is passed along. -/
theorem handleKinematics_isSome :
    ∀ (link : Link) (parent : Option Link) (s : LoadState),
      parentAvailable link parent → ∃ s1, handleKinematics link parent s = some s1
  | .mk n i v c va ca j cs, parent, s, h => by
    obtain ⟨s1, h1⟩ := handleLink_isSome (.mk n i v c va ca j cs) parent s h
    obtain ⟨s2, h2⟩ := handleChildLinks_isSome cs (.mk n i v c va ca j cs) s1
    exact ⟨s2, by rw [handleKinematics, h1]; exact h2⟩
/-- The loop over the child links returns. -/
theorem handleChildLinks_isSome :
    ∀ (cs : List Link) (link : Link) (s : LoadState),
      ∃ s1, handleChildLinks cs link s = some s1
  | [], _, s => ⟨s, by rw [handleChildLinks]⟩
  | child :: rest, link, s => by
    obtain ⟨s1, h1⟩ := handleKinematics_isSome child (some link) s (Or.inr rfl)
    obtain ⟨s2, h2⟩ := handleChildLinks_isSome rest link s1
    exact ⟨s2, by rw [handleChildLinks, h1]; exact h2⟩
end

mutual
/-- A reflexive and transitive relation between states that holds across the
processing of every single link holds across the walk of a tree. -/
theorem handleKinematics_rel (R : LoadState → LoadState → Prop)
    (hrefl : ∀ s, R s s) (htrans : ∀ a b c, R a b → R b c → R a c)
    (hstep : ∀ link parent s s1, handleLink link parent s = some s1 → R s s1) :
    ∀ (link : Link) (parent : Option Link) (s s1 : LoadState),
      handleKinematics link parent s = some s1 → R s s1
  | .mk n i v c va ca j cs, parent, s, s1, h => by
    rw [handleKinematics] at h
    cases hl : handleLink (.mk n i v c va ca j cs) parent s with
    | none => simp [hl] at h
    | some s2 =>
      simp only [hl] at h
      exact htrans _ _ _ (hstep _ _ _ _ hl)
        (handleChildLinks_rel R hrefl htrans hstep cs _ s2 s1 h)
/-- The relation of `handleKinematics_rel` across the loop over the child links. -/
theorem handleChildLinks_rel (R : LoadState → LoadState → Prop)
    (hrefl : ∀ s, R s s) (htrans : ∀ a b c, R a b → R b c → R a c)
    (hstep : ∀ link parent s s1, handleLink link parent s = some s1 → R s s1) :
    ∀ (cs : List Link) (link : Link) (s s1 : LoadState),
      handleChildLinks cs link s = some s1 → R s s1
  | [], _, s, s1, h => by
    rw [handleChildLinks] at h
    cases h
    exact hrefl s
  | child :: rest, link, s, s1, h => by
    rw [handleChildLinks] at h
    cases hk : handleKinematics child (some link) s with
    | none => simp [hk] at h
    | some s2 =>
      simp only [hk] at h
      exact htrans _ _ _ (handleKinematics_rel R hrefl htrans hstep child _ s s2 hk)
        (handleChildLinks_rel R hrefl htrans hstep rest link s2 s1 h)
end

theorem calculatePose_some_parentAvailable (nodeIDMap : NodeIDMap) (map : NodeDescriptor)
    (link : Link) (parent : Option Link) (out : NodeDescriptor)
    (h : calculatePose nodeIDMap map link parent = some out) : parentAvailable link parent := by
  unfold calculatePose at h
  unfold parentAvailable
  cases hj : link.parent_joint with
  | none => exact Or.inl rfl
  | some j =>
    cases parent with
    | none => simp [hj] at h
    | some p => exact Or.inr rfl

theorem primaryNode_some_parentAvailable (link : Link) (parent : Option Link) (s : LoadState)
    (p : Primary) (h : primaryNode link parent s = some p) : parentAvailable link parent := by
  unfold primaryNode at h
  simp only at h
  split at h
  · exact absurd h (by simp)
  · rename_i cfg hcfg
    exact calculatePose_some_parentAvailable _ _ _ _ _ hcfg

theorem handleLink_some_primaryNode (link : Link) (parent : Option Link) (s s1 : LoadState)
    (h : handleLink link parent s = some s1) : ∃ p, primaryNode link parent s = some p := by
  unfold handleLink at h
  cases hp : primaryNode link parent s with
  | none => simp [hp] at h
  | some p => exact ⟨p, rfl⟩

/-- The bookkeeping of the primary descriptor: where it is appended and what
it leaves in the counters and lists. -/
theorem primaryNode_state (link : Link) (parent : Option Link) (s : LoadState) (p : Primary)
    (h : primaryNode link parent s = some p) :
    p.state.nodeList = s.nodeList ++ [p.config] ∧
    p.state.nextNodeID = s.nextNodeID + 1 ∧
    p.state.nextJointID = s.nextJointID ∧
    p.state.jointList = s.jointList ∧
    p.state.nextMaterialID = s.nextMaterialID ∧
    p.state.materialList = s.materialList ∧
    p.state.nodeIDMap = s.nodeIDMap.set link.name s.nextNodeID := by
  obtain ⟨cfg, _, _, _, _, _, _, _, _, hp⟩ :=
    primaryNode_eq link parent s (primaryNode_some_parentAvailable link parent s p h)
  rw [h] at hp
  cases hp
  exact ⟨rfl, rfl, rfl, rfl, rfl, rfl, rfl⟩

theorem handleParentJoint_nodeList (link : Link) (s : LoadState) :
    (handleParentJoint link s).nodeList = s.nodeList ∧
    (handleParentJoint link s).nextNodeID = s.nextNodeID ∧
    (handleParentJoint link s).nextMaterialID = s.nextMaterialID ∧
    (handleParentJoint link s).materialList = s.materialList ∧
    (handleParentJoint link s).nextGroupID = s.nextGroupID := by
  unfold handleParentJoint
  cases link.parent_joint <;> exact ⟨rfl, rfl, rfl, rfl, rfl⟩

/-- The descriptors one link contributes: the primary descriptor, then its
child descriptors. -/
theorem handleLink_nodeList (link : Link) (parent : Option Link) (s s1 : LoadState)
    (p : Primary) (hp : primaryNode link parent s = some p)
    (h : handleLink link parent s = some s1) :
    s1.nodeList = s.nodeList ++ p.config :: childNodes link p ∧
    s1.nextNodeID = s.nextNodeID + (p.config :: childNodes link p).length := by
  rw [handleLink_eq link parent s p hp] at h
  cases h
  obtain ⟨h1, h2, -⟩ := primaryNode_state link parent s p hp
  simp only [handleParentJoint_nodeList, h1, h2, List.append_assoc, List.singleton_append,
    List.length_cons, true_and]
  omega

theorem handleChildLinks_nodeList_prefix (cs : List Link) (link : Link) (s s1 : LoadState)
    (h : handleChildLinks cs link s = some s1) : ∃ rest, s1.nodeList = s.nodeList ++ rest := by
  refine handleChildLinks_rel (fun a b => ∃ rest, b.nodeList = a.nodeList ++ rest)
    (fun a => ⟨[], by simp⟩) ?_ ?_ cs link s s1 h
  · rintro a b c ⟨r1, h1⟩ ⟨r2, h2⟩
    exact ⟨r1 ++ r2, by rw [h2, h1, List.append_assoc]⟩
  · intro l par a b hl
    obtain ⟨p, hp⟩ := handleLink_some_primaryNode l par a b hl
    exact ⟨_, (handleLink_nodeList l par a b p hp hl).1⟩

/-- The walk from a link returns, and the node list it leaves is the old list,
then the primary descriptor of the link and its child descriptors, then the
descriptors of the links below it (none if the link has no child link). -/
theorem handleKinematics_nodes (link : Link) (parent : Option Link) (s : LoadState)
    (h : parentAvailable link parent) :
    ∃ p s1 rest, primaryNode link parent s = some p ∧
      handleKinematics link parent s = some s1 ∧
      s1.nodeList = s.nodeList ++ p.config :: (childNodes link p ++ rest) ∧
      (link.child_links = [] → rest = []) := by
  obtain ⟨s1, hk⟩ := handleKinematics_isSome link parent s h
  cases link with
  | mk n i v c va ca j cs =>
    rw [handleKinematics] at hk
    cases hl : handleLink (.mk n i v c va ca j cs) parent s with
    | none => simp [hl] at hk
    | some s2 =>
      simp only [hl] at hk
      obtain ⟨p, hp⟩ := handleLink_some_primaryNode _ _ _ _ hl
      obtain ⟨rest, hrest⟩ := handleChildLinks_nodeList_prefix cs _ s2 s1 hk
      have h2 := (handleLink_nodeList _ _ _ _ p hp hl).1
      refine ⟨p, s1, rest, hp, ?_, ?_, ?_⟩
      · rw [handleKinematics, hl]
        exact hk
      · rw [hrest, h2, List.append_assoc, List.cons_append]
      · intro hcs
        have hcs2 : cs = [] := hcs
        subst hcs2
        rw [handleChildLinks] at hk
        cases hk
        simpa using hrest

/-- The primary descriptor is the header (name, index, group id, inertial, pose)
passed through the visual block and the collision block. -/
theorem primaryNode_config (link : Link) (parent : Option Link) (s : LoadState) (p : Primary)
    (h : primaryNode link parent s = some p) :
    ∃ cfg : NodeDescriptor,
      cfg.name = some link.name ∧ cfg.index = some s.nextNodeID ∧
      cfg.groupid =
        some (if (specialCaseHandling link).needGroupID = true then s.nextGroupID else 0) ∧
      cfg.filename = none ∧ cfg.origname = none ∧ cfg.physicmode = none ∧
      cfg.noPhysical = none ∧ cfg.coll_bitmask = none ∧
      p.config = (primaryCollision (specialCaseHandling link).loadCollision link
        (primaryVisual (specialCaseHandling link).loadVisual link cfg).1).1 ∧
      p.visualArrayIndex = (primaryVisual (specialCaseHandling link).loadVisual link cfg).2 ∧
      p.collisionArrayIndex = (primaryCollision (specialCaseHandling link).loadCollision link
        (primaryVisual (specialCaseHandling link).loadVisual link cfg).1).2 := by
  obtain ⟨cfg, h1, h2, h3, h4, h5, h6, h7, h8, hp⟩ :=
    primaryNode_eq link parent s (primaryNode_some_parentAvailable link parent s p h)
  rw [h] at hp
  cases hp
  exact ⟨cfg, h1, h2, h3, h4, h5, h6, h7, h8, rfl, rfl, rfl⟩

theorem primaryVisual_header (lv : Bool) (link : Link) (cfg : NodeDescriptor) :
    (primaryVisual lv link cfg).1.name = cfg.name ∧
    (primaryVisual lv link cfg).1.index = cfg.index ∧
    (primaryVisual lv link cfg).1.groupid = cfg.groupid ∧
    (primaryVisual lv link cfg).1.relativeid = cfg.relativeid ∧
    (primaryVisual lv link cfg).1.physicmode = cfg.physicmode ∧
    (primaryVisual lv link cfg).1.extend = cfg.extend ∧
    (primaryVisual lv link cfg).1.coll_bitmask = cfg.coll_bitmask ∧
    (primaryVisual lv link cfg).1.noPhysical = cfg.noPhysical := by
  unfold primaryVisual
  cases lv <;> cases link.visual <;>
    simp only [handleVisual_eq, createFakeVisual, and_self]

theorem primaryCollision_header (lc : Bool) (link : Link) (cfg : NodeDescriptor) :
    (primaryCollision lc link cfg).1.name = cfg.name ∧
    (primaryCollision lc link cfg).1.index = cfg.index ∧
    (primaryCollision lc link cfg).1.groupid = cfg.groupid ∧
    (primaryCollision lc link cfg).1.relativeid = cfg.relativeid ∧
    (primaryCollision lc link cfg).1.visualsize = cfg.visualsize ∧
    (primaryCollision lc link cfg).1.visualscale = cfg.visualscale ∧
    (primaryCollision lc link cfg).1.materialName = cfg.materialName ∧
    (primaryCollision lc link cfg).1.visualposition = cfg.visualposition ∧
    (primaryCollision lc link cfg).1.visualrotation = cfg.visualrotation ∧
    (primaryCollision lc link cfg).1.noPhysical = cfg.noPhysical := by
  unfold primaryCollision
  cases lc <;> cases link.collision <;>
    simp only [handleCollision_eq, createFakeCollision, and_self]

/-- The index and the group id of the primary descriptor. -/
theorem primaryNode_groupid (link : Link) (parent : Option Link) (s : LoadState) (p : Primary)
    (h : primaryNode link parent s = some p) :
    p.config.index = some s.nextNodeID ∧
    p.config.name = some link.name ∧
    p.config.groupid =
      some (if (specialCaseHandling link).needGroupID = true then s.nextGroupID else 0) := by
  obtain ⟨cfg, h1, h2, h3, -, -, -, -, -, hc, -, -⟩ := primaryNode_config link parent s p h
  obtain ⟨c1, c2, c3, -⟩ := primaryCollision_header (specialCaseHandling link).loadCollision link
    (primaryVisual (specialCaseHandling link).loadVisual link cfg).1
  obtain ⟨v1, v2, v3, -⟩ := primaryVisual_header (specialCaseHandling link).loadVisual link cfg
  rw [hc]
  exact ⟨by rw [c2, v2, h2], by rw [c1, v1, h1], by rw [c3, v3, h3]⟩

/-- C5: with a group id counter that is not `0` (the prior maximum group id plus
one did not wrap), the group id of the primary descriptor of a link (the
descriptor `handleKinematics` appends first) is nonzero if and only if rule 1,
rule 2 or rule 3 holds for the link, and it is `0` when none holds. -/
theorem C5_groupid_nonzero_iff_rule (link : Link) (parent : Option Link) (s : LoadState)
    (hg : s.nextGroupID ≠ 0) (hp : parentAvailable link parent) :
    ∃ p s1 rest g, primaryNode link parent s = some p ∧
      handleKinematics link parent s = some s1 ∧
      s1.nodeList = s.nodeList ++ p.config :: (childNodes link p ++ rest) ∧
      p.config.groupid = some g ∧
      (g ≠ 0 ↔ rule1 link ∨ rule2 link ∨ rule3 link) ∧
      (¬ (rule1 link ∨ rule2 link ∨ rule3 link) → g = 0) := by
  obtain ⟨p, s1, rest, h1, h2, h3, -⟩ := handleKinematics_nodes link parent s hp
  obtain ⟨-, -, hgid⟩ := primaryNode_groupid link parent s p h1
  refine ⟨p, s1, rest, _, h1, h2, h3, hgid, ?_, ?_⟩
  · rw [← specialCaseHandling_needGroupID]
    by_cases hn : (specialCaseHandling link).needGroupID = true
    · simp only [hn, if_true, iff_true]
      exact hg
    · simp [hn]
  · intro hno
    rw [← specialCaseHandling_needGroupID] at hno
    simp [hno]

/-! ### The child descriptors -/

theorem visualChild_eq (link : Link) (config : NodeDescriptor) (visual : Visual) (n : Nat) :
    visualChild link config visual n =
      { index := some n, relativeid := config.index,
        name := some (if visual.name.isEmpty then config.name.getD "" ++ "_child"
          else visual.name),
        groupid := config.groupid, noPhysical := some true,
        mass := some 0, density := some 0,
        filename := some (visualFilename visual.geometry),
        origname := some (visualOrigname visual.geometry),
        visualsize := some (geometrySize visual.geometry),
        visualscale := some (geometryScale visual.geometry),
        materialName := some visual.material_name,
        physicmode :=
          if visual.geometry.isMesh = false then some (visualOrigname visual.geometry) else none,
        extend := some (geometrySize visual.geometry),
        position := some (convertPoseLink visual.origin link).1,
        rotation := some (convertPoseLink visual.origin link).2 } := by
  unfold visualChild
  simp only [handleVisual_eq]
  split_ifs <;> rfl

theorem collisionChild_eq_paired (link : Link) (config : NodeDescriptor)
    (collision : Collision) (visualArrayIndex n : Nat) (visual : Visual)
    (h : candidateVisual link collision visualArrayIndex = some visual) :
    collisionChild link config collision visualArrayIndex n =
      ({ index := some n, relativeid := config.index,
         name := some (if collision.name.isEmpty then config.name.getD "" ++ "_child"
           else collision.name),
         groupid := config.groupid, mass := some 0, density := some 0,
         physicmode := some (collisionPhysicmode collision.geometry),
         extend := some (collisionExtend collision.geometry),
         scale := some (geometryScale collision.geometry),
         position := some (convertPoseLink collision.origin link).1,
         rotation := some (convertPoseLink collision.origin link).2,
         filename := some (visualFilename visual.geometry),
         origname := some (visualOrigname visual.geometry),
         visualsize := some (geometrySize visual.geometry),
         visualscale := some (geometryScale visual.geometry),
         materialName := some visual.material_name,
         visualposition := some (convertPose
           { position := (convertPoseLink visual.origin link).1,
             rotation := (convertPoseLink visual.origin link).2 }
           { position := (convertPoseLink collision.origin link).1,
             rotation := (convertPoseLink collision.origin link).2 }).1,
         visualrotation := some (convertPose
           { position := (convertPoseLink visual.origin link).1,
             rotation := (convertPoseLink visual.origin link).2 }
           { position := (convertPoseLink collision.origin link).1,
             rotation := (convertPoseLink collision.origin link).2 }).2 },
       visualArrayIndex + 1) := by
  unfold collisionChild
  simp only [h, handleVisual_eq, handleCollision_eq]
  split_ifs <;> rfl

theorem collisionChild_eq_unpaired (link : Link) (config : NodeDescriptor)
    (collision : Collision) (visualArrayIndex n : Nat)
    (h : candidateVisual link collision visualArrayIndex = none) :
    collisionChild link config collision visualArrayIndex n =
      ({ index := some n, relativeid := config.index,
         name := some (if collision.name.isEmpty then config.name.getD "" ++ "_child"
           else collision.name),
         groupid := config.groupid, mass := some 0, density := some 0,
         physicmode := some (collisionPhysicmode collision.geometry),
         extend := some (collisionExtend collision.geometry),
         scale := some (geometryScale collision.geometry),
         position := some (convertPoseLink collision.origin link).1,
         rotation := some (convertPoseLink collision.origin link).2,
         filename := some "PRIMITIVE",
         origname := some "box",
         visualsize := some { x := 1 / 100, y := 1 / 100, z := 1 / 100 },
         visualscale := some { x := 1, y := 1, z := 1 },
         materialName := some "_fakeMaterial" },
       visualArrayIndex) := by
  unfold collisionChild
  simp only [h, createFakeVisual, handleCollision_eq]
  split_ifs <;> rfl

theorem collisionChild_snd_paired (link : Link) (config : NodeDescriptor)
    (collision : Collision) (i n : Nat) (visual : Visual)
    (h : candidateVisual link collision i = some visual) :
    (collisionChild link config collision i n).2 = i + 1 := by
  rw [collisionChild_eq_paired link config collision i n visual h]

theorem collisionChild_snd_unpaired (link : Link) (config : NodeDescriptor)
    (collision : Collision) (i n : Nat)
    (h : candidateVisual link collision i = none) :
    (collisionChild link config collision i n).2 = i := by
  rw [collisionChild_eq_unpaired link config collision i n h]

theorem collisionChild_fst_paired (link : Link) (config : NodeDescriptor)
    (collision : Collision) (i n : Nat) (visual : Visual)
    (h : candidateVisual link collision i = some visual) :
    carriesVisual (collisionChild link config collision i n).1 visual ∧
    (collisionChild link config collision i n).1.relativeid = config.index := by
  rw [collisionChild_eq_paired link config collision i n visual h]
  refine ⟨?_, rfl⟩
  unfold carriesVisual
  simp only [handleVisual_eq, and_self]

theorem candidateVisual_some (link : Link) (collision : Collision) (i : Nat) (v : Visual)
    (h : candidateVisual link collision i = some v) : link.visual_array[i]? = some v := by
  unfold candidateVisual at h
  cases hv : link.visual_array[i]? with
  | none => simp [hv] at h
  | some w =>
    simp only [hv, pairVisual] at h
    split_ifs at h <;> simp_all

theorem carriesVisual_of_fields (d : NodeDescriptor) (v : Visual)
    (h1 : d.filename = some (visualFilename v.geometry))
    (h2 : d.origname = some (visualOrigname v.geometry))
    (h3 : d.visualsize = some (geometrySize v.geometry))
    (h4 : d.visualscale = some (geometryScale v.geometry))
    (h5 : d.materialName = some v.material_name) : carriesVisual d v := by
  unfold carriesVisual
  simp only [handleVisual_eq]
  exact ⟨h1, h2, h3, h4, h5⟩

theorem collisionChildrenIndex_ge (link : Link) (config : NodeDescriptor) :
    ∀ (cs : List Collision) (i n : Nat), i ≤ collisionChildrenIndex link config cs i n
  | [], i, n => by simp [collisionChildrenIndex]
  | c :: rest, i, n => by
    rw [collisionChildrenIndex]
    have ih := collisionChildrenIndex_ge link config rest
      (collisionChild link config c i n).2 (n + 1)
    cases hc : candidateVisual link c i with
    | none =>
      rw [collisionChild_snd_unpaired link config c i n hc] at ih ⊢
      exact ih
    | some v =>
      rw [collisionChild_snd_paired link config c i n v hc] at ih ⊢
      exact Nat.le_of_succ_le ih

/-- Every visual element the first child loop steps over is carried by one of the
collision children it appends. -/
theorem collisionChildNodes_carries (link : Link) (config : NodeDescriptor) :
    ∀ (cs : List Collision) (i n k : Nat), i ≤ k →
      k < collisionChildrenIndex link config cs i n →
      ∃ v, link.visual_array[k]? = some v ∧
        ∃ d ∈ collisionChildNodes link config cs i n,
          carriesVisual d v ∧ d.relativeid = config.index
  | [], i, n, k, h1, h2 => by
    simp only [collisionChildrenIndex] at h2
    omega
  | c :: rest, i, n, k, h1, h2 => by
    rw [collisionChildrenIndex] at h2
    rw [collisionChildNodes]
    cases hc : candidateVisual link c i with
    | none =>
      rw [collisionChild_snd_unpaired link config c i n hc] at h2 ⊢
      obtain ⟨v, hv, d, hd, hcar⟩ :=
        collisionChildNodes_carries link config rest i (n + 1) k h1 h2
      exact ⟨v, hv, d, List.mem_cons_of_mem _ hd, hcar⟩
    | some w =>
      rw [collisionChild_snd_paired link config c i n w hc] at h2 ⊢
      by_cases hk : k = i
      · subst hk
        exact ⟨w, candidateVisual_some link c k w hc, _, List.mem_cons_self _ _,
          collisionChild_fst_paired link config c k n w hc⟩
      · obtain ⟨v, hv, d, hd, hcar⟩ :=
          collisionChildNodes_carries link config rest (i + 1) (n + 1) k (by omega) h2
        exact ⟨v, hv, d, List.mem_cons_of_mem _ hd, hcar⟩

/-- Every visual element the second child loop visits is carried by a visual-only
child. -/
theorem visualChildNodes_carries (link : Link) (config : NodeDescriptor) :
    ∀ (vs : List Visual) (n : Nat) (v : Visual), v ∈ vs →
      ∃ d ∈ visualChildNodes link config vs n,
        carriesVisual d v ∧ d.relativeid = config.index
  | [], _, _, h => by simp at h
  | w :: rest, n, v, h => by
    rw [visualChildNodes]
    rcases List.mem_cons.mp h with h | h
    · subst h
      refine ⟨_, List.mem_cons_self _ _, ?_, ?_⟩
      · rw [visualChild_eq]
        exact carriesVisual_of_fields _ _ rfl rfl rfl rfl rfl
      · rw [visualChild_eq]
    · obtain ⟨d, hd, hcar⟩ := visualChildNodes_carries link config rest (n + 1) v h
      exact ⟨d, List.mem_cons_of_mem _ hd, hcar⟩

/-- Every visual element from `visualArrayIndex` on is carried by a child
descriptor of the link. -/
theorem childNodes_carries (link : Link) (p : Primary) (k : Nat) (v : Visual)
    (hk : p.visualArrayIndex ≤ k) (hv : link.visual_array[k]? = some v) :
    ∃ d ∈ childNodes link p, carriesVisual d v ∧ d.relativeid = p.config.index := by
  unfold childNodes
  by_cases hlt : k < collisionChildrenIndex link p.config
      (link.collision_array.drop p.collisionArrayIndex) p.visualArrayIndex p.state.nextNodeID
  · obtain ⟨w, hw, d, hd, hcar⟩ := collisionChildNodes_carries link p.config _ _ _ k hk hlt
    rw [hv] at hw
    cases hw
    exact ⟨d, List.mem_append_left _ hd, hcar⟩
  · have hmem : v ∈ link.visual_array.drop (collisionChildrenIndex link p.config
        (link.collision_array.drop p.collisionArrayIndex) p.visualArrayIndex
        p.state.nextNodeID) := by
      apply List.getElem?_mem (n := k - collisionChildrenIndex link p.config
        (link.collision_array.drop p.collisionArrayIndex) p.visualArrayIndex
        p.state.nextNodeID)
      rw [List.getElem?_drop, ← hv]
      congr 1
      omega
    obtain ⟨d, hd, hcar⟩ := visualChildNodes_carries link p.config _
      (p.state.nextNodeID + (link.collision_array.drop p.collisionArrayIndex).length) v hmem
    exact ⟨d, List.mem_append_right _ hd, hcar⟩

/-- Witness of C5 on `meshMismatchLink`, for which rule 3 holds. -/
theorem C5_groupid_nonzero_iff_rule_witness :
    freshState.nextGroupID ≠ 0 ∧ parentAvailable meshMismatchLink none ∧
    ∃ p g, primaryNode meshMismatchLink none freshState = some p ∧
      p.config.groupid = some g ∧ g ≠ 0 := by
  have hg : freshState.nextGroupID ≠ 0 := by decide
  refine ⟨hg, Or.inl rfl, ?_⟩
  obtain ⟨p, s1, rest, g, h1, -, -, h4, h5, -⟩ :=
    C5_groupid_nonzero_iff_rule meshMismatchLink none freshState hg (Or.inl rfl)
  exact ⟨p, g, h1, h4, h5.mpr (Or.inr (Or.inr
    ⟨bodyVisual, hullCollision, rfl, rfl, rfl, Or.inr (by decide)⟩))⟩

/-- C6 (the claim as stated fails): for `meshMismatchLink`, whose primary visual
and primary collision are meshes of different files, the primary descriptor
does not have the placeholder visual `PRIMITIVE` box: `handleCollision` runs
after `createFakeVisual` and leaves the file of the collision mesh in
`filename` and the empty string in `origname`. -/
theorem C6_primary_visual_not_primitive_box :
    ∃ p, primaryNode meshMismatchLink none freshState = some p ∧
      p.config.filename = some "hull.stl" ∧ p.config.origname = some "" ∧
      ¬ hasFakeVisual p.config := by
  refine ⟨_, rfl, rfl, rfl, ?_⟩
  intro h
  have h1 := h.1
  revert h1
  decide

theorem visualFilename_mesh (g : Geometry) (h : g.isMesh = true) :
    visualFilename g = g.meshFilename ∧ visualOrigname g = "" ∧
    collisionPhysicmode g = "mesh" := by
  cases g <;> simp_all [Geometry.isMesh, visualFilename, Geometry.meshFilename, visualOrigname,
    collisionPhysicmode]

theorem carriesCollision_physicmode (d : NodeDescriptor) (c : Collision)
    (h : carriesCollision d c) : d.physicmode = some (collisionPhysicmode c.geometry) := by
  rw [h.1, handleCollision_eq]

theorem carriesVisual_filename (d : NodeDescriptor) (v : Visual)
    (h : carriesVisual d v) : d.filename = some (visualFilename v.geometry) := by
  rw [h.1, handleVisual_eq]

/-- C6 (amended): for a link whose primary collision is a mesh and whose primary
visual, element 0 of `visual_array`, is a mesh with a different filename, the
primary descriptor never carries both. If rule 2 does not hold, it carries the
collision, its `visualsize`, `visualscale` and `materialName` are those of the
placeholder visual while `filename` and `origname` are those of the collision
mesh, and a child descriptor of the link carries the real primary visual. If
rule 2 holds, it carries the real visual and the placeholder collision. -/
theorem C6_mesh_mismatch_never_shares_primary (link : Link) (parent : Option Link)
    (s : LoadState) (v : Visual) (c : Collision) (vs : List Visual)
    (hv : link.visual = some v) (hc : link.collision = some c)
    (hva : link.visual_array = v :: vs)
    (hcm : c.geometry.isMesh = true) (hvm : v.geometry.isMesh = true)
    (hne : v.geometry.meshFilename ≠ c.geometry.meshFilename)
    (hp : parentAvailable link parent) :
    ∃ p s1 rest, primaryNode link parent s = some p ∧
      handleKinematics link parent s = some s1 ∧
      s1.nodeList = s.nodeList ++ p.config :: (childNodes link p ++ rest) ∧
      ¬ (carriesVisual p.config v ∧ carriesCollision p.config c) ∧
      (¬ rule2 link →
        carriesCollision p.config c ∧
        p.config.filename = some c.geometry.meshFilename ∧
        p.config.origname = some "" ∧
        p.config.visualsize = some { x := 1 / 100, y := 1 / 100, z := 1 / 100 } ∧
        p.config.visualscale = some { x := 1, y := 1, z := 1 } ∧
        p.config.materialName = some "_fakeMaterial" ∧
        ∃ d ∈ childNodes link p, carriesVisual d v ∧ d.relativeid = p.config.index) ∧
      (rule2 link → carriesVisual p.config v ∧ hasFakeCollision p.config) := by
  obtain ⟨p, s1, rest, h1, h2, h3, -⟩ := handleKinematics_nodes link parent s hp
  obtain ⟨cfg, -, -, -, -, -, -, -, -, hcfg, hvi, -⟩ := primaryNode_config link parent s p h1
  have hr3 : rule3 link := ⟨v, c, hv, hc, hcm, Or.inr hne⟩
  obtain ⟨hvf, hvo, -⟩ := visualFilename_mesh v.geometry hvm
  obtain ⟨-, -, hcp⟩ := visualFilename_mesh c.geometry hcm
  refine ⟨p, s1, rest, h1, h2, h3, ?_⟩
  by_cases hr2 : rule2 link
  · have hlc : (specialCaseHandling link).loadCollision = false := by
      rw [Bool.eq_false_iff]
      intro h
      exact ((specialCaseHandling_loadCollision link).mp h).2 hr2
    have hlv : (specialCaseHandling link).loadVisual = true :=
      (specialCaseHandling_loadVisual link).mpr ⟨by rw [hv]; rfl, fun _ => hr2⟩
    rw [hlc, hlv] at hcfg
    simp only [primaryVisual, primaryCollision, hv, hc, handleVisual_eq, createFakeCollision]
      at hcfg
    have hcv : carriesVisual p.config v := by
      rw [hcfg]
      exact carriesVisual_of_fields _ _ rfl rfl rfl rfl rfl
    have hfc : hasFakeCollision p.config := by
      rw [hcfg]
      exact ⟨rfl, rfl, rfl⟩
    refine ⟨?_, fun h => absurd hr2 h, fun _ => ⟨hcv, hfc⟩⟩
    rintro ⟨-, hcc⟩
    have hpm := carriesCollision_physicmode _ _ hcc
    rw [hfc.1, hcp] at hpm
    exact absurd hpm (by decide)
  · have hlc : (specialCaseHandling link).loadCollision = true :=
      (specialCaseHandling_loadCollision link).mpr ⟨by rw [hc]; rfl, hr2⟩
    have hlv : (specialCaseHandling link).loadVisual = false := by
      rw [Bool.eq_false_iff]
      intro h
      exact hr2 (((specialCaseHandling_loadVisual link).mp h).2 hr3)
    rw [hlc, hlv] at hcfg
    rw [hlv] at hvi
    simp only [primaryVisual, primaryCollision, hv, hc, handleCollision_eq, createFakeVisual,
      hcm, if_true] at hcfg hvi
    have hcc : carriesCollision p.config c := by
      rw [hcfg]
      unfold carriesCollision
      simp only [handleCollision_eq, and_self]
    have hfn : p.config.filename = some c.geometry.meshFilename := by rw [hcfg]
    refine ⟨?_, fun _ => ⟨hcc, hfn, by rw [hcfg], by rw [hcfg], by rw [hcfg], by rw [hcfg], ?_⟩,
      fun h => absurd h hr2⟩
    · rintro ⟨hcv, -⟩
      have hf := carriesVisual_filename _ _ hcv
      rw [hfn, hvf] at hf
      exact hne (Option.some.inj hf).symm
    · exact childNodes_carries link p 0 v (by rw [hvi]) (by rw [hva]; simp)

/-- Witness of C6 (amended) on `meshMismatchLink`: rule 2 does not hold, a child
descriptor carries the mesh visual. -/
theorem C6_mesh_mismatch_never_shares_primary_witness :
    meshMismatchLink.visual = some bodyVisual ∧
    meshMismatchLink.collision = some hullCollision ∧
    meshMismatchLink.visual_array = bodyVisual :: [] ∧
    hullCollision.geometry.isMesh = true ∧ bodyVisual.geometry.isMesh = true ∧
    bodyVisual.geometry.meshFilename ≠ hullCollision.geometry.meshFilename ∧
    parentAvailable meshMismatchLink none ∧
    ∃ p, primaryNode meshMismatchLink none freshState = some p ∧
      carriesCollision p.config hullCollision ∧
      ∃ d ∈ childNodes meshMismatchLink p, carriesVisual d bodyVisual := by
  refine ⟨rfl, rfl, rfl, rfl, rfl, by decide, Or.inl rfl, ?_⟩
  obtain ⟨p, s1, rest, h1, -, -, -, h5, -⟩ :=
    C6_mesh_mismatch_never_shares_primary meshMismatchLink none freshState bodyVisual
      hullCollision [] rfl rfl rfl rfl rfl (by decide) (Or.inl rfl)
  have hr2 : ¬ rule2 meshMismatchLink := by
    rintro ⟨c, i, -, hi, -⟩
    cases hi
  obtain ⟨hcc, -, -, -, -, -, d, hd, hcv, -⟩ := h5 hr2
  exact ⟨p, h1, hcc, d, hd, hcv⟩

/-- C7 (the claim as stated fails): `twoVisualLink` has exactly two visual
elements and one collision element, and its primary descriptor gets the group
id `0`. -/
theorem C7_two_visuals_one_collision_groupid_zero :
    twoVisualLink.visual_array.length = 2 ∧ twoVisualLink.collision_array.length = 1 ∧
    freshState.nextGroupID = 1 ∧
    ∃ p, primaryNode twoVisualLink none freshState = some p ∧
      p.config.groupid = some 0 :=
  ⟨rfl, rfl, by decide, _, rfl, rfl⟩

/-- C7 (amended): for a link with exactly two visual elements and exactly one
collision element, with a group id counter that is not `0`, the group id of the
primary descriptor is nonzero if and only if rule 2 or rule 3 holds, and `0`
otherwise. -/
theorem C7_two_visuals_one_collision_groupid (link : Link) (parent : Option Link)
    (s : LoadState) (_hva : link.visual_array.length = 2)
    (hca : link.collision_array.length = 1)
    (hg : s.nextGroupID ≠ 0) (hp : parentAvailable link parent) :
    ∃ p s1 rest g, primaryNode link parent s = some p ∧
      handleKinematics link parent s = some s1 ∧
      s1.nodeList = s.nodeList ++ p.config :: (childNodes link p ++ rest) ∧
      p.config.groupid = some g ∧
      (g ≠ 0 ↔ rule2 link ∨ rule3 link) := by
  obtain ⟨p, s1, rest, h1, h2, h3, -⟩ := handleKinematics_nodes link parent s hp
  obtain ⟨-, -, hgid⟩ := primaryNode_groupid link parent s p h1
  refine ⟨p, s1, rest, _, h1, h2, h3, hgid, ?_⟩
  have hr1 : ¬ rule1 link := by
    unfold rule1
    omega
  have hiff : (specialCaseHandling link).needGroupID = true ↔ rule2 link ∨ rule3 link := by
    rw [specialCaseHandling_needGroupID]
    constructor
    · rintro (h | h)
      · exact absurd h hr1
      · exact h
    · exact Or.inr
  rw [← hiff]
  by_cases hn : (specialCaseHandling link).needGroupID = true
  · simp only [hn, if_true, iff_true]
    exact hg
  · simp [hn]

/-- Witness of C7 (amended) on `twoVisualMeshLink`, for which rule 3 holds. -/
theorem C7_two_visuals_one_collision_groupid_witness :
    twoVisualMeshLink.visual_array.length = 2 ∧
    twoVisualMeshLink.collision_array.length = 1 ∧
    freshState.nextGroupID ≠ 0 ∧ parentAvailable twoVisualMeshLink none ∧
    ∃ p g, primaryNode twoVisualMeshLink none freshState = some p ∧
      p.config.groupid = some g ∧ g ≠ 0 := by
  have hg : freshState.nextGroupID ≠ 0 := by decide
  refine ⟨rfl, rfl, hg, Or.inl rfl, ?_⟩
  obtain ⟨p, s1, rest, g, h1, -, -, h4, h5⟩ :=
    C7_two_visuals_one_collision_groupid twoVisualMeshLink none freshState rfl rfl hg
      (Or.inl rfl)
  exact ⟨p, g, h1, h4, h5.mpr (Or.inr ⟨boxVisual, hullCollision, rfl, rfl, rfl, Or.inl rfl⟩)⟩

/-- C8 (the claim as stated fails): `twoVisualMeshLink` has exactly two visual
elements and one collision element, and `handleKinematics` appends three
descriptors for it: the primary descriptor with the mesh collision and the
placeholder visual, and two visual-only children. -/
theorem C8_two_visuals_mesh_collision_three_descriptors :
    twoVisualMeshLink.visual_array.length = 2 ∧
    twoVisualMeshLink.collision_array.length = 1 ∧
    ∃ s1, handleKinematics twoVisualMeshLink none freshState = some s1 ∧
      s1.nodeList.length = 3 ∧
      s1.nodeList.map (fun d => d.noPhysical) = [none, some true, some true] ∧
      s1.nodeList.map (fun d => d.materialName) =
        [some "_fakeMaterial", some "grey", some "white"] :=
  ⟨rfl, rfl, _, rfl, rfl, rfl, rfl⟩

theorem rule3_of_not_mesh_match (link : Link) (v : Visual) (c : Collision)
    (hv : link.visual = some v) (hc : link.collision = some c) (h : ¬ rule3 link)
    (hcm : c.geometry.isMesh = true) :
    v.geometry.isMesh = true ∧ v.geometry.meshFilename = c.geometry.meshFilename := by
  unfold rule3 at h
  constructor
  · by_contra hvm
    exact h ⟨v, c, hv, hc, hcm, Or.inl (by simpa using hvm)⟩
  · by_contra hne
    exact h ⟨v, c, hv, hc, hcm, Or.inr hne⟩

/-- The primary descriptor of a link with primary visual and collision for
which neither rule 2 nor rule 3 holds: it carries both, and both array indices
are `1`. -/
theorem primaryNode_shared (link : Link) (parent : Option Link) (s : LoadState) (p : Primary)
    (v : Visual) (c : Collision) (h : primaryNode link parent s = some p)
    (hv : link.visual = some v) (hc : link.collision = some c)
    (hr2 : ¬ rule2 link) (hr3 : ¬ rule3 link) :
    carriesVisual p.config v ∧ carriesCollision p.config c ∧
    p.visualArrayIndex = 1 ∧ p.collisionArrayIndex = 1 := by
  obtain ⟨cfg, -, -, -, -, -, -, -, -, hcfg, hvi, hci⟩ := primaryNode_config link parent s p h
  have hlc : (specialCaseHandling link).loadCollision = true :=
    (specialCaseHandling_loadCollision link).mpr ⟨by rw [hc]; rfl, hr2⟩
  have hlv : (specialCaseHandling link).loadVisual = true :=
    (specialCaseHandling_loadVisual link).mpr ⟨by rw [hv]; rfl, fun h => absurd h hr3⟩
  rw [hlc, hlv] at hcfg hci
  rw [hlv] at hvi
  simp only [primaryVisual, primaryCollision, hv, hc, handleCollision_eq, handleVisual_eq]
    at hcfg hvi hci
  refine ⟨?_, ?_, hvi, hci⟩
  · rw [hcfg]
    by_cases hcm : c.geometry.isMesh = true
    · obtain ⟨hvm, hfn⟩ := rule3_of_not_mesh_match link v c hv hc hr3 hcm
      obtain ⟨hvf, hvo, -⟩ := visualFilename_mesh v.geometry hvm
      simp only [hcm, if_true]
      apply carriesVisual_of_fields
      · rw [hvf, hfn]
      · rw [hvo]
      · rfl
      · rfl
      · rfl
    · simp only [hcm, if_false]
      exact carriesVisual_of_fields _ _ rfl rfl rfl rfl rfl
  · rw [hcfg]
    unfold carriesCollision
    simp only [handleCollision_eq, and_self]

/-- C8 (amended): for a link with exactly two visual elements and exactly one
collision element, the primary visual and collision being element 0 of the two
arrays, for which neither rule 2 nor rule 3 holds, `handleKinematics` appends
exactly two descriptors: the primary descriptor, which carries the collision
element and the first visual, and one child descriptor, which is a visual-only
child (`noPhysical`) carrying the second visual and whose `relativeid` is the
index of the primary descriptor. -/
theorem C8_two_visuals_one_collision_descriptors (link : Link) (parent : Option Link)
    (s : LoadState) (v0 v1 : Visual) (c0 : Collision)
    (hv : link.visual = some v0) (hc : link.collision = some c0)
    (hva : link.visual_array = [v0, v1]) (hca : link.collision_array = [c0])
    (hr2 : ¬ rule2 link) (hr3 : ¬ rule3 link) (hp : parentAvailable link parent) :
    ∃ p s1 rest d, primaryNode link parent s = some p ∧
      handleKinematics link parent s = some s1 ∧
      s1.nodeList = s.nodeList ++ p.config :: (childNodes link p ++ rest) ∧
      childNodes link p = [d] ∧
      carriesVisual p.config v0 ∧ carriesCollision p.config c0 ∧
      p.config.index = some s.nextNodeID ∧
      carriesVisual d v1 ∧ d.noPhysical = some true ∧
      d.relativeid = p.config.index ∧ d.index = some (s.nextNodeID + 1) := by
  obtain ⟨p, s1, rest, h1, h2, h3, -⟩ := handleKinematics_nodes link parent s hp
  obtain ⟨hcv, hcc, hvi, hci⟩ := primaryNode_shared link parent s p v0 c0 h1 hv hc hr2 hr3
  obtain ⟨hidx, -, -⟩ := primaryNode_groupid link parent s p h1
  obtain ⟨-, hnext, -⟩ := primaryNode_state link parent s p h1
  have hch : childNodes link p = [visualChild link p.config v1 (s.nextNodeID + 1)] := by
    unfold childNodes
    simp [hvi, hci, hva, hca, collisionChildNodes, collisionChildrenIndex, visualChildNodes,
      hnext]
  refine ⟨p, s1, rest, _, h1, h2, h3, hch, hcv, hcc, hidx, ?_, ?_, ?_, ?_⟩
  · rw [visualChild_eq]
    exact carriesVisual_of_fields _ _ rfl rfl rfl rfl rfl
  · rw [visualChild_eq]
  · rw [visualChild_eq]
  · rw [visualChild_eq]

/-- Witness of C8 (amended) on `twoVisualLink`. -/
theorem C8_two_visuals_one_collision_descriptors_witness :
    twoVisualLink.visual = some boxVisual ∧ twoVisualLink.collision = some boxCollision ∧
    twoVisualLink.visual_array = [boxVisual, lampVisual] ∧
    twoVisualLink.collision_array = [boxCollision] ∧
    ¬ rule2 twoVisualLink ∧ ¬ rule3 twoVisualLink ∧ parentAvailable twoVisualLink none ∧
    ∃ p d, primaryNode twoVisualLink none freshState = some p ∧
      childNodes twoVisualLink p = [d] ∧ carriesVisual d lampVisual ∧
      d.relativeid = some 1 ∧ d.index = some 2 := by
  have hr2 : ¬ rule2 twoVisualLink := by
    rintro ⟨c, i, -, hi, -⟩
    cases hi
  have hr3 : ¬ rule3 twoVisualLink := by
    rintro ⟨v, c, -, hc, hm, -⟩
    cases hc
    exact absurd hm (by decide)
  refine ⟨rfl, rfl, rfl, rfl, hr2, hr3, Or.inl rfl, ?_⟩
  obtain ⟨p, s1, rest, d, h1, -, -, h4, -, -, h7, h8, -, h10, h11⟩ :=
    C8_two_visuals_one_collision_descriptors twoVisualLink none freshState boxVisual lampVisual
      boxCollision rfl rfl rfl rfl hr2 hr3 (Or.inl rfl)
  exact ⟨p, d, h1, h4, h8, by rw [h10, h7]; rfl, h11⟩

/-- C9 (the claim as stated fails): for `visualOnlyMeshLink` the second descriptor
`handleKinematics` appends, the visual-only child of the mesh visual, has no
`physicmode`. -/
theorem C9_visual_only_mesh_child_has_no_physicmode :
    ∃ s1, handleKinematics visualOnlyMeshLink none freshState = some s1 ∧
      s1.nodeList.map (fun d => d.physicmode) = [some "box", none] ∧
      s1.nodeList.map (fun d => d.filename) = [some "PRIMITIVE", some "body.dae"] :=
  ⟨_, rfl, rfl, rfl⟩

theorem mem_collisionChildNodes (link : Link) (config : NodeDescriptor) (d : NodeDescriptor) :
    ∀ (cs : List Collision) (i n : Nat), d ∈ collisionChildNodes link config cs i n →
      ∃ c j m, c ∈ cs ∧ d = (collisionChild link config c j m).1
  | [], _, _, h => by simp [collisionChildNodes] at h
  | c :: rest, i, n, h => by
    rw [collisionChildNodes] at h
    rcases List.mem_cons.mp h with h | h
    · exact ⟨c, i, n, List.mem_cons_self _ _, h⟩
    · obtain ⟨c2, j, m, hc, hd⟩ := mem_collisionChildNodes link config d rest _ _ h
      exact ⟨c2, j, m, List.mem_cons_of_mem _ hc, hd⟩

theorem mem_visualChildNodes (link : Link) (config : NodeDescriptor) (d : NodeDescriptor) :
    ∀ (vs : List Visual) (n : Nat), d ∈ visualChildNodes link config vs n →
      ∃ v m, v ∈ vs ∧ d = visualChild link config v m
  | [], _, h => by simp [visualChildNodes] at h
  | v :: rest, n, h => by
    rw [visualChildNodes] at h
    rcases List.mem_cons.mp h with h | h
    · exact ⟨v, n, List.mem_cons_self _ _, h⟩
    · obtain ⟨v2, m, hv, hd⟩ := mem_visualChildNodes link config d rest _ h
      exact ⟨v2, m, List.mem_cons_of_mem _ hv, hd⟩

theorem collisionChild_geometryFieldsSet (link : Link) (config : NodeDescriptor)
    (c : Collision) (i n : Nat) : geometryFieldsSet (collisionChild link config c i n).1 := by
  unfold geometryFieldsSet
  cases hc : candidateVisual link c i with
  | none =>
    rw [collisionChild_eq_unpaired link config c i n hc]
    simp
  | some v =>
    rw [collisionChild_eq_paired link config c i n v hc]
    simp

theorem visualChild_geometryFieldsSet (link : Link) (config : NodeDescriptor)
    (v : Visual) (n : Nat) : geometryFieldsSet (visualChild link config v n) := by
  unfold geometryFieldsSet
  rw [visualChild_eq]
  cases v.geometry <;> simp [Geometry.isMesh, visualOrigname]

theorem primaryNode_geometryFieldsSet (link : Link) (parent : Option Link) (s : LoadState)
    (p : Primary) (h : primaryNode link parent s = some p) : geometryFieldsSet p.config := by
  obtain ⟨cfg, -, -, -, -, -, -, hnp, -, hcfg, -, -⟩ := primaryNode_config link parent s p h
  unfold geometryFieldsSet
  rw [hcfg]
  unfold primaryVisual primaryCollision
  cases (specialCaseHandling link).loadVisual <;> cases link.visual <;>
    cases (specialCaseHandling link).loadCollision <;> cases link.collision <;>
    simp only [handleVisual_eq, handleCollision_eq, createFakeVisual, createFakeCollision] <;>
    (try split_ifs) <;> simp [hnp]

theorem handleLink_geometryFieldsSet (link : Link) (parent : Option Link) (s s1 : LoadState)
    (h : handleLink link parent s = some s1) :
    ∃ new, s1.nodeList = s.nodeList ++ new ∧ ∀ d ∈ new, geometryFieldsSet d := by
  obtain ⟨p, hp⟩ := handleLink_some_primaryNode link parent s s1 h
  refine ⟨_, (handleLink_nodeList link parent s s1 p hp h).1, ?_⟩
  intro d hd
  rcases List.mem_cons.mp hd with hd | hd
  · rw [hd]
    exact primaryNode_geometryFieldsSet link parent s p hp
  · unfold childNodes at hd
    rcases List.mem_append.mp hd with hd | hd
    · obtain ⟨c, j, m, -, hdc⟩ := mem_collisionChildNodes link p.config d _ _ _ hd
      rw [hdc]
      exact collisionChild_geometryFieldsSet link p.config c j m
    · obtain ⟨v, m, -, hdv⟩ := mem_visualChildNodes link p.config d _ _ hd
      rw [hdv]
      exact visualChild_geometryFieldsSet link p.config v m

/-- C9 (amended): every node descriptor the walk appends to the node list
(primary, collision child and visual-only child alike) has `extend` and its
visual-geometry fields `filename`, `origname`, `visualsize`, `visualscale` set;
`physicmode` is set on every one of them except the visual-only children of mesh
visuals, on which it is not set. -/
theorem C9_descriptor_geometry_fields (link : Link) (parent : Option Link) (s : LoadState)
    (hp : parentAvailable link parent) :
    ∃ s1 new, handleKinematics link parent s = some s1 ∧
      s1.nodeList = s.nodeList ++ new ∧ new ≠ [] ∧
      ∀ d ∈ new,
        d.extend.isSome = true ∧ d.filename.isSome = true ∧ d.origname.isSome = true ∧
        d.visualsize.isSome = true ∧ d.visualscale.isSome = true ∧
        (d.physicmode = none ↔ d.noPhysical = some true ∧ d.origname = some "") := by
  obtain ⟨p, s1, rest, -, h2, h3, -⟩ := handleKinematics_nodes link parent s hp
  obtain ⟨new, hnew, hall⟩ := handleKinematics_rel
    (fun a b => ∃ new, b.nodeList = a.nodeList ++ new ∧ ∀ d ∈ new, geometryFieldsSet d)
    (fun a => ⟨[], by simp⟩)
    (by
      rintro a b c ⟨n1, h1, g1⟩ ⟨n2, h2, g2⟩
      refine ⟨n1 ++ n2, by rw [h2, h1, List.append_assoc], ?_⟩
      intro d hd
      rcases List.mem_append.mp hd with hd | hd
      · exact g1 d hd
      · exact g2 d hd)
    handleLink_geometryFieldsSet link parent s s1 h2
  refine ⟨s1, new, h2, hnew, ?_, hall⟩
  rw [h3] at hnew
  have := List.append_cancel_left hnew
  rw [← this]
  exact List.cons_ne_nil _ _

/-- Witness of C9 (amended) on `visualOnlyMeshLink`. -/
theorem C9_descriptor_geometry_fields_witness :
    parentAvailable visualOnlyMeshLink none ∧
    ∃ s1 new, handleKinematics visualOnlyMeshLink none freshState = some s1 ∧
      s1.nodeList = freshState.nodeList ++ new ∧ new ≠ [] ∧
      ∀ d ∈ new,
        d.extend.isSome = true ∧ d.filename.isSome = true ∧ d.origname.isSome = true ∧
        d.visualsize.isSome = true ∧ d.visualscale.isSome = true ∧
        (d.physicmode = none ↔ d.noPhysical = some true ∧ d.origname = some "") :=
  ⟨Or.inl rfl, C9_descriptor_geometry_fields visualOnlyMeshLink none freshState (Or.inl rfl)⟩

/-! ### Sequential identifiers -/

theorem collisionChild_index (link : Link) (config : NodeDescriptor) (c : Collision)
    (i n : Nat) : (collisionChild link config c i n).1.index = some n := by
  cases hc : candidateVisual link c i with
  | none => rw [collisionChild_eq_unpaired link config c i n hc]
  | some v => rw [collisionChild_eq_paired link config c i n v hc]

theorem collisionChildNodes_index (link : Link) (config : NodeDescriptor) :
    ∀ (cs : List Collision) (i n : Nat),
      (collisionChildNodes link config cs i n).map (fun d => d.index) =
        (List.range' n cs.length).map some
  | [], _, _ => rfl
  | c :: rest, i, n => by
    simp only [collisionChildNodes, List.map_cons, List.length_cons, List.range'_succ,
      collisionChild_index, collisionChildNodes_index link config rest]

theorem visualChildNodes_index (link : Link) (config : NodeDescriptor) :
    ∀ (vs : List Visual) (n : Nat),
      (visualChildNodes link config vs n).map (fun d => d.index) =
        (List.range' n vs.length).map some
  | [], _ => rfl
  | v :: rest, n => by
    simp only [visualChildNodes, List.map_cons, List.length_cons, List.range'_succ,
      visualChild_eq, visualChildNodes_index link config rest]

theorem childNodes_index (link : Link) (p : Primary) :
    (childNodes link p).map (fun d => d.index) =
      (List.range' p.state.nextNodeID (childNodes link p).length).map some := by
  unfold childNodes
  rw [List.map_append, collisionChildNodes_index, visualChildNodes_index, List.length_append,
    collisionChildNodes_length, visualChildNodes_length, ← List.map_append]
  congr 1
  rw [Nat.add_comm (List.drop p.collisionArrayIndex link.collision_array).length, 
    ← List.range'_append, Nat.one_mul]

theorem handleParentJoint_joints (link : Link) (s : LoadState) :
    ∃ newJ : List JointDescriptor,
      (handleParentJoint link s).jointList = s.jointList ++ newJ ∧
      (handleParentJoint link s).nextJointID = s.nextJointID + newJ.length ∧
      newJ.map (fun j => j.index) = List.range' s.nextJointID newJ.length := by
  unfold handleParentJoint
  cases link.parent_joint with
  | none => exact ⟨[], by simp⟩
  | some j => exact ⟨[_], rfl, rfl, rfl⟩

theorem IdsContinue.refl (s : LoadState) : IdsContinue s s :=
  ⟨⟨[], by simp⟩, ⟨[], by simp⟩, rfl, rfl⟩

theorem IdsContinue.trans (a b c : LoadState) (h1 : IdsContinue a b) (h2 : IdsContinue b c) :
    IdsContinue a c := by
  obtain ⟨⟨n1, hn1, hc1, hi1⟩, ⟨j1, hj1, hd1, hk1⟩, hm1, hx1⟩ := h1
  obtain ⟨⟨n2, hn2, hc2, hi2⟩, ⟨j2, hj2, hd2, hk2⟩, hm2, hx2⟩ := h2
  refine ⟨⟨n1 ++ n2, ?_, ?_, ?_⟩, ⟨j1 ++ j2, ?_, ?_, ?_⟩, by rw [hm2, hm1], by rw [hx2, hx1]⟩
  · rw [hn2, hn1, List.append_assoc]
  · rw [hc2, hc1, List.length_append, Nat.add_assoc]
  · rw [List.map_append, hi1, hi2, hc1, List.length_append, ← List.map_append,
      Nat.add_comm n1.length, ← List.range'_append, Nat.one_mul]
  · rw [hj2, hj1, List.append_assoc]
  · rw [hd2, hd1, List.length_append, Nat.add_assoc]
  · rw [List.map_append, hk1, hk2, hd1, List.length_append,
      Nat.add_comm j1.length, ← List.range'_append, Nat.one_mul]

theorem handleLink_idsContinue (link : Link) (parent : Option Link) (s s1 : LoadState)
    (h : handleLink link parent s = some s1) : IdsContinue s s1 := by
  obtain ⟨p, hp⟩ := handleLink_some_primaryNode link parent s s1 h
  obtain ⟨hnl, hnn⟩ := handleLink_nodeList link parent s s1 p hp h
  obtain ⟨hidx, -, -⟩ := primaryNode_groupid link parent s p hp
  obtain ⟨-, hpn, hpj, hpjl, hpm, hpml, -⟩ := primaryNode_state link parent s p hp
  rw [handleLink_eq link parent s p hp] at h
  cases h
  obtain ⟨newJ, hj1, hj2, hj3⟩ := handleParentJoint_joints link
    { p.state with
      nextNodeID := p.state.nextNodeID + (childNodes link p).length,
      nodeList := p.state.nodeList ++ childNodes link p }
  refine ⟨⟨_, hnl, hnn, ?_⟩, ⟨newJ, ?_, ?_, ?_⟩, ?_, ?_⟩
  · rw [List.map_cons, hidx, childNodes_index, hpn, List.length_cons, List.range'_succ,
      List.map_cons]
  · rw [hj1, hpjl]
  · rw [hj2, hpj]
  · rw [hj3, hpj]
  · rw [(handleParentJoint_nodeList link _).2.2.2.1, hpml]
  · rw [(handleParentJoint_nodeList link _).2.2.1, hpm]

theorem handleKinematics_idsContinue (link : Link) (parent : Option Link) (s s1 : LoadState)
    (h : handleKinematics link parent s = some s1) : IdsContinue s s1 :=
  handleKinematics_rel IdsContinue IdsContinue.refl IdsContinue.trans handleLink_idsContinue
    link parent s s1 h

theorem handleMaterial_eq (m : Material) (s : LoadState) :
    ∃ d : MaterialDescriptor, d.id = s.nextMaterialID ∧
      handleMaterial m s =
        { s with
          nextMaterialID := s.nextMaterialID + 1,
          materialList := s.materialList ++ [d] } :=
  ⟨_, rfl, rfl⟩

theorem foldl_handleMaterial (ms : List Material) :
    ∀ s : LoadState,
      ∃ newM : List MaterialDescriptor,
        (ms.foldl (fun s material => handleMaterial material s) s).materialList =
          s.materialList ++ newM ∧
        newM.length = ms.length ∧
        newM.map (fun m => m.id) = List.range' s.nextMaterialID ms.length ∧
        (ms.foldl (fun s material => handleMaterial material s) s).nextMaterialID =
          s.nextMaterialID + ms.length ∧
        (ms.foldl (fun s material => handleMaterial material s) s).nodeList = s.nodeList ∧
        (ms.foldl (fun s material => handleMaterial material s) s).jointList = s.jointList ∧
        (ms.foldl (fun s material => handleMaterial material s) s).nextNodeID = s.nextNodeID ∧
        (ms.foldl (fun s material => handleMaterial material s) s).nextJointID =
          s.nextJointID := by
  induction ms with
  | nil => exact fun s => ⟨[], by simp⟩
  | cons m rest ih =>
    intro s
    obtain ⟨newM, h1, h2, h3, h4, h5, h6, h7, h8⟩ := ih (handleMaterial m s)
    obtain ⟨d, hd, hm⟩ := handleMaterial_eq m s
    rw [List.foldl_cons]
    rw [hm] at h1 h3 h4 h5 h6 h7 h8
    rw [hm]
    refine ⟨d :: newM, ?_, ?_, ?_, ?_, h5, h6, h7, h8⟩
    · rw [h1]
      simp
    · simp [h2]
    · rw [List.map_cons, h3, List.length_cons, List.range'_succ, hd]
    · rw [h4]
      simp only [List.length_cons]
      omega

/-- C10: a walk from any link appends node descriptors whose indices, in list
order, are the consecutive values from the node counter on (the `k`-th new
descriptor has the first index plus `k`); and after `prepareLoad` on a `Load`
object with empty lists, `parseScene` leaves node indices `1, 2, ...` in node
list order, joint indices `1, 2, ...` in joint list order and material ids
`1, 2, ...` in material list order (`List.range' 1 n` is `[1, ..., n]`). -/
theorem C10_sequential_ids (model : ModelInterface) (maxGroupID : Nat) (s0 : LoadState)
    (hn : s0.nodeList = []) (hj : s0.jointList = []) (hm : s0.materialList = [])
    (hroot : model.root_link_.parent_joint = none) :
    (∃ s1, parseSceneModel model (prepareLoad maxGroupID s0) = some s1 ∧
      s1.nodeList ≠ [] ∧
      s1.nodeList.map (fun d => d.index) = (List.range' 1 s1.nodeList.length).map some ∧
      s1.jointList.map (fun j => j.index) = List.range' 1 s1.jointList.length ∧
      s1.materialList.length = model.materials_.length + 1 ∧
      s1.materialList.map (fun m => m.id) = List.range' 1 s1.materialList.length) ∧
    ∀ (link : Link) (parent : Option Link) (s : LoadState), parentAvailable link parent →
      ∃ s1 new, handleKinematics link parent s = some s1 ∧
        s1.nodeList = s.nodeList ++ new ∧
        new.map (fun d => d.index) = (List.range' s.nextNodeID new.length).map some := by
  constructor
  · unfold parseSceneModel
    obtain ⟨newM, m1, m2, m3, m4, m5, m6, m7, m8⟩ := foldl_handleMaterial model.materials_
      (createFakeMaterial (prepareLoad maxGroupID s0))
    obtain ⟨p, s1, rest, -, hk, hnodes, -⟩ := handleKinematics_nodes model.root_link_ none
      (model.materials_.foldl (fun s material => handleMaterial material s)
        (createFakeMaterial (prepareLoad maxGroupID s0))) (Or.inl hroot)
    obtain ⟨⟨new, hnew, -, hidx⟩, ⟨newJ, hjl, -, hjidx⟩, hml, -⟩ :=
      handleKinematics_idsContinue _ _ _ _ hk
    rw [m5] at hnodes hnew
    rw [m7] at hidx
    rw [m6] at hjl
    rw [m8] at hjidx
    rw [m1] at hml
    simp only [createFakeMaterial, prepareLoad, hn, hj, hm, List.nil_append]
      at m3 hnodes hnew hidx hjl hjidx hml
    refine ⟨s1, hk, ?_, ?_, ?_, ?_, ?_⟩
    · rw [hnodes]
      exact List.cons_ne_nil _ _
    · rw [hnew]
      exact hidx
    · rw [hjl]
      exact hjidx
    · rw [hml, List.singleton_append, List.length_cons, m2]
    · rw [hml, List.singleton_append, List.map_cons, m3, List.length_cons, m2, List.range'_succ]
  · intro link parent s hp
    obtain ⟨s1, hk⟩ := handleKinematics_isSome link parent s hp
    obtain ⟨⟨new, hnew, -, hidx⟩, -⟩ := handleKinematics_idsContinue _ _ _ _ hk
    exact ⟨s1, new, hk, hnew, hidx⟩

/-- Witness of C10 on `sampleModel`, a document with two materials. -/
theorem C10_sequential_ids_witness :
    ({} : LoadState).nodeList = [] ∧ ({} : LoadState).jointList = [] ∧
    ({} : LoadState).materialList = [] ∧ sampleModel.root_link_.parent_joint = none ∧
    ∃ s1, parseSceneModel sampleModel (prepareLoad 7 {}) = some s1 ∧
      s1.nodeList ≠ [] ∧
      s1.nodeList.map (fun d => d.index) = (List.range' 1 s1.nodeList.length).map some ∧
      s1.jointList.map (fun j => j.index) = List.range' 1 s1.jointList.length ∧
      s1.materialList.map (fun m => m.id) = [1, 2, 3] := by
  refine ⟨rfl, rfl, rfl, rfl, ?_⟩
  obtain ⟨⟨s1, h1, h2, h3, h4, h5, h6⟩, -⟩ :=
    C10_sequential_ids sampleModel 7 {} rfl rfl rfl rfl
  have hlen : s1.materialList.length = 3 := h5
  rw [hlen] at h6
  exact ⟨s1, h1, h2, h3, h4, h6⟩

/-- C13: the joint kind mapping is total: every joint kind is mapped to one of
`hinge`, `slider`, `fixed`; `REVOLUTE` to `hinge`, `PRISMATIC` to `slider`,
`FIXED` to `fixed` and every other kind (`CONTINUOUS`, `PLANAR`, `FLOATING`,
`UNKNOWN`) to `fixed`; and the joint descriptor `handleKinematics` appends for a
link with a parent joint has that value as its `type`. -/
theorem C13_joint_kind_mapping_total :
    (∀ t : JointType,
      jointTypeName t = "hinge" ∨ jointTypeName t = "slider" ∨ jointTypeName t = "fixed") ∧
    jointTypeName .REVOLUTE = "hinge" ∧ jointTypeName .PRISMATIC = "slider" ∧
    jointTypeName .FIXED = "fixed" ∧ jointTypeName .CONTINUOUS = "fixed" ∧
    jointTypeName .PLANAR = "fixed" ∧ jointTypeName .FLOATING = "fixed" ∧
    jointTypeName .UNKNOWN = "fixed" ∧
    (∀ t : JointType, t ≠ .REVOLUTE → t ≠ .PRISMATIC → jointTypeName t = "fixed") ∧
    ∀ (name : String) (inertial : Option Inertial) (visual : Option Visual)
      (collision : Option Collision) (visual_array : List Visual)
      (collision_array : List Collision) (j : Joint) (child_links : List Link) (s : LoadState),
      ∃ jd : JointDescriptor,
        (handleParentJoint
          (.mk name inertial visual collision visual_array collision_array (some j) child_links)
          s).jointList = s.jointList ++ [jd] ∧
        jd.type = jointTypeName j.type := by
  refine ⟨?_, rfl, rfl, rfl, rfl, rfl, rfl, rfl, ?_, ?_⟩
  · intro t
    cases t <;> simp [jointTypeName]
  · intro t h1 h2
    cases t <;> simp_all [jointTypeName]
  · intro name inertial visual collision visual_array collision_array j child_links s
    exact ⟨_, rfl, rfl⟩

/-- C14: for a sphere, a box and a cylinder, `handleCollision` writes the extent
of the mapping table to `extend`, the scale `(1, 1, 1)` to `scale` and the shape
tag to `physicmode`, and `handleVisual` writes the same extent to `visualsize`,
the scale `(1, 1, 1)` to `visualscale` and the shape tag to `origname`: sphere
`(radius, 0, 0)`, box `(dim.x, dim.y, dim.z)`, cylinder `(radius, length, 0)`. -/
theorem C14_primitive_shape_mapping (map : NodeDescriptor) (origin : Pose)
    (name material_name : String) (radius length : ℚ) (dim : Vector3) :
    ((handleCollision map { origin := origin, geometry := .sphere radius, name := name }).extend =
        some { x := radius, y := 0, z := 0 } ∧
      (handleCollision map { origin := origin, geometry := .sphere radius, name := name }).scale =
        some { x := 1, y := 1, z := 1 } ∧
      (handleCollision map
        { origin := origin, geometry := .sphere radius, name := name }).physicmode =
        some "sphere") ∧
    ((handleCollision map { origin := origin, geometry := .box dim, name := name }).extend =
        some { x := dim.x, y := dim.y, z := dim.z } ∧
      (handleCollision map { origin := origin, geometry := .box dim, name := name }).scale =
        some { x := 1, y := 1, z := 1 } ∧
      (handleCollision map { origin := origin, geometry := .box dim, name := name }).physicmode =
        some "box") ∧
    ((handleCollision map
        { origin := origin, geometry := .cylinder radius length, name := name }).extend =
        some { x := radius, y := length, z := 0 } ∧
      (handleCollision map
        { origin := origin, geometry := .cylinder radius length, name := name }).scale =
        some { x := 1, y := 1, z := 1 } ∧
      (handleCollision map
        { origin := origin, geometry := .cylinder radius length, name := name }).physicmode =
        some "cylinder") ∧
    ((handleVisual map
        { origin := origin, geometry := .sphere radius,
          material_name := material_name, name := name }).visualsize =
        some { x := radius, y := 0, z := 0 } ∧
      (handleVisual map
        { origin := origin, geometry := .sphere radius,
          material_name := material_name, name := name }).visualscale =
        some { x := 1, y := 1, z := 1 } ∧
      (handleVisual map
        { origin := origin, geometry := .sphere radius,
          material_name := material_name, name := name }).origname = some "sphere") ∧
    ((handleVisual map
        { origin := origin, geometry := .box dim,
          material_name := material_name, name := name }).visualsize =
        some { x := dim.x, y := dim.y, z := dim.z } ∧
      (handleVisual map
        { origin := origin, geometry := .box dim,
          material_name := material_name, name := name }).visualscale =
        some { x := 1, y := 1, z := 1 } ∧
      (handleVisual map
        { origin := origin, geometry := .box dim,
          material_name := material_name, name := name }).origname = some "box") ∧
    ((handleVisual map
        { origin := origin, geometry := .cylinder radius length,
          material_name := material_name, name := name }).visualsize =
        some { x := radius, y := length, z := 0 } ∧
      (handleVisual map
        { origin := origin, geometry := .cylinder radius length,
          material_name := material_name, name := name }).visualscale =
        some { x := 1, y := 1, z := 1 } ∧
      (handleVisual map
        { origin := origin, geometry := .cylinder radius length,
          material_name := material_name, name := name }).origname = some "cylinder") :=
  ⟨⟨rfl, rfl, rfl⟩, ⟨rfl, rfl, rfl⟩, ⟨rfl, rfl, rfl⟩, ⟨rfl, rfl, rfl⟩, ⟨rfl, rfl, rfl⟩,
    ⟨rfl, rfl, rfl⟩⟩

/-- C15 (the claim as stated fails): for a mesh collision with scale `(2, 3, 4)`
`handleCollision` does not leave `extend` at `(0, 0, 0)`: it writes the scale of
the mesh to it. -/
theorem C15_mesh_collision_extend_is_scale :
    (handleCollision {} { geometry := .mesh "hull.stl" { x := 2, y := 3, z := 4 } }).extend =
      some { x := 2, y := 3, z := 4 } ∧
    (handleCollision {} { geometry := .mesh "hull.stl" { x := 2, y := 3, z := 4 } }).extend ≠
      some { x := 0, y := 0, z := 0 } := by
  refine ⟨rfl, ?_⟩
  rw [handleCollision_eq]
  simp [collisionExtend, Geometry.isMesh, geometryScale]

/-- C15 (amended): for a mesh, `handleVisual` leaves `visualsize` at `(0, 0, 0)`
and `handleCollision` writes the scale of the mesh to `extend`; both write the
scale of the mesh to their scale vector (`visualscale`, `scale`) and the
filename of the mesh to `filename`. -/
theorem C15_mesh_mapping (map : NodeDescriptor) (origin : Pose)
    (name material_name filename : String) (scale : Vector3) :
    (handleVisual map
        { origin := origin, geometry := .mesh filename scale,
          material_name := material_name, name := name }).visualsize =
      some { x := 0, y := 0, z := 0 } ∧
    (handleVisual map
        { origin := origin, geometry := .mesh filename scale,
          material_name := material_name, name := name }).visualscale =
      some { x := scale.x, y := scale.y, z := scale.z } ∧
    (handleVisual map
        { origin := origin, geometry := .mesh filename scale,
          material_name := material_name, name := name }).filename = some filename ∧
    (handleCollision map
        { origin := origin, geometry := .mesh filename scale, name := name }).extend =
      some { x := scale.x, y := scale.y, z := scale.z } ∧
    (handleCollision map
        { origin := origin, geometry := .mesh filename scale, name := name }).scale =
      some { x := scale.x, y := scale.y, z := scale.z } ∧
    (handleCollision map
        { origin := origin, geometry := .mesh filename scale, name := name }).filename =
      some filename :=
  ⟨rfl, rfl, rfl, rfl, rfl, rfl⟩

/-- C16 (the claim as stated fails): `meshCollisionOnlyLink` has no primary
visual, and its primary descriptor does not carry the placeholder visual
`PRIMITIVE` box: the mesh collision leaves its file in `filename` and the empty
string in `origname`. -/
theorem C16_no_visual_mesh_collision_not_primitive :
    meshCollisionOnlyLink.visual = none ∧
    ∃ p, primaryNode meshCollisionOnlyLink none freshState = some p ∧
      p.config.filename = some "hull.stl" ∧ p.config.origname = some "" ∧
      ¬ hasFakeVisual p.config := by
  refine ⟨rfl, _, rfl, rfl, rfl, ?_⟩
  intro h
  have h1 := h.1
  revert h1
  decide

theorem primaryVisual_none (lv : Bool) (link : Link) (cfg : NodeDescriptor)
    (h : link.visual = none) : primaryVisual lv link cfg = (createFakeVisual cfg, 0) := by
  unfold primaryVisual
  cases lv <;> simp [h]

theorem primaryCollision_none (lc : Bool) (link : Link) (cfg : NodeDescriptor)
    (h : link.collision = none) :
    primaryCollision lc link cfg = (createFakeCollision cfg, 0) := by
  unfold primaryCollision
  cases lc <;> simp [h]

/-- C16 (amended): if a link has no primary visual, its primary descriptor has
the `visualsize` `(0.01, 0.01, 0.01)`, the `visualscale` `(1, 1, 1)` and the
`materialName` `_fakeMaterial` of the placeholder visual, and `filename`
`PRIMITIVE` with `origname` `box` unless its primary collision is a mesh that
goes into the primary descriptor (rule 2 does not hold), in which case
`filename` is the file of that mesh and `origname` is empty; if a link has no
primary collision, its primary descriptor carries the placeholder collision
(`physicmode` `box`, `extend` `(0.01, 0.01, 0.01)`, `coll_bitmask` `0`). -/
theorem C16_placeholder_visual_and_collision (link : Link) (parent : Option Link)
    (s : LoadState) (hp : parentAvailable link parent) :
    ∃ p s1 rest, primaryNode link parent s = some p ∧
      handleKinematics link parent s = some s1 ∧
      s1.nodeList = s.nodeList ++ p.config :: (childNodes link p ++ rest) ∧
      (link.visual = none →
        p.config.visualsize = some { x := 1 / 100, y := 1 / 100, z := 1 / 100 } ∧
        p.config.visualscale = some { x := 1, y := 1, z := 1 } ∧
        p.config.materialName = some "_fakeMaterial" ∧
        (∀ c, link.collision = some c → c.geometry.isMesh = true → ¬ rule2 link →
          p.config.filename = some c.geometry.meshFilename ∧ p.config.origname = some "") ∧
        ((∀ c, link.collision = some c → c.geometry.isMesh = true → rule2 link) →
          hasFakeVisual p.config)) ∧
      (link.collision = none → hasFakeCollision p.config) := by
  obtain ⟨p, s1, rest, h1, h2, h3, -⟩ := handleKinematics_nodes link parent s hp
  obtain ⟨cfg, -, -, -, -, -, -, -, -, hcfg, -, -⟩ := primaryNode_config link parent s p h1
  refine ⟨p, s1, rest, h1, h2, h3, ?_, ?_⟩
  · intro hv
    rw [primaryVisual_none _ link cfg hv] at hcfg
    obtain ⟨-, -, -, -, c5, c6, c7, -⟩ := primaryCollision_header
      (specialCaseHandling link).loadCollision link (createFakeVisual cfg)
    rw [← hcfg] at c5 c6 c7
    refine ⟨by rw [c5]; rfl, by rw [c6]; rfl, by rw [c7]; rfl, ?_, ?_⟩
    · intro c hc hm hr2
      have hlc : (specialCaseHandling link).loadCollision = true :=
        (specialCaseHandling_loadCollision link).mpr ⟨by rw [hc]; rfl, hr2⟩
      rw [hlc] at hcfg
      simp only [primaryCollision, hc, handleCollision_eq, hm, if_true] at hcfg
      rw [hcfg]
      exact ⟨rfl, rfl⟩
    · intro hall
      have hfields : p.config.filename = some "PRIMITIVE" ∧ p.config.origname = some "box" := by
        cases hc : link.collision with
        | none =>
          rw [primaryCollision_none _ link _ hc] at hcfg
          rw [hcfg]
          exact ⟨rfl, rfl⟩
        | some c =>
          by_cases hlc : (specialCaseHandling link).loadCollision = true
          · have hr2 : ¬ rule2 link := ((specialCaseHandling_loadCollision link).mp hlc).2
            have hm : c.geometry.isMesh = false := by
              cases hm : c.geometry.isMesh with
              | false => rfl
              | true => exact absurd (hall c hc hm) hr2
            rw [hlc] at hcfg
            simp only [primaryCollision, hc, handleCollision_eq, hm] at hcfg
            rw [hcfg]
            exact ⟨rfl, rfl⟩
          · have hlc2 : (specialCaseHandling link).loadCollision = false := by
              simpa using hlc
            rw [hlc2] at hcfg
            simp only [primaryCollision, hc] at hcfg
            rw [hcfg]
            exact ⟨rfl, rfl⟩
      exact ⟨hfields.1, hfields.2, by rw [c5]; rfl, by rw [c6]; rfl, by rw [c7]; rfl⟩
  · intro hc
    rw [primaryCollision_none _ link _ hc] at hcfg
    rw [hcfg]
    exact ⟨rfl, rfl, rfl⟩

/-- Witness of C16 (amended) on `bareChild`, a link without visual and without
collision, below `collisionOnlyParent`. -/
theorem C16_placeholder_visual_and_collision_witness :
    parentAvailable bareChild (some collisionOnlyParent) ∧
    bareChild.visual = none ∧ bareChild.collision = none ∧
    ∃ p, primaryNode bareChild (some collisionOnlyParent) freshState = some p ∧
      hasFakeVisual p.config ∧ hasFakeCollision p.config := by
  refine ⟨Or.inr rfl, rfl, rfl, ?_⟩
  obtain ⟨p, s1, rest, h1, -, -, h4, h5⟩ :=
    C16_placeholder_visual_and_collision bareChild (some collisionOnlyParent) freshState
      (Or.inr rfl)
  refine ⟨p, h1, (h4 rfl).2.2.2.2 ?_, h5 rfl⟩
  intro c hc
  cases hc
theorem foldl_handleMaterial_content (ms : List Material) :
    ∀ s : LoadState,
      (ms.foldl (fun s material => handleMaterial material s) s).materialList.map
          MaterialDescriptor.content =
        s.materialList.map MaterialDescriptor.content ++ ms.map Material.content := by
  induction ms with
  | nil => intro s; simp
  | cons m rest ih =>
    intro s
    rw [List.foldl_cons, ih]
    simp [handleMaterial, MaterialDescriptor.content, Material.content]

/-- C17: for a document with `n` entries in its material table, `parseScene`
builds a material list of `n + 1` descriptors: the fallback material
`_fakeMaterial` first, then one descriptor per table entry in table order with
the name, colour and texture of the entry. The list is built before the walk
starts (no node descriptor exists yet), the walk does not change it, and it
is the same for every link tree. -/
theorem C17_material_list_before_walk (model : ModelInterface) (s : LoadState)
    (hm : s.materialList = []) (hn : s.nodeList = [])
    (hroot : model.root_link_.parent_joint = none) :
    ∃ sM s1,
      sM = model.materials_.foldl (fun s material => handleMaterial material s)
        (createFakeMaterial s) ∧
      sM.nodeList = [] ∧
      sM.materialList.length = model.materials_.length + 1 ∧
      sM.materialList.map MaterialDescriptor.content =
        ("_fakeMaterial", 1, 0, 0, 1, "") :: model.materials_.map Material.content ∧
      handleKinematics model.root_link_ none sM = some s1 ∧
      parseSceneModel model s = some s1 ∧
      s1.materialList = sM.materialList ∧
      ∀ root : Link, root.parent_joint = none →
        ∃ s2, parseSceneModel { model with root_link_ := root } s = some s2 ∧
          s2.materialList = s1.materialList := by
  obtain ⟨newM, m1, m2, -, -, m5, -⟩ := foldl_handleMaterial model.materials_
    (createFakeMaterial s)
  have hcont := foldl_handleMaterial_content model.materials_ (createFakeMaterial s)
  obtain ⟨s1, hk⟩ := handleKinematics_isSome model.root_link_ none
    (model.materials_.foldl (fun s material => handleMaterial material s)
      (createFakeMaterial s)) (Or.inl hroot)
  obtain ⟨-, -, hml, -⟩ := handleKinematics_idsContinue _ _ _ _ hk
  refine ⟨_, s1, rfl, ?_, ?_, ?_, hk, hk, hml, ?_⟩
  · rw [m5]
    simp [createFakeMaterial, hn]
  · rw [m1]
    simp [createFakeMaterial, hm, m2]
  · rw [hcont]
    simp [createFakeMaterial, hm, MaterialDescriptor.content]
  · intro root hr
    obtain ⟨s2, hk2⟩ := handleKinematics_isSome root none
      (model.materials_.foldl (fun s material => handleMaterial material s)
        (createFakeMaterial s)) (Or.inl hr)
    obtain ⟨-, -, hml2, -⟩ := handleKinematics_idsContinue _ _ _ _ hk2
    exact ⟨s2, hk2, by rw [hml2, hml]⟩

/-- Witness of C17 on `sampleModel`, a document with two materials. -/
theorem C17_material_list_before_walk_witness :
    ({} : LoadState).materialList = [] ∧ ({} : LoadState).nodeList = [] ∧
    sampleModel.root_link_.parent_joint = none ∧
    ∃ s1, parseSceneModel sampleModel (prepareLoad 0 {}) = some s1 ∧
      s1.materialList.map (fun d => d.name) = ["_fakeMaterial", "grey", "white"] := by
  refine ⟨rfl, rfl, rfl, ?_⟩
  obtain ⟨sM, s1, -, -, -, h4, -, h6, h7, -⟩ :=
    C17_material_list_before_walk sampleModel (prepareLoad 0 {}) rfl rfl rfl
  refine ⟨s1, h6, ?_⟩
  rw [h7]
  have h := congrArg (List.map (fun c : String × ℚ × ℚ × ℚ × ℚ × String => c.1)) h4
  simpa [MaterialDescriptor.content, List.map_map, Function.comp_def, sampleModel,
    Material.content] using h

/-- C11 (the claim as stated fails): `occupiedScene` holds the nodes `1` to `5`,
so its maximum existing node index is `5`, and the first node index the walk
assigns in a load into it is `1`, an index of an existing node, not `6`. -/
theorem C11_first_node_index_is_one_in_occupied_scene :
    occupiedScene.maxNodeIndex = 5 ∧
    ∃ s1, parseSceneModel singleLinkModel (prepareLoadIn occupiedScene {}) = some s1 ∧
      (s1.nodeList.map (fun d => d.index)).head? = some (some 1) ∧
      1 ∈ occupiedScene.nodeIndices ∧ (1 : Nat) ≠ occupiedScene.maxNodeIndex + 1 :=
  ⟨by decide, _, rfl, rfl, by decide, by decide⟩

/-- C11 (amended): for every load, whatever the current maximum existing node
index `m` of the scene, the first node index the walk assigns, the index of the
primary descriptor of the root link, is `1`; it is the index of an existing
node whenever the scene holds a node with the index `1`. -/
theorem C11_first_node_index_is_one (scene : ExistingScene) (model : ModelInterface)
    (s0 : LoadState) (hn : s0.nodeList = [])
    (hroot : model.root_link_.parent_joint = none) :
    ∃ s1 d rest, parseSceneModel model (prepareLoadIn scene s0) = some s1 ∧
      s1.nodeList = d :: rest ∧ d.index = some 1 ∧ d.name = some model.root_link_.name ∧
      (1 ∈ scene.nodeIndices → ∃ i ∈ scene.nodeIndices, d.index = some i) := by
  obtain ⟨newM, -, -, -, -, m5, -, m7, -⟩ := foldl_handleMaterial model.materials_
    (createFakeMaterial (prepareLoadIn scene s0))
  obtain ⟨p, s1, rest, hp, hk, hnodes, -⟩ := handleKinematics_nodes model.root_link_ none
    (model.materials_.foldl (fun s material => handleMaterial material s)
      (createFakeMaterial (prepareLoadIn scene s0))) (Or.inl hroot)
  obtain ⟨hidx, hname, -⟩ := primaryNode_groupid _ _ _ p hp
  rw [m5] at hnodes
  rw [m7] at hidx
  simp only [createFakeMaterial, prepareLoadIn, prepareLoad, hn, List.nil_append]
    at hnodes hidx
  exact ⟨s1, p.config, _, hk, hnodes, hidx, hname, fun h1 => ⟨1, h1, hidx⟩⟩

/-- Witness of C11 (amended) on a load of `sampleModel` into `occupiedScene`,
which holds a node with the index `1`. -/
theorem C11_first_node_index_is_one_witness :
    ({} : LoadState).nodeList = [] ∧ sampleModel.root_link_.parent_joint = none ∧
    occupiedScene.maxNodeIndex = 5 ∧
    ∃ s1 d rest, parseSceneModel sampleModel (prepareLoadIn occupiedScene {}) = some s1 ∧
      s1.nodeList = d :: rest ∧ d.index = some 1 ∧ d.name = some "head" ∧
      ∃ i ∈ occupiedScene.nodeIndices, d.index = some i := by
  obtain ⟨s1, d, rest, h1, h2, h3, h4, h5⟩ :=
    C11_first_node_index_is_one occupiedScene sampleModel {} rfl rfl
  exact ⟨rfl, rfl, by decide, s1, d, rest, h1, h2, h3, h4, h5 (by decide)⟩

theorem resolveMaterial_index (mm : MaterialMap) (config : NodeDescriptor) (node : NodeData) :
    (resolveMaterial mm config node).index = node.index ∧
    (resolveMaterial mm config node).name = node.name := by
  unfold resolveMaterial
  split_ifs
  · cases mm.lookup (config.materialName.getD "") <;> exact ⟨rfl, rfl⟩
  · exact ⟨rfl, rfl⟩

theorem loadMaterial_eq (mgr : Collaborators) (ctx : LoadContext) (mm : MaterialMap)
    (d : MaterialDescriptor) (c : CommitState) :
    loadMaterial mgr d c =
      (if itemAccepted mgr ctx mm (.material d) = true then 1 else 0,
        { materialMap := (d.name, (mgr.materialFromConfigMap d).2) :: c.materialMap,
          log := c.log ++ itemEvents mgr ctx mm (.material d) }) := rfl

theorem loadNode_eq (mgr : Collaborators) (ctx : LoadContext) (d : NodeDescriptor)
    (c : CommitState) :
    loadNode mgr ctx d c =
      (if itemAccepted mgr ctx c.materialMap (.node d) = true then 1 else 0,
        { c with log := c.log ++ itemEvents mgr ctx c.materialMap (.node d) }) := by
  unfold loadNode itemEvents mappedIDOf entityCallOf itemAccepted nodeToAdd
  simp only [resolveMaterial_index]
  by_cases hv : (mgr.nodeFromConfigMap d ctx.mapIndex).1 = true
  swap
  · simp [hv]
  · by_cases hid : (mgr.addNode (resolveMaterial c.materialMap d
        (mgr.nodeFromConfigMap d ctx.mapIndex).2)).1 = 0
    · simp [hv, hid]
    · by_cases hr : ctx.mRobotName = ""
      · simp [hv, hid, hr]
      · simp [hv, hid, hr]

theorem loadJoint_eq (mgr : Collaborators) (ctx : LoadContext) (mm : MaterialMap)
    (d : JointDescriptor) (c : CommitState) :
    loadJoint mgr ctx d c =
      (if itemAccepted mgr ctx mm (.joint d) = true then 1 else 0,
        { c with log := c.log ++ itemEvents mgr ctx mm (.joint d) }) := by
  unfold loadJoint itemEvents mappedIDOf entityCallOf itemAccepted
  by_cases hv : (mgr.jointFromConfigMap d ctx.mapIndex).1 = true
  swap
  · simp [hv]
  · by_cases hid : (mgr.addJoint (mgr.jointFromConfigMap d ctx.mapIndex).2).1 = 0
    · simp [hv, hid]
    · by_cases hr : ctx.mRobotName = ""
      · simp [hv, hid, hr]
      · simp [hv, hid, hr]

theorem loadEach_map {α β : Type} (load : β → CommitState → Nat × CommitState) (g : α → β) :
    ∀ (xs : List α) (c : CommitState),
      loadEach load (xs.map g) c = loadEach (fun x => load (g x)) xs c
  | [], _ => rfl
  | x :: rest, c => by
    simp only [List.map_cons, loadEach]
    split_ifs
    · rfl
    · exact loadEach_map load g rest _

/-- A loop over descriptors each of which returns `1` or `0` as it is accepted or
not and appends its calls to the log: the loop handles a prefix of the list,
and stops right behind the first descriptor that is rejected. -/
theorem loadEach_run {α : Type} (load : α → CommitState → Nat × CommitState)
    (acc : α → Bool) (ev : α → List Event) (inv : CommitState → Prop) :
    ∀ (xs : List α) (c : CommitState),
      (∀ x ∈ xs, ∀ c, inv c →
        (load x c).1 = (if acc x = true then 1 else 0) ∧
        (load x c).2.log = c.log ++ ev x ∧ inv (load x c).2) →
      inv c →
      ∃ k, inv (loadEach load xs c).2 ∧
        (loadEach load xs c).2.log = c.log ++ (xs.take k).flatMap ev ∧
        RunOutcome acc xs (loadEach load xs c).1 k
  | [], c, _, hc => ⟨0, hc, by simp [loadEach], Or.inl ⟨rfl, rfl, by simp⟩⟩
  | x :: rest, c, h, hc => by
    obtain ⟨h1, h2, h3⟩ := h x (List.mem_cons_self _ _) c hc
    rw [loadEach]
    by_cases ha : acc x = true
    · rw [ha, if_pos rfl] at h1
      simp only [h1, Nat.one_ne_zero, if_false]
      obtain ⟨k, i1, i2, i3⟩ := loadEach_run load acc ev inv rest (load x c).2
        (fun y hy => h y (List.mem_cons_of_mem _ hy)) h3
      refine ⟨k + 1, i1, ?_, ?_⟩
      · rw [i2, h2, List.take_succ_cons, List.flatMap_cons, List.append_assoc]
      · rcases i3 with ⟨r1, r2, r3⟩ | ⟨r1, r2, r3, r4, y, r5, r6⟩
        · refine Or.inl ⟨r1, by rw [r2, List.length_cons], ?_⟩
          intro y hy
          rcases List.mem_cons.mp hy with hy | hy
          · rw [hy]
            exact ha
          · exact r3 y hy
        · refine Or.inr ⟨r1, Nat.succ_pos k, by rw [List.length_cons]; omega, ?_, y, ?_, r6⟩
          · obtain ⟨j, hj⟩ : ∃ j, k = j + 1 := ⟨k - 1, by omega⟩
            subst hj
            intro z hz
            rw [Nat.add_sub_cancel, List.take_succ_cons] at hz
            rcases List.mem_cons.mp hz with hz | hz
            · rw [hz]
              exact ha
            · exact r4 z (by simpa using hz)
          · obtain ⟨j, hj⟩ : ∃ j, k = j + 1 := ⟨k - 1, by omega⟩
            subst hj
            rw [Nat.add_sub_cancel] at r5 ⊢
            rw [List.getElem?_cons_succ]
            exact r5
    · have ha2 : acc x = false := by simpa using ha
      rw [ha2] at h1
      simp only [Bool.false_eq_true, if_false] at h1
      simp only [h1, if_true]
      refine ⟨1, h3, ?_, Or.inr ⟨rfl, Nat.one_pos, by rw [List.length_cons]; omega, ?_, x, ?_, ha2⟩⟩
      · rw [h2]
        simp
      · intro z hz
        simp at hz
      · simp

theorem RunOutcome.prefix_rejected {α : Type} (acc : α → Bool) (xs ys : List α) (k : Nat)
    (h : RunOutcome acc xs 0 k) : RunOutcome acc (xs ++ ys) 0 k := by
  rcases h with ⟨r1, -⟩ | ⟨-, r2, r3, r4, x, r5, r6⟩
  · exact absurd r1 (by decide)
  · refine Or.inr ⟨rfl, r2, by rw [List.length_append]; omega, ?_, x, ?_, r6⟩
    · rw [List.take_append_of_le_length (by omega)]
      exact r4
    · rw [List.getElem?_append_left (by omega)]
      exact r5

theorem RunOutcome.after_accepted {α : Type} (acc : α → Bool) (xs ys : List α) (r k : Nat)
    (hx : ∀ x ∈ xs, acc x = true) (h : RunOutcome acc ys r k) :
    RunOutcome acc (xs ++ ys) r (xs.length + k) := by
  rcases h with ⟨r1, r2, r3⟩ | ⟨r1, r2, r3, r4, y, r5, r6⟩
  · refine Or.inl ⟨r1, by rw [List.length_append, r2], ?_⟩
    intro z hz
    rcases List.mem_append.mp hz with hz | hz
    · exact hx z hz
    · exact r3 z hz
  · refine Or.inr ⟨r1, by omega, by rw [List.length_append]; omega, ?_, y, ?_, r6⟩
    · have e : xs.length + k - 1 = xs.length + (k - 1) := by omega
      rw [e, List.take_append]
      intro z hz
      rcases List.mem_append.mp hz with hz | hz
      · exact hx z hz
      · exact r4 z hz
    · have e : xs.length + k - 1 = xs.length + (k - 1) := by omega
      rw [e, List.getElem?_append_right (by omega)]
      simpa using r5

theorem RunOutcome.cases_result {α : Type} (acc : α → Bool) (xs : List α) (r k : Nat)
    (h : RunOutcome acc xs r k) : r = 0 ∨ (r = 1 ∧ k = xs.length ∧ ∀ x ∈ xs, acc x = true) := by
  rcases h with h | h
  · exact Or.inr h
  · exact Or.inl h.1

theorem loadItem_material_run (mgr : Collaborators) (ctx : LoadContext) (mm : MaterialMap)
    (ms : List MaterialDescriptor) :
    ∀ x ∈ ms.map Item.material, ∀ c : CommitState, True →
      (loadItem mgr ctx x c).1 = (if itemAccepted mgr ctx mm x = true then 1 else 0) ∧
      (loadItem mgr ctx x c).2.log = c.log ++ itemEvents mgr ctx mm x ∧ True := by
  intro x hx c _
  obtain ⟨d, -, rfl⟩ := List.mem_map.mp hx
  exact ⟨rfl, rfl, trivial⟩

theorem loadItem_node_run (mgr : Collaborators) (ctx : LoadContext) (mm : MaterialMap)
    (ns : List NodeDescriptor) :
    ∀ x ∈ ns.map Item.node, ∀ c : CommitState, c.materialMap = mm →
      (loadItem mgr ctx x c).1 = (if itemAccepted mgr ctx mm x = true then 1 else 0) ∧
      (loadItem mgr ctx x c).2.log = c.log ++ itemEvents mgr ctx mm x ∧
      (loadItem mgr ctx x c).2.materialMap = mm := by
  intro x hx c hc
  obtain ⟨d, -, rfl⟩ := List.mem_map.mp hx
  simp only [loadItem, loadNode_eq, hc, and_self]

theorem loadItem_joint_run (mgr : Collaborators) (ctx : LoadContext) (mm : MaterialMap)
    (js : List JointDescriptor) :
    ∀ x ∈ js.map Item.joint, ∀ c : CommitState, c.materialMap = mm →
      (loadItem mgr ctx x c).1 = (if itemAccepted mgr ctx mm x = true then 1 else 0) ∧
      (loadItem mgr ctx x c).2.log = c.log ++ itemEvents mgr ctx mm x ∧
      (loadItem mgr ctx x c).2.materialMap = mm := by
  intro x hx c hc
  obtain ⟨d, -, rfl⟩ := List.mem_map.mp hx
  simp only [loadItem, loadJoint_eq mgr ctx mm, hc, and_self]

theorem loadScene_eq_items (mgr : Collaborators) (ctx : LoadContext) (s : LoadState)
    (c : CommitState) :
    loadScene mgr ctx s c =
      (let r := loadEach (loadItem mgr ctx) (s.materialList.map .material) c
       if r.1 = 0 then (0, r.2)
       else
         let r := loadEach (loadItem mgr ctx) (s.nodeList.map .node) r.2
         if r.1 = 0 then (0, r.2)
         else
           let r := loadEach (loadItem mgr ctx) (s.jointList.map .joint) r.2
           if r.1 = 0 then (0, r.2) else (1, r.2)) := by
  simp only [loadEach_map]
  rfl

/-- The run of `loadScene`: it handles a prefix of the descriptors in the order
materials, nodes, joints, appends the calls of exactly these descriptors to
the log, and stops right behind the first descriptor that is rejected. -/
theorem loadScene_run (mgr : Collaborators) (ctx : LoadContext) (s : LoadState)
    (c : CommitState) :
    ∃ k, (loadScene mgr ctx s c).2.log =
        c.log ++ ((itemsOf s).take k).flatMap
          (itemEvents mgr ctx (loadScene mgr ctx s c).2.materialMap) ∧
      RunOutcome (itemAccepted mgr ctx (loadScene mgr ctx s c).2.materialMap) (itemsOf s)
        (loadScene mgr ctx s c).1 k := by
  rw [loadScene_eq_items]
  unfold itemsOf
  dsimp only
  generalize hr1 : loadEach (loadItem mgr ctx) (s.materialList.map Item.material) c = r1
  obtain ⟨k1, -, l1, o1⟩ := loadEach_run (loadItem mgr ctx)
    (itemAccepted mgr ctx r1.2.materialMap) (itemEvents mgr ctx r1.2.materialMap)
    (fun _ => True) (s.materialList.map .material) c
    (loadItem_material_run mgr ctx r1.2.materialMap s.materialList) trivial
  rw [hr1] at l1 o1
  generalize hr2 : loadEach (loadItem mgr ctx) (s.nodeList.map Item.node) r1.2 = r2
  obtain ⟨k2, i2, l2, o2⟩ := loadEach_run (loadItem mgr ctx)
    (itemAccepted mgr ctx r1.2.materialMap) (itemEvents mgr ctx r1.2.materialMap)
    (fun c => c.materialMap = r1.2.materialMap) (s.nodeList.map .node) r1.2
    (loadItem_node_run mgr ctx r1.2.materialMap s.nodeList) rfl
  rw [hr2] at i2 l2 o2
  generalize hr3 : loadEach (loadItem mgr ctx) (s.jointList.map Item.joint) r2.2 = r3
  obtain ⟨k3, i3, l3, o3⟩ := loadEach_run (loadItem mgr ctx)
    (itemAccepted mgr ctx r1.2.materialMap) (itemEvents mgr ctx r1.2.materialMap)
    (fun c => c.materialMap = r1.2.materialMap) (s.jointList.map .joint) r2.2
    (loadItem_joint_run mgr ctx r1.2.materialMap s.jointList) i2
  rw [hr3] at i3 l3 o3
  rcases RunOutcome.cases_result _ _ _ _ o1 with e1 | ⟨e1, f1, g1⟩
  · rw [e1] at o1
    simp only [e1, if_true]
    refine ⟨k1, ?_, ?_⟩
    · have hk : k1 ≤ (s.materialList.map Item.material).length := by
        rcases o1 with ⟨h, -⟩ | ⟨-, -, h, -⟩
        · exact absurd h (by decide)
        · exact h
      rw [l1, List.append_assoc, List.take_append_of_le_length hk]
    · rw [List.append_assoc]
      exact RunOutcome.prefix_rejected _ _ _ _ o1
  · simp only [e1, Nat.one_ne_zero, if_false]
    rcases RunOutcome.cases_result _ _ _ _ o2 with e2 | ⟨e2, f2, g2⟩
    · rw [e2] at o2
      simp only [e2, if_true]
      refine ⟨(s.materialList.map Item.material).length + k2, ?_, ?_⟩
      · have hk : k2 ≤ (s.nodeList.map Item.node).length := by
          rcases o2 with ⟨h, -⟩ | ⟨-, -, h, -⟩
          · exact absurd h (by decide)
          · exact h
        rw [i2, l2, l1, f1, List.take_length, List.append_assoc, List.append_assoc,
          List.take_append, List.take_append_of_le_length hk, List.flatMap_append]
      · rw [i2, List.append_assoc]
        exact RunOutcome.after_accepted _ _ _ _ _ g1 (RunOutcome.prefix_rejected _ _ _ _ o2)
    · simp only [e2, Nat.one_ne_zero, if_false]
      have hlog : r3.2.log = c.log ++
          (List.take ((s.materialList.map Item.material).length +
              ((s.nodeList.map Item.node).length + k3))
            (s.materialList.map Item.material ++ s.nodeList.map Item.node ++
              s.jointList.map Item.joint)).flatMap (itemEvents mgr ctx r1.2.materialMap) := by
        rw [l3, l2, l1, f1, f2, List.take_length, List.take_length]
        simp only [List.append_assoc, List.take_append, List.flatMap_append]
      have hout : RunOutcome (itemAccepted mgr ctx r1.2.materialMap)
          (s.materialList.map Item.material ++ s.nodeList.map Item.node ++
            s.jointList.map Item.joint) r3.1
          ((s.materialList.map Item.material).length +
            ((s.nodeList.map Item.node).length + k3)) := by
        rw [List.append_assoc]
        exact RunOutcome.after_accepted _ _ _ _ _ g1
          (RunOutcome.after_accepted _ _ _ _ _ g2 o3)
      rcases RunOutcome.cases_result _ _ _ _ o3 with e3 | ⟨e3, -, -⟩
      · simp only [e3, if_true]
        rw [e3] at hout
        rw [i3]
        exact ⟨_, hlog, hout⟩
      · simp only [e3, Nat.one_ne_zero, if_false]
        rw [e3] at hout
        rw [i3]
        exact ⟨_, hlog, hout⟩

/-- C19: `loadScene` handles the descriptors in the order materials, nodes,
joints (`itemsOf`), each with the calls `itemEvents` lists for it; it returns
`1` if and only if every descriptor is accepted; otherwise it returns `0`, the
last descriptor it handled, the `k`-th, is the first rejected one, every
descriptor before it was accepted and none behind it was handed to a
collaborator; the log keeps the earlier calls and the calls of the accepted
descriptors, and no call undoes one of them. -/
theorem C19_loadScene_stops_at_first_rejected (mgr : Collaborators) (ctx : LoadContext)
    (s : LoadState) (c : CommitState) :
    ∃ k mm, mm = (loadScene mgr ctx s c).2.materialMap ∧
      (loadScene mgr ctx s c).2.log =
        c.log ++ ((itemsOf s).take k).flatMap (itemEvents mgr ctx mm) ∧
      ((loadScene mgr ctx s c).1 = 1 ↔ ∀ it ∈ itemsOf s, itemAccepted mgr ctx mm it = true) ∧
      ((loadScene mgr ctx s c).1 = 1 → k = (itemsOf s).length) ∧
      ((loadScene mgr ctx s c).1 ≠ 1 →
        (loadScene mgr ctx s c).1 = 0 ∧ 0 < k ∧ k ≤ (itemsOf s).length ∧
        (∀ it ∈ (itemsOf s).take (k - 1), itemAccepted mgr ctx mm it = true) ∧
        ∃ it, (itemsOf s)[k - 1]? = some it ∧ itemAccepted mgr ctx mm it = false) := by
  obtain ⟨k, hlog, hout⟩ := loadScene_run mgr ctx s c
  refine ⟨k, _, rfl, hlog, ?_, ?_, ?_⟩
  · constructor
    · intro h1
      rcases hout with ⟨-, -, h⟩ | ⟨h0, -⟩
      · exact h
      · rw [h1] at h0
        exact absurd h0 (by decide)
    · intro hall
      rcases hout with ⟨h, -⟩ | ⟨-, -, -, -, it, hit, hrej⟩
      · exact h
      · have hmem := List.getElem?_mem hit
        rw [hall it hmem] at hrej
        exact absurd hrej (by decide)
  · intro h1
    rcases hout with ⟨-, h, -⟩ | ⟨h0, -⟩
    · exact h
    · rw [h1] at h0
      exact absurd h0 (by decide)
  · intro hne
    rcases hout with ⟨h, -⟩ | h
    · exact absurd h hne
    · exact h

/-- An instance of C19: with `rejectingCollaborators` the load of `smallLoad`
returns `0` at the second node, the fifth descriptor is never handled; the
material and the first node stay committed and the joint is never handed to a
collaborator. -/
theorem C19_loadScene_stops_at_first_rejected_witness :
    (∃ k, (loadScene rejectingCollaborators { mapIndex := 3 } smallLoad {}).2.log =
        ((itemsOf smallLoad).take k).flatMap
          (itemEvents rejectingCollaborators { mapIndex := 3 }
            (loadScene rejectingCollaborators { mapIndex := 3 } smallLoad {}).2.materialMap) ∧
      k = 3 ∧ (itemsOf smallLoad).length = 4) ∧
    (loadScene rejectingCollaborators { mapIndex := 3 } smallLoad {}).1 = 0 ∧
    (loadScene rejectingCollaborators { mapIndex := 3 } smallLoad {}).2.log =
      [.materialFromConfigMap fakeMaterialDescriptor,
       .nodeFromConfigMap unnamedMaterialNode 3,
       .addNode { index := 1, name := "head", material := { name := "default" },
                  config := unnamedMaterialNode } 101,
       .setMappedID 1 101 .MAP_TYPE_NODE 3,
       .nodeFromConfigMap blueMaterialNode 3,
       .addNode { index := 2, name := "lamp", material := { name := "default" },
                  config := blueMaterialNode } 0] := by
  obtain ⟨k, mm, hmm, hlog, -, -, h5⟩ :=
    C19_loadScene_stops_at_first_rejected rejectingCollaborators { mapIndex := 3 } smallLoad {}
  obtain ⟨-, hk0, hk, -, it, hit, hrej⟩ := h5 (by decide)
  refine ⟨⟨k, ?_, ?_, rfl⟩, rfl, rfl⟩
  · rw [hlog, hmm]
    rfl
  · have hk4 : k ≤ 4 := hk
    rw [hmm] at hrej
    interval_cases k
    · cases hit
      exact absurd hrej (by decide)
    · cases hit
      exact absurd hrej (by decide)
    · rfl
    · cases hit
      exact absurd hrej (by decide)

theorem itemEvents_filter_isSetMappedID (mgr : Collaborators) (ctx : LoadContext)
    (mm : MaterialMap) (it : Item) :
    (itemEvents mgr ctx mm it).filter Event.isSetMappedID = mappedIDOf mgr ctx mm it := by
  cases it with
  | material d => rfl
  | node d =>
    unfold itemEvents mappedIDOf entityCallOf
    by_cases hv : (mgr.nodeFromConfigMap d ctx.mapIndex).1 = true <;>
      by_cases ha : itemAccepted mgr ctx mm (.node d) = true <;>
      by_cases hr : ctx.mRobotName = "" <;>
      simp [hv, ha, hr, Event.isSetMappedID, List.filter_cons]
  | joint d =>
    unfold itemEvents mappedIDOf entityCallOf
    by_cases hv : (mgr.jointFromConfigMap d ctx.mapIndex).1 = true <;>
      by_cases ha : itemAccepted mgr ctx mm (.joint d) = true <;>
      by_cases hr : ctx.mRobotName = "" <;>
      simp [hv, ha, hr, Event.isSetMappedID, List.filter_cons]

/-- C20: for collaborators whose conversions copy the index of the descriptor
into the node or joint, the `setMappedID` calls `loadScene` makes are, in
order, exactly one call for each node and each joint it handled that was
accepted (valid, and a new id other than `0` from the manager), with the index
of the descriptor as the old id, the new id of the manager, the kind `node` or
`joint` and the mapping index of the load; a rejected node or joint and a
material descriptor get no call. -/
theorem C20_setMappedID_calls (mgr : Collaborators) (ctx : LoadContext)
    (s : LoadState) (c : CommitState)
    (hnode : ∀ d i, (mgr.nodeFromConfigMap d i).2.index = d.index.getD 0)
    (hjoint : ∀ d i, (mgr.jointFromConfigMap d i).2.index = d.index) :
    ∃ k mm new, mm = (loadScene mgr ctx s c).2.materialMap ∧
      RunOutcome (itemAccepted mgr ctx mm) (itemsOf s) (loadScene mgr ctx s c).1 k ∧
      (loadScene mgr ctx s c).2.log = c.log ++ new ∧
      new.filter Event.isSetMappedID =
        ((itemsOf s).take k).flatMap (registrationOf mgr ctx mm) := by
  obtain ⟨k, hlog, hout⟩ := loadScene_run mgr ctx s c
  refine ⟨k, _, _, rfl, hout, hlog, ?_⟩
  rw [List.filter_flatMap]
  congr 1
  funext it
  rw [itemEvents_filter_isSetMappedID]
  cases it with
  | material d => rfl
  | node d => simp only [mappedIDOf, registrationOf, hnode]
  | joint d => simp only [mappedIDOf, registrationOf, hjoint]

/-- Witness of C20 on `smallLoad` with `rejectingCollaborators`: one call for
the accepted first node, none for the material, the rejected second node and
the joint that is never reached. -/
theorem C20_setMappedID_calls_witness :
    (∀ d i, (rejectingCollaborators.nodeFromConfigMap d i).2.index = d.index.getD 0) ∧
    (∀ d i, (rejectingCollaborators.jointFromConfigMap d i).2.index = d.index) ∧
    (∃ k mm new,
      mm = (loadScene rejectingCollaborators { mapIndex := 3 } smallLoad {}).2.materialMap ∧
      RunOutcome (itemAccepted rejectingCollaborators { mapIndex := 3 } mm) (itemsOf smallLoad)
        (loadScene rejectingCollaborators { mapIndex := 3 } smallLoad {}).1 k ∧
      (loadScene rejectingCollaborators { mapIndex := 3 } smallLoad {}).2.log =
        ({} : CommitState).log ++ new ∧
      new.filter Event.isSetMappedID =
        ((itemsOf smallLoad).take k).flatMap
          (registrationOf rejectingCollaborators { mapIndex := 3 } mm)) ∧
    (loadScene rejectingCollaborators { mapIndex := 3 } smallLoad {}).2.log.filter
        Event.isSetMappedID = [.setMappedID 1 101 .MAP_TYPE_NODE 3] :=
  ⟨fun _ _ => rfl, fun _ _ => rfl,
    C20_setMappedID_calls rejectingCollaborators { mapIndex := 3 } smallLoad {}
      (fun _ _ => rfl) (fun _ _ => rfl),
    rfl⟩

theorem loadEach_loadMaterial_map (mgr : Collaborators) :
    ∀ (ms : List MaterialDescriptor) (c : CommitState),
      (loadEach (loadMaterial mgr) ms c).1 = 1 →
      ∀ m ∈ ms, ∃ m2 ∈ ms, m2.name = m.name ∧
        (loadEach (loadMaterial mgr) ms c).2.materialMap.lookup m.name =
          some (mgr.materialFromConfigMap m2).2
  | [], _, _, m, hm => by simp at hm
  | x :: rest, c, h, m, hm => by
    rw [loadEach] at h ⊢
    by_cases hx : (loadMaterial mgr x c).1 = 0
    · simp [hx] at h
    · simp only [hx, if_false] at h ⊢
      by_cases hin : m ∈ rest
      · obtain ⟨m2, h2, h3, h4⟩ := loadEach_loadMaterial_map mgr rest _ h m hin
        exact ⟨m2, List.mem_cons_of_mem _ h2, h3, h4⟩
      · have hmx : m = x := by
          rcases List.mem_cons.mp hm with h1 | h1
          · exact h1
          · exact absurd h1 hin
        subst hmx
        by_cases hname : ∃ m2 ∈ rest, m2.name = m.name
        · obtain ⟨m2, h2, h3⟩ := hname
          obtain ⟨m3, h4, h5, h6⟩ := loadEach_loadMaterial_map mgr rest _ h m2 h2
          exact ⟨m3, List.mem_cons_of_mem _ h4, by rw [h5, h3], by rw [← h3]; exact h6⟩
        · refine ⟨m, List.mem_cons_self _ _, rfl, ?_⟩
          have hkeep : ∀ (ms : List MaterialDescriptor) (c : CommitState),
              (∀ m2 ∈ ms, m2.name ≠ m.name) →
              (loadEach (loadMaterial mgr) ms c).2.materialMap.lookup m.name =
                c.materialMap.lookup m.name := by
            intro ms
            induction ms with
            | nil => intro c _; rfl
            | cons y ys ih =>
              intro c hne
              rw [loadEach]
              split_ifs
              · simp only [loadMaterial, List.lookup]
                have : (m.name == y.name) = false := by
                  simpa using fun e => hne y (List.mem_cons_self _ _) e.symm
                rw [this]
              · rw [ih _ (fun m2 h2 => hne m2 (List.mem_cons_of_mem _ h2))]
                simp only [loadMaterial, List.lookup]
                have : (m.name == y.name) = false := by
                  simpa using fun e => hne y (List.mem_cons_self _ _) e.symm
                rw [this]
          rw [hkeep rest _ (fun m2 h2 e => hname ⟨m2, h2, e⟩)]
          simp [loadMaterial, List.lookup]

theorem loadNode_addNode_mem (mgr : Collaborators) (ctx : LoadContext) (d : NodeDescriptor)
    (cm : CommitState) (hv : (mgr.nodeFromConfigMap d ctx.mapIndex).1 = true) :
    Event.addNode (nodeToAdd mgr ctx cm.materialMap d)
        (mgr.addNode (nodeToAdd mgr ctx cm.materialMap d)).1 ∈
      (loadNode mgr ctx d cm).2.log := by
  rw [loadNode_eq]
  simp [itemEvents, hv]

/-- C18 (the claim as stated fails): after the fallback material is committed and
is in `materialMap`, the node of `unnamedMaterialNode`, whose source visual
names no material, and the node of `blueMaterialNode`, whose material `blue`
is not in the map, are handed to the node manager with the material the
conversion gave them (`default`), not with `_fakeMaterial`. -/
theorem C18_unresolved_material_is_not_fake_material :
    ∃ c1, loadEach (loadMaterial acceptingCollaborators) smallLoad.materialList {} = (1, c1) ∧
      (∃ md, c1.materialMap.lookup "_fakeMaterial" = some md ∧ md.name = "_fakeMaterial") ∧
      unnamedMaterialNode.materialName = some "" ∧
      (nodeToAdd acceptingCollaborators {} c1.materialMap unnamedMaterialNode).material.name =
        "default" ∧
      Event.addNode (nodeToAdd acceptingCollaborators {} c1.materialMap unnamedMaterialNode) 101 ∈
        (loadNode acceptingCollaborators {} unnamedMaterialNode c1).2.log ∧
      blueMaterialNode.materialName = some "blue" ∧
      c1.materialMap.lookup "blue" = none ∧
      (nodeToAdd acceptingCollaborators {} c1.materialMap blueMaterialNode).material.name =
        "default" ∧
      Event.addNode (nodeToAdd acceptingCollaborators {} c1.materialMap blueMaterialNode) 102 ∈
        (loadNode acceptingCollaborators {} blueMaterialNode c1).2.log := by
  exact ⟨_, rfl, ⟨_, rfl, rfl⟩, rfl, rfl,
    loadNode_addNode_mem acceptingCollaborators {} unnamedMaterialNode _ rfl, rfl, rfl, rfl,
    loadNode_addNode_mem acceptingCollaborators {} blueMaterialNode _ rfl⟩

/-- C18 (amended): once the material list is committed, every name of a material
descriptor is in `materialMap` with the material converted from a descriptor of
that name. A valid node is handed to the node manager with its material
resolved against the map: the material stored under the `materialName` of the
descriptor when that name is not empty and is in the map; when the name is
empty or not in the map, the material the conversion of the descriptor gave
the node is kept, and no fallback to `_fakeMaterial` is applied. -/
theorem C18_material_resolution (mgr : Collaborators) (ctx : LoadContext) (s : LoadState)
    (c cm : CommitState) (d : NodeDescriptor) :
    ((loadEach (loadMaterial mgr) s.materialList c).1 = 1 →
      ∀ m ∈ s.materialList, ∃ m2 ∈ s.materialList, m2.name = m.name ∧
        (loadEach (loadMaterial mgr) s.materialList c).2.materialMap.lookup m.name =
          some (mgr.materialFromConfigMap m2).2) ∧
    ((mgr.nodeFromConfigMap d ctx.mapIndex).1 = true →
      Event.addNode (nodeToAdd mgr ctx cm.materialMap d)
          (mgr.addNode (nodeToAdd mgr ctx cm.materialMap d)).1 ∈
        (loadNode mgr ctx d cm).2.log) ∧
    (∀ nm md, d.materialName = some nm → nm ≠ "" → cm.materialMap.lookup nm = some md →
      (nodeToAdd mgr ctx cm.materialMap d).material = md) ∧
    (∀ nm, d.materialName = some nm → (nm = "" ∨ cm.materialMap.lookup nm = none) →
      (nodeToAdd mgr ctx cm.materialMap d).material =
        (mgr.nodeFromConfigMap d ctx.mapIndex).2.material) := by
  refine ⟨loadEach_loadMaterial_map mgr s.materialList c, ?_, ?_, ?_⟩
  · exact loadNode_addNode_mem mgr ctx d cm
  · intro nm md hnm hne hl
    simp [nodeToAdd, resolveMaterial, hnm, hne, hl]
  · intro nm hnm h
    rcases h with h | h
    · simp [nodeToAdd, resolveMaterial, hnm, h]
    · by_cases he : nm = ""
      · simp [nodeToAdd, resolveMaterial, hnm, he]
      · simp [nodeToAdd, resolveMaterial, hnm, he, h]

/-! ### The name-to-index map across the walk -/

theorem NodeIDMap.get_set_self (m : NodeIDMap) (k : String) (v : Nat) :
    (m.set k v).get k = v := by
  simp [NodeIDMap.get, NodeIDMap.set, List.lookup]

theorem NodeIDMap.get_set_of_ne (m : NodeIDMap) (k k2 : String) (v : Nat) (h : k2 ≠ k) :
    (m.set k v).get k2 = m.get k2 := by
  have : (k2 == k) = false := by simpa using h
  simp [NodeIDMap.get, NodeIDMap.set, List.lookup, this]

theorem Link.subtreeNames_eq (link : Link) :
    link.subtreeNames = link.name :: Link.childrenNames link.child_links := by
  cases link
  rw [Link.subtreeNames]
  rfl

theorem Link.edges_eq (link : Link) : link.edges = Link.edgesFrom link link.child_links := by
  cases link
  rw [Link.edges]
  rfl

theorem calculatePose_relativeid (nodeIDMap : NodeIDMap) (map : NodeDescriptor)
    (link : Link) (parent : Option Link) (out : NodeDescriptor)
    (h : calculatePose nodeIDMap map link parent = some out) :
    out.relativeid = some (parentIndexIn nodeIDMap link parent) ∧
    out.inertia = map.inertia := by
  unfold calculatePose at h
  unfold parentIndexIn
  cases hj : link.parent_joint with
  | none =>
    simp only [hj] at h
    cases h
    exact ⟨rfl, rfl⟩
  | some j =>
    cases parent with
    | none => simp [hj] at h
    | some p =>
      simp only [hj] at h
      cases h
      exact ⟨rfl, rfl⟩

theorem handleInertial_inertia (map : NodeDescriptor) (link : Link) :
    (handleInertial map link).inertia.isSome = true := by
  unfold handleInertial
  cases link.inertial <;> rfl

theorem primaryVisual_inertia (lv : Bool) (link : Link) (cfg : NodeDescriptor) :
    (primaryVisual lv link cfg).1.inertia = cfg.inertia := by
  unfold primaryVisual
  cases lv <;> cases link.visual <;> simp only [handleVisual_eq, createFakeVisual]

theorem primaryCollision_inertia (lc : Bool) (link : Link) (cfg : NodeDescriptor) :
    (primaryCollision lc link cfg).1.inertia = cfg.inertia := by
  unfold primaryCollision
  cases lc <;> cases link.collision <;> simp only [handleCollision_eq, createFakeCollision]

/-- The `relativeid` and the key `inertia` of the primary descriptor. -/
theorem primaryNode_relativeid (link : Link) (parent : Option Link) (s : LoadState)
    (p : Primary) (h : primaryNode link parent s = some p) :
    p.config.relativeid = some (parentIndexAt link parent s) ∧ isPrimary p.config = true := by
  unfold primaryNode at h
  simp only [Nat.add_sub_cancel] at h
  by_cases hg : (specialCaseHandling link).needGroupID = true
  all_goals
    simp only [hg, if_true, if_false, Bool.false_eq_true] at h
    split at h
    · exact absurd h (by simp)
    · rename_i cfg hcfg
      cases h
      obtain ⟨hr, hi⟩ := calculatePose_relativeid _ _ _ _ _ hcfg
      obtain ⟨-, -, -, v4, -⟩ :=
        primaryVisual_header (specialCaseHandling link).loadVisual link cfg
      obtain ⟨-, -, -, c4, -⟩ := primaryCollision_header
        (specialCaseHandling link).loadCollision link
        (primaryVisual (specialCaseHandling link).loadVisual link cfg).1
      refine ⟨?_, ?_⟩
      · show (primaryCollision _ link (primaryVisual _ link cfg).1).1.relativeid = _
        rw [c4, v4, hr]
        rfl
      · show isPrimary (primaryCollision _ link (primaryVisual _ link cfg).1).1 = true
        unfold isPrimary
        rw [primaryCollision_inertia, primaryVisual_inertia, hi]
        exact handleInertial_inertia _ _

theorem collisionChild_inertia (link : Link) (config : NodeDescriptor) (c : Collision)
    (i n : Nat) : (collisionChild link config c i n).1.inertia = none := by
  cases hv : candidateVisual link c i with
  | some v => rw [collisionChild_eq_paired link config c i n v hv]
  | none => rw [collisionChild_eq_unpaired link config c i n hv]

theorem visualChild_inertia (link : Link) (config : NodeDescriptor) (v : Visual) (n : Nat) :
    (visualChild link config v n).inertia = none := by
  rw [visualChild_eq]

/-- No child descriptor is a primary descriptor. -/
theorem childNodes_filter_isPrimary (link : Link) (p : Primary) :
    (childNodes link p).filter isPrimary = [] := by
  rw [List.filter_eq_nil_iff]
  intro d hd
  unfold childNodes at hd
  rcases List.mem_append.mp hd with h | h
  · obtain ⟨c, j, m, -, rfl⟩ := mem_collisionChildNodes link p.config d _ _ _ h
    simp [isPrimary, collisionChild_inertia]
  · obtain ⟨v, m, -, rfl⟩ := mem_visualChildNodes link p.config d _ _ h
    simp [isPrimary, visualChild_inertia]

/-- The name-to-index map and the joint list `handleLink` leaves. -/
theorem handleLink_walk (link : Link) (parent : Option Link) (s s1 : LoadState)
    (h : handleLink link parent s = some s1) :
    s1.nodeIDMap = s.nodeIDMap.set link.name s.nextNodeID ∧
    ∃ own, s1.jointList = s.jointList ++ own ∧ OwnJoint link s own := by
  obtain ⟨p, hp⟩ := handleLink_some_primaryNode link parent s s1 h
  obtain ⟨-, -, -, hjl, -, -, hmap⟩ := primaryNode_state link parent s p hp
  rw [handleLink_eq link parent s p hp] at h
  cases h
  unfold handleParentJoint OwnJoint
  cases hj : link.parent_joint with
  | none => exact ⟨hmap, [], by simp [hjl], rfl⟩
  | some j =>
    simp only [hjl, hmap]
    exact ⟨trivial, _, rfl, _, rfl, rfl, rfl, rfl⟩

theorem JointResolved.mono (nodes nodes2 : List NodeDescriptor) (jd : JointDescriptor)
    (p c : Link) (hsub : ∀ d ∈ nodes, d ∈ nodes2) (h : JointResolved nodes jd p c) :
    JointResolved nodes2 jd p c := by
  obtain ⟨j, dp, dc, h1, h2, h3, h4, h5, h6, h7, h8, h9, h10, h11, h12, h13⟩ := h
  exact ⟨j, dp, dc, h1, h2, h3, h4, hsub _ h5, h6, h7, h8, hsub _ h9, h10, h11, h12, h13⟩

mutual
/-- The walk from a link resolves every joint below it, if the link names of
the tree are pairwise distinct and the joints name their links. -/
theorem handleKinematics_spec :
    ∀ (link : Link) (parent : Option Link) (s s1 : LoadState),
      handleKinematics link parent s = some s1 →
      link.subtreeNames.Nodup → (∀ e ∈ link.edges, JointNamesEdge e) →
      0 < s.nextNodeID → KinematicsSpec link parent s s1
  | .mk n i v c va ca j cs, parent, s, s1, h, hnd, hed, hpos => by
    rw [handleKinematics] at h
    cases hl : handleLink (.mk n i v c va ca j cs) parent s with
    | none => simp [hl] at h
    | some sa =>
      simp only [hl] at h
      obtain ⟨p, hp⟩ := handleLink_some_primaryNode _ _ _ _ hl
      obtain ⟨hnl, hnn⟩ := handleLink_nodeList _ _ _ _ p hp hl
      obtain ⟨hmap, own, hjl, hown⟩ := handleLink_walk _ _ _ _ hl
      obtain ⟨hidx, hname, -⟩ := primaryNode_groupid _ _ _ p hp
      obtain ⟨hrel, hprim⟩ := primaryNode_relativeid _ _ _ p hp
      have hnd2 : (n :: Link.childrenNames cs).Nodup := by
        rw [Link.subtreeNames_eq] at hnd
        exact hnd
      obtain ⟨hnotin, hndc⟩ := List.nodup_cons.mp hnd2
      have hed2 : ∀ e ∈ Link.edgesFrom (.mk n i v c va ca j cs) cs, JointNamesEdge e := by
        intro e he
        apply hed
        rw [Link.edges_eq]
        exact he
      have hget : sa.nodeIDMap.get (Link.mk n i v c va ca j cs).name = s.nextNodeID := by
        rw [hmap]
        exact NodeIDMap.get_set_self _ _ _
      obtain ⟨new, newJ, l1, l2, l3, l4, l5, l6⟩ :=
        handleChildLinks_spec cs (.mk n i v c va ca j cs) sa s1 h hndc hnotin hed2
          (by rw [hget]; exact hpos)
          (by rw [hget, hnn]; simp)
          ⟨p.config, by rw [hnl]; simp, hprim, hname, by rw [hget]; exact hidx⟩
      refine ⟨p.config, childNodes (.mk n i v c va ca j cs) p ++ new, own, newJ, ?_, ?_,
        hprim, hname, hidx, hrel,
        ?_, hown, ?_, ?_, ?_, ?_⟩
      · rw [l1, hnl]
        simp
      · rw [l2, hjl]
      · rw [List.filter_cons_of_pos hprim, List.filter_append, childNodes_filter_isPrimary,
          List.nil_append, List.map_cons, l3, hname, Link.subtreeNames_eq]
        rfl
      · rw [Link.edges_eq]
        exact l4
      · intro m hm
        rw [Link.subtreeNames_eq] at hm
        have hm2 : m ∉ n :: Link.childrenNames cs := hm
        rw [List.mem_cons, not_or] at hm2
        rw [l5 m hm2.2, hmap]
        exact NodeIDMap.get_set_of_ne _ _ _ _ hm2.1
      · exact (l5 _ hnotin).trans hget
      · rw [hnn] at l6
        simp at l6
        omega
/-- The loop over the child links resolves the joint of every child link and
every joint below it against the primary descriptor of `link`. -/
theorem handleChildLinks_spec :
    ∀ (cs : List Link) (link : Link) (s s1 : LoadState),
      handleChildLinks cs link s = some s1 →
      (Link.childrenNames cs).Nodup → link.name ∉ Link.childrenNames cs →
      (∀ e ∈ Link.edgesFrom link cs, JointNamesEdge e) →
      0 < s.nodeIDMap.get link.name → s.nodeIDMap.get link.name < s.nextNodeID →
      (∃ dp ∈ s.nodeList, isPrimary dp = true ∧ dp.name = some link.name ∧
        dp.index = some (s.nodeIDMap.get link.name)) →
      ChildLinksSpec cs link s s1
  | [], link, s, s1, h, _, _, _, _, _, _ => by
    rw [handleChildLinks] at h
    cases h
    exact ⟨[], [], by simp, by simp, by simp [Link.childrenNames],
      by simp [Link.edgesFrom], fun _ _ => rfl, Nat.le_refl _⟩
  | child :: rest, link, s, s1, h, hnd, hnotin, hed, hpos, hlt, hdp => by
    rw [handleChildLinks] at h
    cases hk : handleKinematics child (some link) s with
    | none => simp [hk] at h
    | some s2 =>
      simp only [hk] at h
      rw [Link.childrenNames] at hnd hnotin
      rw [Link.edgesFrom] at hed
      obtain ⟨hnd1, hnd2, hdisj⟩ := List.nodup_append.mp hnd
      rw [List.mem_append, not_or] at hnotin
      have hs0 : 0 < s.nextNodeID := by omega
      obtain ⟨d0, rest0, own, newJ1, k1, k2, k3, k4, k5, k6, k7, k8, k9, k10, k11, k12⟩ :=
        handleKinematics_spec child (some link) s s2 hk hnd1
          (fun e he => hed e (List.mem_cons_of_mem _ (List.mem_append_left _ he))) hs0
      have hg2 : s2.nodeIDMap.get link.name = s.nodeIDMap.get link.name := k10 _ hnotin.1
      obtain ⟨dp, hdpm, hdp1, hdp2, hdp3⟩ := hdp
      obtain ⟨new2, newJ2, l1, l2, l3, l4, l5, l6⟩ :=
        handleChildLinks_spec rest link s2 s1 h hnd2 hnotin.2
          (fun e he => hed e (List.mem_cons_of_mem _ (List.mem_append_right _ he)))
          (by rw [hg2]; exact hpos) (by rw [hg2]; omega)
          ⟨dp, by rw [k1]; exact List.mem_append_left _ hdpm, hdp1, hdp2, by rw [hg2]; exact hdp3⟩
      obtain ⟨jt, hjt1, hjt2, hjt3⟩ := hed (link, child) (List.mem_cons_self _ _)
      have hne : link.name ≠ child.name := by
        intro he
        apply hnotin.1
        rw [Link.subtreeNames_eq, he]
        exact List.mem_cons_self _ _
      have hpi : parentIndexAt child (some link) s = s.nodeIDMap.get link.name := by
        unfold parentIndexAt parentIndexIn
        simp only [hjt1]
        exact NodeIDMap.get_set_of_ne _ _ _ _ hne
      unfold OwnJoint at k8
      simp only [hjt1] at k8
      obtain ⟨jd, rfl, hj1, hj2, hj3⟩ := k8
      rw [hjt2, NodeIDMap.get_set_of_ne _ _ _ _ hne] at hj2
      rw [hjt3, NodeIDMap.get_set_self] at hj3
      refine ⟨(d0 :: rest0) ++ new2, jd :: (newJ1 ++ newJ2), ?_, ?_, ?_, ?_, ?_, ?_⟩
      · rw [l1, k1, List.append_assoc]
      · rw [l2, k2]
        simp
      · rw [List.filter_append, List.map_append, k7, l3, Link.childrenNames, List.map_append]
      · rw [Link.edgesFrom]
        refine List.Forall₂.cons ?_ (List.rel_append ?_ l4)
        · refine ⟨jt, dp, d0, hjt1, hj1, ?_, ?_, ?_, hdp1, hdp2, ?_, ?_, k3, k4, ?_, ?_⟩
          · rw [hj2]
            exact hpos
          · rw [hj2, hj3]
            exact hlt
          · rw [l1, k1]
            simp [hdpm]
          · rw [hj2]
            exact hdp3
          · rw [l1, k1]
            simp
          · rw [hj3]
            exact k5
          · rw [hj2, k6, hpi]
        · refine List.Forall₂.imp ?_ k9
          intro a b hab
          refine JointResolved.mono _ _ _ _ _ ?_ hab
          intro d hd
          rw [l1]
          exact List.mem_append_left _ hd
      · intro m hm
        rw [Link.childrenNames, List.mem_append, not_or] at hm
        rw [l5 m hm.2, k10 m hm.1]
      · omega
end

mutual
/-- Every link of a tree other than its root is the child link of an edge. -/
theorem Link.subtreeNames_edge :
    ∀ (link : Link) (m : String), m ∈ link.subtreeNames →
      m = link.name ∨ ∃ e ∈ link.edges, e.2.name = m
  | .mk n i v c va ca j cs, m, h => by
    rw [Link.subtreeNames] at h
    rcases List.mem_cons.mp h with h | h
    · exact Or.inl h
    · right
      rw [Link.edges]
      exact Link.childrenNames_edge cs _ m h
/-- Every link below a list of child links is the child link of an edge. -/
theorem Link.childrenNames_edge :
    ∀ (cs : List Link) (parent : Link) (m : String), m ∈ Link.childrenNames cs →
      ∃ e ∈ Link.edgesFrom parent cs, e.2.name = m
  | [], _, m, h => by simp [Link.childrenNames] at h
  | child :: rest, parent, m, h => by
    rw [Link.childrenNames] at h
    rw [Link.edgesFrom]
    rcases List.mem_append.mp h with h | h
    · rcases Link.subtreeNames_edge child m h with h | ⟨e, he, hm⟩
      · exact ⟨(parent, child), List.mem_cons_self _ _, h.symm⟩
      · exact ⟨e, List.mem_cons_of_mem _ (List.mem_append_left _ he), hm⟩
    · obtain ⟨e, he, hm⟩ := Link.childrenNames_edge rest parent m h
      exact ⟨e, List.mem_cons_of_mem _ (List.mem_append_right _ he), hm⟩
end

theorem forall₂_of_mem_right {α β : Type} (R : α → β → Prop) :
    ∀ (as : List α) (bs : List β), List.Forall₂ R as bs → ∀ b ∈ bs, ∃ a ∈ as, R a b
  | _, _, .nil, b, hb => by simp at hb
  | _, _, .cons h t, b, hb => by
    rcases List.mem_cons.mp hb with hb | hb
    · exact ⟨_, List.mem_cons_self _ _, hb ▸ h⟩
    · obtain ⟨a, ha, hr⟩ := forall₂_of_mem_right R _ _ t b hb
      exact ⟨a, List.mem_cons_of_mem _ ha, hr⟩

/-- C12: for a document whose link names are pairwise distinct and in which
every parent joint names its actual parent and child link, `parseScene` after
`prepareLoad` returns; the node list has exactly one primary descriptor per
link, in the order of the walk; the first one is that of the root link, with
index `1` and `relativeid` `0`; the joint list gets one descriptor per edge of
the tree, whose `nodeindex1` is the index of the primary descriptor of the
parent link and whose `nodeindex2` is the index of the primary descriptor of
the child link, both not `0` and the first smaller than the second; and the
`relativeid` of the primary descriptor of every link other than the root is the
index of the primary descriptor of its parent link. -/
theorem C12_joint_indices_resolved (model : ModelInterface) (maxGroupID : Nat)
    (s0 : LoadState) (hn : s0.nodeList = [])
    (hnames : model.root_link_.subtreeNames.Nodup)
    (hjoints : ∀ e ∈ model.root_link_.edges, JointNamesEdge e)
    (hroot : model.root_link_.parent_joint = none) :
    ∃ s1 d0 rest newJ,
      parseSceneModel model (prepareLoad maxGroupID s0) = some s1 ∧
      s1.nodeList = d0 :: rest ∧
      s1.jointList = s0.jointList ++ newJ ∧
      (s1.nodeList.filter isPrimary).map (fun d => d.name) =
        model.root_link_.subtreeNames.map some ∧
      isPrimary d0 = true ∧ d0.name = some model.root_link_.name ∧
      d0.index = some 1 ∧ d0.relativeid = some 0 ∧
      List.Forall₂ (fun jd e => JointResolved s1.nodeList jd e.1 e.2) newJ
        model.root_link_.edges ∧
      ∀ d ∈ s1.nodeList, isPrimary d = true → d.name ≠ some model.root_link_.name →
        ∃ e ∈ model.root_link_.edges, ∃ dp ∈ s1.nodeList,
          d.name = some e.2.name ∧ isPrimary dp = true ∧ dp.name = some e.1.name ∧
          d.relativeid = dp.index := by
  obtain ⟨newM, -, -, -, -, m5, m6, m7, -⟩ := foldl_handleMaterial model.materials_
    (createFakeMaterial (prepareLoad maxGroupID s0))
  have hsome := handleKinematics_isSome model.root_link_ none
    (model.materials_.foldl (fun s material => handleMaterial material s)
      (createFakeMaterial (prepareLoad maxGroupID s0))) (Or.inl hroot)
  obtain ⟨s1, hk⟩ := hsome
  have hpos : 0 < (model.materials_.foldl (fun s material => handleMaterial material s)
      (createFakeMaterial (prepareLoad maxGroupID s0))).nextNodeID := by
    rw [m7]
    exact Nat.one_pos
  obtain ⟨d0, rest, own, newJ, k1, k2, k3, k4, k5, k6, k7, k8, k9, -, -, -⟩ :=
    handleKinematics_spec model.root_link_ none _ s1 hk hnames hjoints hpos
  rw [m5] at k1
  rw [m6] at k2
  rw [m7] at k5
  simp only [createFakeMaterial, prepareLoad, hn, List.nil_append] at k1 k2 k5
  unfold OwnJoint at k8
  simp only [hroot] at k8
  subst k8
  have hrel : d0.relativeid = some 0 := by
    rw [k6]
    unfold parentIndexAt parentIndexIn
    simp only [hroot]
  rw [← k1] at k7
  have hnd : ((s1.nodeList.filter isPrimary).map (fun d => d.name)).Nodup := by
    rw [k7]
    exact hnames.map (Option.some_injective _)
  refine ⟨s1, d0, rest, newJ, hk, k1, by simpa using k2, k7, k3, k4, k5, hrel, k9, ?_⟩
  intro d hd hdp hdn
  have hmem : d.name ∈ (s1.nodeList.filter isPrimary).map (fun d => d.name) :=
    List.mem_map.mpr ⟨d, List.mem_filter.mpr ⟨hd, hdp⟩, rfl⟩
  rw [k7] at hmem
  obtain ⟨m, hm, hmd⟩ := List.mem_map.mp hmem
  rcases Link.subtreeNames_edge _ m hm with h | ⟨e, he, hem⟩
  · exact absurd (by rw [← hmd, h]) hdn
  · obtain ⟨jd, -, j, dp, dc, -, -, -, -, r5, r6, r7, r8, r9, r10, r11, r12, r13⟩ :=
      forall₂_of_mem_right _ _ _ k9 e he
    have hdc : dc = d := by
      refine List.inj_on_of_nodup_map hnd (List.mem_filter.mpr ⟨r9, r10⟩)
        (List.mem_filter.mpr ⟨hd, hdp⟩) ?_
      show dc.name = d.name
      rw [r11, hem, hmd]
    subst hdc
    exact ⟨e, he, dp, r5, r11, r6, r7, by rw [r13, r8]⟩

/-- Witness of C12 on `jointedModel`: the link `base` with the child link `arm`,
joined by `shoulder`. -/
theorem C12_joint_indices_resolved_witness :
    ({} : LoadState).nodeList = [] ∧
    jointedModel.root_link_.subtreeNames = ["base", "arm"] ∧
    jointedModel.root_link_.edges = [(jointedRoot, bareChild)] ∧
    JointNamesEdge (jointedRoot, bareChild) ∧
    ∃ s1 d0 rest newJ,
      parseSceneModel jointedModel (prepareLoad 0 {}) = some s1 ∧
      s1.nodeList = d0 :: rest ∧
      s1.jointList = ({} : LoadState).jointList ++ newJ ∧
      (s1.nodeList.filter isPrimary).map (fun d => d.name) = [some "base", some "arm"] ∧
      isPrimary d0 = true ∧ d0.name = some "base" ∧
      d0.index = some 1 ∧ d0.relativeid = some 0 ∧
      List.Forall₂ (fun jd e => JointResolved s1.nodeList jd e.1 e.2) newJ
        [(jointedRoot, bareChild)] ∧
      ∀ d ∈ s1.nodeList, isPrimary d = true → d.name ≠ some "base" →
        ∃ e ∈ [(jointedRoot, bareChild)], ∃ dp ∈ s1.nodeList,
          d.name = some e.2.name ∧ isPrimary dp = true ∧ dp.name = some e.1.name ∧
          d.relativeid = dp.index :=
  ⟨rfl, rfl, rfl, ⟨_, rfl, rfl, rfl⟩,
    C12_joint_indices_resolved jointedModel 0 {} rfl (by decide)
      (by
        intro e he
        have he2 : e ∈ [(jointedRoot, bareChild)] := he
        rw [List.mem_singleton] at he2
        rw [he2]
        exact ⟨_, rfl, rfl, rfl⟩)
      rfl⟩

theorem isEqualPos_iff_within (p1 p2 : Pose) :
    isEqualPos p1 p2 = true ↔ Pose.within (1 / 100000000000) p1 p2 := by
  unfold isEqualPos Pose.within
  simp only []
  split_ifs <;> simp_all [not_lt]

/-- C26: `isEqualPos p1 p2` is true if and only if each of the three position
components and each of the four rotation components of the two poses differs
by no more than `1e-11` in absolute value; `isEqualPos` is reflexive and
symmetric. -/
theorem C26_isEqualPos_componentwise (p1 p2 : Pose) :
    (isEqualPos p1 p2 = true ↔ Pose.within (1 / 100000000000) p1 p2) ∧
    isEqualPos p1 p1 = true ∧
    isEqualPos p1 p2 = isEqualPos p2 p1 := by
  refine ⟨isEqualPos_iff_within p1 p2, ?_, ?_⟩
  · rw [isEqualPos_iff_within]
    simp [Pose.within]
  · rw [Bool.eq_iff_iff, isEqualPos_iff_within, isEqualPos_iff_within]
    unfold Pose.within
    simp only [abs_sub_comm]

theorem Rotation.inverse_mul_self (q : Rotation) (h : q.normSq ≠ 0) :
    q.GetInverse * q = { x := 0, y := 0, z := 0, w := 1 } := by
  cases q with
  | mk x y z w =>
    have hpos : w * w + x * x + y * y + z * z > 0 := by
      have h0 : 0 ≤ w * w + x * x + y * y + z * z := by
        have a := mul_self_nonneg w
        have b := mul_self_nonneg x
        have c := mul_self_nonneg y
        have d := mul_self_nonneg z
        linarith
      exact lt_of_le_of_ne h0 (Ne.symm h)
    simp only [Rotation.mul_eq, Rotation.mul, Rotation.GetInverse, hpos, if_true]
    have hne : w * w + x * x + y * y + z * z ≠ 0 := ne_of_gt hpos
    congr 1 <;> field_simp <;> ring

theorem Rotation.rotate_zero (q : Rotation) (v : Vector3) :
    q * (v + v.neg) = { x := 0, y := 0, z := 0 } := by
  cases v
  simp only [Rotation.hmul_vec_eq, Rotation.rotate, Rotation.mul, Vector3.add_eq, Vector3.add,
    Vector3.neg]
  congr 1 <;> ring

/-! ### The identity under `double` rounding -/

theorem roundHalfEven_intCast (n : ℤ) : roundHalfEven (n : ℚ) = n := by
  unfold roundHalfEven
  rw [Int.floor_intCast, sub_self, if_pos (by norm_num)]

theorem roundHalfEven_small (y : ℚ) (h0 : 0 ≤ y) (h1 : y < 1 / 2) : roundHalfEven y = 0 := by
  have hf : ⌊y⌋ = 0 := by
    rw [Int.floor_eq_zero_iff]
    exact ⟨h0, by linarith⟩
  unfold roundHalfEven
  rw [hf, Int.cast_zero, sub_zero, if_pos h1]

theorem roundDouble_zero : roundDouble 0 = 0 := by
  unfold roundDouble
  rw [if_pos rfl]

/-- A multiple of the spacing around it is a `double` value: it is the result
of every operation whose exact result it is. -/
theorem roundDouble_eq_self (x : ℚ) (n : ℤ) (hx : x ≠ 0)
    (h : x / (2 : ℚ) ^ doubleSpacingExponent x = (n : ℚ)) : roundDouble x = x := by
  have hd : (2 : ℚ) ^ doubleSpacingExponent x ≠ 0 := zpow_ne_zero _ (by norm_num)
  unfold roundDouble
  rw [if_neg hx, h, roundHalfEven_intCast, ← h, div_mul_cancel₀ _ hd]

theorem log_two_zpow (z : ℤ) : Int.log 2 |(2 : ℚ) ^ z| = z := by
  rw [abs_of_pos (zpow_pos (by norm_num) z)]
  have h := Int.log_zpow (R := ℚ) (b := 2) (by norm_num) z
  simpa using h

theorem tiny_eq_zpow : (1 : ℚ) / 2 ^ 600 = (2 : ℚ) ^ (-600 : ℤ) := by
  rw [zpow_neg, one_div, ← zpow_natCast]
  norm_cast

/-- The `double` value `2 ^ (-600)` is the result of every operation whose exact
result it is. -/
theorem roundDouble_tiny : roundDouble (1 / 2 ^ 600) = 1 / 2 ^ 600 := by
  have hs : doubleSpacingExponent ((1 : ℚ) / 2 ^ 600) = -652 := by
    unfold doubleSpacingExponent
    rw [tiny_eq_zpow, log_two_zpow]
    rfl
  refine roundDouble_eq_self _ (2 ^ 52) (by positivity) ?_
  rw [hs, tiny_eq_zpow, ← zpow_sub₀ (by norm_num)]
  norm_num

/-- The exact product `2 ^ (-1200)` of `2 ^ (-600)` with itself underflows: the
result of the `double` multiplication is `0`. -/
theorem roundDouble_tiny_squared : roundDouble (1 / 2 ^ 600 * (1 / 2 ^ 600)) = 0 := by
  have hx : (1 : ℚ) / 2 ^ 600 * (1 / 2 ^ 600) = (2 : ℚ) ^ (-1200 : ℤ) := by
    rw [tiny_eq_zpow, ← zpow_add₀ (by norm_num)]
    rfl
  have hs : doubleSpacingExponent ((2 : ℚ) ^ (-1200 : ℤ)) = -1074 := by
    unfold doubleSpacingExponent
    rw [log_two_zpow]
    rfl
  have hne : (2 : ℚ) ^ (-1200 : ℤ) ≠ 0 := zpow_ne_zero _ (by norm_num)
  rw [hx]
  unfold roundDouble
  rw [if_neg hne, hs, ← zpow_sub₀ (by norm_num), roundHalfEven_small, Int.cast_zero, zero_mul]
  · exact le_of_lt (zpow_pos (by norm_num) _)
  · have h1 : (2 : ℚ) ^ (-1200 - -1074 : ℤ) ≤ (2 : ℚ) ^ (-2 : ℤ) :=
      zpow_le_zpow_right₀ (by norm_num) (by norm_num)
    have h2 : (2 : ℚ) ^ (-2 : ℤ) < 1 / 2 := by
      rw [zpow_neg]
      norm_num
    exact lt_of_le_of_lt h1 h2

/-- C29 (the claim as stated fails): the rotation `(0, 0, 0, 2 ^ (-600))` of
`tinyRotationPose` has a norm other than zero and `double` components, but in
the `double` arithmetic of the source its squared norm underflows to `0`, so
that `GetInverse` returns the default rotation and `convertPose(p, p)` returns
the rotation of `p` itself, not `(0, 0, 0, 1)`. -/
theorem C29_squared_norm_underflow_keeps_rotation :
    tinyRotationPose.rotation.normSq ≠ 0 ∧
    roundDouble tinyRotationPose.rotation.w = tinyRotationPose.rotation.w ∧
    tinyRotationPose.rotation.GetInverseDouble = { x := 0, y := 0, z := 0, w := 1 } ∧
    convertPoseDouble tinyRotationPose tinyRotationPose =
      ({ x := 0, y := 0, z := 0 }, { x := 0, y := 0, z := 0, w := 1 / 2 ^ 600 }) ∧
    (convertPoseDouble tinyRotationPose tinyRotationPose).2 ≠
      { x := 0, y := 0, z := 0, w := 1 } := by
  have hinv : tinyRotationPose.rotation.GetInverseDouble = { x := 0, y := 0, z := 0, w := 1 } := by
    simp only [Rotation.GetInverseDouble, tinyRotationPose, roundDouble_tiny_squared,
      mul_zero, roundDouble_zero, add_zero, gt_iff_lt, lt_self_iff_false, if_false]
  have hconv : convertPoseDouble tinyRotationPose tinyRotationPose =
      ({ x := 0, y := 0, z := 0 }, { x := 0, y := 0, z := 0, w := 1 / 2 ^ 600 }) := by
    unfold convertPoseDouble
    simp only [hinv, Rotation.rotateDouble]
    simp only [tinyRotationPose, Rotation.mulDouble, Vector3.addDouble, Vector3.neg,
      mul_zero, zero_mul, one_mul, mul_one, add_zero, zero_add, sub_zero, sub_self,
      roundDouble_zero, roundDouble_tiny]
  refine ⟨?_, roundDouble_tiny, hinv, hconv, ?_⟩
  · simp only [Rotation.normSq, tinyRotationPose]
    norm_num
  · rw [hconv]
    intro h
    have hw := congrArg Rotation.w h
    simp only at hw
    norm_num at hw

/-- C29 (amended): over exact numbers (no rounding, no underflow), for every pose
`p` whose rotation has a norm other than zero, `convertPose p p` is the
identity pose, position `(0, 0, 0)` and rotation `(0, 0, 0, 1)`; hence for a
link without inertial record, whose reference is the origin of its primary
collision, `convertPose(collision origin, link)` is the identity pose: the
primary collision has no offset from the node. -/
theorem C29_convertPose_self_is_identity (p : Pose) (hnorm : p.rotation.normSq ≠ 0) :
    convertPose p p = ({ x := 0, y := 0, z := 0 }, { x := 0, y := 0, z := 0, w := 1 }) ∧
    ∀ (link : Link) (c : Collision), link.inertial = none → link.collision = some c →
      c.origin = p →
      convertPoseLink c.origin link =
        ({ x := 0, y := 0, z := 0 }, { x := 0, y := 0, z := 0, w := 1 }) := by
  have h1 : convertPose p p =
      ({ x := 0, y := 0, z := 0 }, { x := 0, y := 0, z := 0, w := 1 }) := by
    simp only [convertPose, Rotation.rotate_zero, Rotation.inverse_mul_self _ hnorm]
  refine ⟨h1, ?_⟩
  intro link c hi hc hp
  unfold convertPoseLink
  simp only [hi, hc, hp]
  exact h1

/-- Witness of C29 on the collision origin of `tiltedCollisionLink`. -/
theorem C29_convertPose_self_is_identity_witness :
    tiltedBox.origin.rotation.normSq ≠ 0 ∧
    convertPoseLink tiltedBox.origin tiltedCollisionLink =
      ({ x := 0, y := 0, z := 0 }, { x := 0, y := 0, z := 0, w := 1 }) :=
  ⟨by simp only [Rotation.normSq, tiltedBox]; norm_num,
    (C29_convertPose_self_is_identity tiltedBox.origin
      (by simp only [Rotation.normSq, tiltedBox]; norm_num)).2
      tiltedCollisionLink tiltedBox rfl rfl rfl⟩

/-- The primary descriptor of a link for which rule 2 holds: the placeholder
collision, no collision element consumed, and the primary visual, if there is
one, with its offset from the node. -/
theorem primaryNode_rule2 (link : Link) (parent : Option Link) (s : LoadState) (p : Primary)
    (h : primaryNode link parent s = some p) (hr2 : rule2 link) :
    hasFakeCollision p.config ∧ p.collisionArrayIndex = 0 ∧
    ∀ v, link.visual = some v →
      carriesVisual p.config v ∧ p.visualArrayIndex = 1 ∧
      p.config.visualposition = some (convertPoseLink v.origin link).1 ∧
      p.config.visualrotation = some (convertPoseLink v.origin link).2 := by
  obtain ⟨cfg, -, -, -, -, -, -, -, -, hcfg, hvi, hci⟩ := primaryNode_config link parent s p h
  have hlc : (specialCaseHandling link).loadCollision = false := by
    rw [Bool.eq_false_iff]
    intro hl
    exact ((specialCaseHandling_loadCollision link).mp hl).2 hr2
  rw [hlc] at hcfg hci
  have hpc : ∀ cfg2, primaryCollision false link cfg2 = (createFakeCollision cfg2, 0) := by
    intro cfg2
    unfold primaryCollision
    cases link.collision <;> rfl
  rw [hpc] at hcfg hci
  refine ⟨?_, hci, ?_⟩
  · rw [hcfg]
    exact ⟨rfl, rfl, rfl⟩
  · intro v hv
    have hlv : (specialCaseHandling link).loadVisual = true :=
      (specialCaseHandling_loadVisual link).mpr ⟨by rw [hv]; rfl, fun _ => hr2⟩
    rw [hlv] at hcfg hvi
    simp only [primaryVisual, hv, handleVisual_eq, createFakeCollision] at hcfg hvi
    refine ⟨?_, hvi, by rw [hcfg], by rw [hcfg]⟩
    rw [hcfg]
    exact carriesVisual_of_fields _ _ rfl rfl rfl rfl rfl

/-- C22 (the code departs from the claim): `offsetCollisionLink` has the mesh
collision `hull.stl`, element 0 of `collision_array`, and an inertial record at
another origin, so rule 2 holds. Its primary descriptor has the placeholder
collision and its only child descriptor has the `physicmode` `mesh` of the
collision, but the `filename` `PRIMITIVE` and `origname` `box` of the
placeholder visual that is written after the collision: the mesh file
`hull.stl`, which `handleCollision` writes to `filename`, is in no descriptor
of the link. The primary descriptor of `meshCollisionOnlyLink`, which gets the
placeholder visual before the same mesh collision, keeps `hull.stl`. -/
theorem C22_mesh_collision_child_loses_mesh_file :
    offsetCollisionLink.collision = some offsetHull ∧
    offsetCollisionLink.inertial = some {} ∧
    isEqualPos offsetHull.origin ({} : Inertial).origin = false ∧
    offsetCollisionLink.collision_array = [offsetHull] ∧
    (handleCollision {} offsetHull).filename = some "hull.stl" ∧
    (∃ p child, primaryNode offsetCollisionLink none freshState = some p ∧
      hasFakeCollision p.config ∧ p.config.filename = some "body.dae" ∧
      childNodes offsetCollisionLink p = [child] ∧
      child.physicmode = some "mesh" ∧ child.filename = some "PRIMITIVE" ∧
      child.origname = some "box") ∧
    ∃ q, primaryNode meshCollisionOnlyLink none freshState = some q ∧
      q.config.physicmode = some "mesh" ∧ q.config.materialName = some "_fakeMaterial" ∧
      q.config.filename = some "hull.stl" := by
  have hne : isEqualPos offsetHull.origin ({} : Inertial).origin = false := by
    simp only [isEqualPos, offsetHull]
    norm_num
  have hr2 : rule2 offsetCollisionLink := ⟨offsetHull, {}, rfl, rfl, hne⟩
  obtain ⟨p, s1, rest, h1, -, -, -⟩ :=
    handleKinematics_nodes offsetCollisionLink none freshState (Or.inl rfl)
  obtain ⟨hfc, hci, hvis⟩ := primaryNode_rule2 offsetCollisionLink none freshState p h1 hr2
  obtain ⟨hcv, hvi, -, -⟩ := hvis bodyVisual rfl
  have hcand : candidateVisual offsetCollisionLink offsetHull 1 = none := rfl
  have hca : offsetCollisionLink.collision_array = [offsetHull] := rfl
  have hva : offsetCollisionLink.visual_array = [bodyVisual] := rfl
  have hchild : childNodes offsetCollisionLink p =
      [(collisionChild offsetCollisionLink p.config offsetHull 1 p.state.nextNodeID).1] := by
    unfold childNodes
    rw [hci, hvi, hca, hva, List.drop_zero]
    simp only [collisionChildNodes, collisionChildrenIndex,
      collisionChild_snd_unpaired offsetCollisionLink p.config offsetHull 1 _ hcand]
    rfl
  have hrec := collisionChild_eq_unpaired offsetCollisionLink p.config offsetHull 1
    p.state.nextNodeID hcand
  refine ⟨rfl, rfl, hne, rfl, rfl,
    ⟨p, _, h1, hfc, carriesVisual_filename _ _ hcv, hchild, ?_, ?_, ?_⟩,
    ⟨_, rfl, rfl, rfl, rfl⟩⟩
  · rw [hrec]
    rfl
  · rw [hrec]
  · rw [hrec]

/-- C23: for a link for which rule 2 holds (a primary collision and a primary
inertial with origins that are not equal under `isEqualPos`) and which has a
primary visual `v`, the flag `loadVisual` stays set and the primary descriptor
carries `v` with its offset `convertPose(v.origin, link)` from the node,
whatever the geometry, mesh filename and origin of `v`; it carries the
placeholder collision. -/
theorem C23_rule2_keeps_primary_visual (link : Link) (parent : Option Link)
    (s : LoadState) (c : Collision) (i : Inertial) (v : Visual)
    (hp : parentAvailable link parent)
    (hc : link.collision = some c) (hi : link.inertial = some i)
    (hne : isEqualPos c.origin i.origin = false)
    (hv : link.visual = some v) :
    (specialCaseHandling link).loadVisual = true ∧
    ∃ p s1 rest,
      primaryNode link parent s = some p ∧ handleKinematics link parent s = some s1 ∧
      s1.nodeList = s.nodeList ++ p.config :: rest ∧
      carriesVisual p.config v ∧
      p.config.visualposition = some (convertPoseLink v.origin link).1 ∧
      p.config.visualrotation = some (convertPoseLink v.origin link).2 ∧
      p.visualArrayIndex = 1 ∧
      hasFakeCollision p.config := by
  obtain ⟨p, s1, rest, h1, h2, h3, -⟩ := handleKinematics_nodes link parent s hp
  have hr2 : rule2 link := ⟨c, i, hc, hi, hne⟩
  obtain ⟨hfc, -, hvis⟩ := primaryNode_rule2 link parent s p h1 hr2
  obtain ⟨hcv, hvi, hvp, hvr⟩ := hvis v hv
  exact ⟨(specialCaseHandling_loadVisual link).mpr ⟨by rw [hv]; rfl, fun _ => hr2⟩,
    p, s1, _, h1, h2, h3, hcv, hvp, hvr, hvi, hfc⟩

/-- Witness of C23 on `offsetCollisionLink`, whose visual is a mesh of another
file than its collision mesh. -/
theorem C23_rule2_keeps_primary_visual_witness :
    parentAvailable offsetCollisionLink none ∧
    isEqualPos offsetHull.origin ({} : Inertial).origin = false ∧
    bodyVisual.geometry.meshFilename ≠ offsetHull.geometry.meshFilename ∧
    (specialCaseHandling offsetCollisionLink).loadVisual = true ∧
    ∃ p s1 rest,
      primaryNode offsetCollisionLink none freshState = some p ∧
      handleKinematics offsetCollisionLink none freshState = some s1 ∧
      s1.nodeList = freshState.nodeList ++ p.config :: rest ∧
      carriesVisual p.config bodyVisual ∧
      p.config.visualposition = some (convertPoseLink bodyVisual.origin offsetCollisionLink).1 ∧
      p.config.visualrotation = some (convertPoseLink bodyVisual.origin offsetCollisionLink).2 ∧
      p.visualArrayIndex = 1 ∧
      hasFakeCollision p.config :=
  ⟨Or.inl rfl, by simp only [isEqualPos, offsetHull]; norm_num, by decide,
    C23_rule2_keeps_primary_visual offsetCollisionLink none freshState offsetHull {} bodyVisual
      (Or.inl rfl) rfl rfl (by simp only [isEqualPos, offsetHull]; norm_num) rfl⟩

theorem childNodes_eq_append (link : Link) (p : Primary) :
    childNodes link p = collisionChildrenOf link p ++ visualChildrenOf link p := by
  unfold childNodes collisionChildrenOf visualChildrenOf pairingIndex remainingCollisions
  rw [List.take_length]

/-- Pass `k` of the first child loop: the descriptor it appends and the value
it leaves in `visualArrayIndex`. -/
theorem collisionChildNodes_getElem (link : Link) (config : NodeDescriptor) :
    ∀ (cs : List Collision) (i n k : Nat) (c : Collision), cs[k]? = some c →
      (collisionChildNodes link config cs i n)[k]? =
        some (collisionChild link config c
          (collisionChildrenIndex link config (cs.take k) i n) (n + k)).1 ∧
      collisionChildrenIndex link config (cs.take (k + 1)) i n =
        (collisionChild link config c
          (collisionChildrenIndex link config (cs.take k) i n) (n + k)).2
  | [], _, _, _, _, h => by simp at h
  | c0 :: rest, i, n, 0, c, h => by
    simp only [List.getElem?_cons_zero, Option.some.injEq] at h
    subst h
    simp [collisionChildNodes, collisionChildrenIndex]
  | c0 :: rest, i, n, k + 1, c, h => by
    simp only [List.getElem?_cons_succ] at h
    obtain ⟨h1, h2⟩ := collisionChildNodes_getElem link config rest
      (collisionChild link config c0 i n).2 (n + 1) k c h
    simp only [collisionChildNodes, List.getElem?_cons_succ, List.take_succ_cons,
      collisionChildrenIndex]
    rw [h1, h2]
    have e : n + 1 + k = n + (k + 1) := by omega
    rw [e]
    exact ⟨rfl, rfl⟩

theorem visualChildNodes_getElem (link : Link) (config : NodeDescriptor) :
    ∀ (vs : List Visual) (n k : Nat) (v : Visual), vs[k]? = some v →
      (visualChildNodes link config vs n)[k]? = some (visualChild link config v (n + k))
  | [], _, _, _, h => by simp at h
  | v0 :: rest, n, 0, v, h => by
    simp only [List.getElem?_cons_zero, Option.some.injEq] at h
    subst h
    simp [visualChildNodes]
  | v0 :: rest, n, k + 1, v, h => by
    simp only [List.getElem?_cons_succ] at h
    have h1 := visualChildNodes_getElem link config rest (n + 1) k v h
    simp only [visualChildNodes, List.getElem?_cons_succ]
    rw [h1]
    have e : n + 1 + k = n + (k + 1) := by omega
    rw [e]

theorem collisionChild_carriesCollision (link : Link) (config : NodeDescriptor)
    (c : Collision) (i n : Nat) : carriesCollision (collisionChild link config c i n).1 c := by
  unfold carriesCollision
  cases hv : candidateVisual link c i with
  | some v =>
    rw [collisionChild_eq_paired link config c i n v hv]
    simp only [handleCollision_eq, and_self]
  | none =>
    rw [collisionChild_eq_unpaired link config c i n hv]
    simp only [handleCollision_eq, and_self]

theorem collisionChild_hasFakeVisual (link : Link) (config : NodeDescriptor)
    (c : Collision) (i n : Nat) (h : candidateVisual link c i = none) :
    hasFakeVisual (collisionChild link config c i n).1 := by
  rw [collisionChild_eq_unpaired link config c i n h]
  exact ⟨rfl, rfl, rfl, rfl, rfl⟩

theorem visualChild_carriesVisual (link : Link) (config : NodeDescriptor) (v : Visual)
    (n : Nat) :
    carriesVisual (visualChild link config v n) v ∧
    (visualChild link config v n).noPhysical = some true := by
  rw [visualChild_eq]
  exact ⟨carriesVisual_of_fields _ _ rfl rfl rfl rfl rfl, rfl⟩

theorem pairVisual_some (c : Collision) (v w : Visual) (h : pairVisual c v = some w) :
    w = v := by
  unfold pairVisual at h
  split_ifs at h <;> simp_all

/-- C24 (the claim as stated fails): in `retriedVisualLink` the visual `lamp` fails
the check against the mesh collision `hull.stl`, whose child gets the
placeholder visual; the visual is not carried to the visual-only pass but is
attached to the child of the next collision element, and no visual-only child
is emitted. -/
theorem C24_unpaired_visual_attached_to_next_collision :
    ∃ p, primaryNode retriedVisualLink none freshState = some p ∧
      remainingCollisions retriedVisualLink p = [hullCollision, ballCollision] ∧
      retriedVisualLink.visual_array[pairingIndex retriedVisualLink p 0]? = some lampVisual ∧
      pairVisual hullCollision lampVisual = none ∧
      ∃ d1 d2, collisionChildrenOf retriedVisualLink p = [d1, d2] ∧
        hasFakeVisual d1 ∧ carriesCollision d1 hullCollision ∧
        carriesVisual d2 lampVisual ∧ carriesCollision d2 ballCollision ∧
        visualChildrenOf retriedVisualLink p = [] :=
  ⟨_, rfl, rfl, rfl, rfl, _, _, rfl, ⟨rfl, rfl, rfl, rfl, rfl⟩, ⟨rfl, rfl, rfl⟩,
    ⟨rfl, rfl, rfl, rfl, rfl⟩, ⟨rfl, rfl, rfl⟩, rfl⟩

/-- C24 (amended): the first child loop appends one child descriptor per
remaining collision element, carrying that element. If no visual is left at
the current position, or the visual there fails the check against the
collision element, the child gets the placeholder visual and
`visualArrayIndex` stays: the same visual is tried against the next collision
element. If the visual passes the check, the child carries it and
`visualArrayIndex` advances by one. The second loop appends one visual-only
child per visual element from the final `visualArrayIndex` on: a visual is
emitted as a visual-only child exactly when it was not attached by the end of
the first loop. -/
theorem C24_pairing_pass (link : Link) (parent : Option Link) (s : LoadState)
    (hp : parentAvailable link parent) :
    ∃ p s1 rest, primaryNode link parent s = some p ∧
      handleKinematics link parent s = some s1 ∧
      s1.nodeList = s.nodeList ++
        p.config :: (collisionChildrenOf link p ++ visualChildrenOf link p ++ rest) ∧
      (collisionChildrenOf link p).length = (remainingCollisions link p).length ∧
      (∀ k c, (remainingCollisions link p)[k]? = some c →
        ∃ d, (collisionChildrenOf link p)[k]? = some d ∧ carriesCollision d c ∧
          (link.visual_array[pairingIndex link p k]? = none →
            hasFakeVisual d ∧ pairingIndex link p (k + 1) = pairingIndex link p k) ∧
          (∀ v, link.visual_array[pairingIndex link p k]? = some v →
            (pairVisual c v = none →
              hasFakeVisual d ∧ pairingIndex link p (k + 1) = pairingIndex link p k) ∧
            (pairVisual c v ≠ none →
              carriesVisual d v ∧
              pairingIndex link p (k + 1) = pairingIndex link p k + 1))) ∧
      (visualChildrenOf link p).length =
        link.visual_array.length - pairingIndex link p (remainingCollisions link p).length ∧
      (∀ k v,
        link.visual_array[pairingIndex link p (remainingCollisions link p).length + k]? =
          some v →
        ∃ d, (visualChildrenOf link p)[k]? = some d ∧ carriesVisual d v ∧
          d.noPhysical = some true) := by
  obtain ⟨p, s1, rest, h1, h2, h3, -⟩ := handleKinematics_nodes link parent s hp
  rw [childNodes_eq_append] at h3
  refine ⟨p, s1, rest, h1, h2, h3, collisionChildNodes_length _ _ _ _ _, ?_, ?_, ?_⟩
  · intro k c hc
    obtain ⟨g1, g2⟩ := collisionChildNodes_getElem link p.config _ p.visualArrayIndex
      p.state.nextNodeID k c hc
    refine ⟨_, g1, collisionChild_carriesCollision _ _ _ _ _, ?_, ?_⟩
    · intro hnone
      have hcv : candidateVisual link c (pairingIndex link p k) = none := by
        unfold candidateVisual
        rw [hnone]
      exact ⟨collisionChild_hasFakeVisual _ _ _ _ _ hcv,
        g2.trans (collisionChild_snd_unpaired _ _ _ _ _ hcv)⟩
    · intro v hv
      constructor
      · intro hpair
        have hcv : candidateVisual link c (pairingIndex link p k) = none := by
          unfold candidateVisual
          rw [hv]
          exact hpair
        exact ⟨collisionChild_hasFakeVisual _ _ _ _ _ hcv,
          g2.trans (collisionChild_snd_unpaired _ _ _ _ _ hcv)⟩
      · intro hpair
        cases hpv : pairVisual c v with
        | none => exact absurd hpv hpair
        | some w =>
          have hw := pairVisual_some c v w hpv
          subst hw
          have hcv : candidateVisual link c (pairingIndex link p k) = some w := by
            unfold candidateVisual
            rw [hv]
            exact hpv
          exact ⟨(collisionChild_fst_paired _ _ _ _ _ _ hcv).1,
            g2.trans (collisionChild_snd_paired _ _ _ _ _ _ hcv)⟩
  · unfold visualChildrenOf
    rw [visualChildNodes_length, List.length_drop]
  · intro k v hv
    have hv2 : (link.visual_array.drop
        (pairingIndex link p (remainingCollisions link p).length))[k]? = some v := by
      rw [List.getElem?_drop]
      exact hv
    have g := visualChildNodes_getElem link p.config _
      (p.state.nextNodeID + (remainingCollisions link p).length) k v hv2
    obtain ⟨c1, c2⟩ := visualChild_carriesVisual link p.config v
      (p.state.nextNodeID + (remainingCollisions link p).length + k)
    exact ⟨_, g, c1, c2⟩

/-- Witness of C24 (amended) on `retriedVisualLink`. -/
theorem C24_pairing_pass_witness :
    parentAvailable retriedVisualLink none ∧
    ∃ p s1 rest, primaryNode retriedVisualLink none freshState = some p ∧
      handleKinematics retriedVisualLink none freshState = some s1 ∧
      s1.nodeList = freshState.nodeList ++
        p.config :: (collisionChildrenOf retriedVisualLink p ++
          visualChildrenOf retriedVisualLink p ++ rest) ∧
      (collisionChildrenOf retriedVisualLink p).length =
        (remainingCollisions retriedVisualLink p).length := by
  obtain ⟨p, s1, rest, h1, h2, h3, h4, -⟩ :=
    C24_pairing_pass retriedVisualLink none freshState (Or.inl rfl)
  exact ⟨Or.inl rfl, p, s1, rest, h1, h2, h3, h4⟩

theorem prepareLoadCalls_lists (env : LoadEnvironment) (req : LoadRequest) (s : LoadState) :
    (prepareLoadCalls env req s).state = prepareLoad env.maxGroupID s := by
  unfold prepareLoadCalls
  simp only []
  split_ifs <;> rfl

theorem prepareLoadCalls_ok (env : LoadEnvironment) (req : LoadRequest) (s : LoadState)
    (h : ¬ (req.mFileSuffix = ".zsmurf" ∧ env.unzipOk = false)) :
    (prepareLoadCalls env req s).result = 1 ∧
    (prepareLoadCalls env req s).log = setupCalls env req := by
  unfold prepareLoadCalls setupCalls
  simp only [h, if_false]
  split_ifs <;> simp

/-- C21 (the claim as stated fails): a load of `robot.urdf`, a file that cannot be
opened and is not yet known to the registry, as the robot `robot` returns `0`
and builds no descriptor and makes no call of the commit phase, but the entity
manager has received `addEntity` and the registry `setMappedSceneName`. -/
theorem C21_failed_load_leaves_entity_and_scene_name :
    ∃ out, load acceptingCollaborators { document := .unreadable } robotRequest {} {} = some out ∧
      out.result = 0 ∧ out.state.nodeList = [] ∧ out.commit.log = [] ∧
      out.setup = [.addEntity "robot", .setMappedSceneName "robot.urdf"] ∧ out.setup ≠ [] :=
  ⟨_, rfl, rfl, rfl, rfl, rfl, by decide⟩

/-- C21 (amended): when the document cannot be opened or parsed, `load` returns
`0`, the material, node and joint lists are as before, and the commit phase is
not entered, so that the node and joint managers and the mappings of the
registry are untouched; but `prepareLoad` has run: when the robot name is not
empty the entity manager has received `addEntity`, and when the file name was
not yet known to the registry the registry has received
`setMappedSceneName` (if `unzip` fails, only the calls before it are made). -/
theorem C21_failed_load (mgr : Collaborators) (env : LoadEnvironment) (req : LoadRequest)
    (s : LoadState) (c : CommitState)
    (hdoc : env.document = .unreadable ∨ env.document = .malformed) :
    ∃ out, load mgr env req s c = some out ∧ out.result = 0 ∧
      out.state.materialList = s.materialList ∧ out.state.nodeList = s.nodeList ∧
      out.state.jointList = s.jointList ∧ out.commit = c ∧
      (¬ (req.mFileSuffix = ".zsmurf" ∧ env.unzipOk = false) →
        out.setup = setupCalls env req) ∧
      (req.mFileSuffix = ".zsmurf" ∧ env.unzipOk = false →
        out.setup = (if req.mRobotName ≠ "" then [.addEntity req.mRobotName] else []) ++
          [.unzip req.mFileName]) := by
  have hst := prepareLoadCalls_lists env req s
  by_cases hz : req.mFileSuffix = ".zsmurf" ∧ env.unzipOk = false
  · have hr : (prepareLoadCalls env req s).result = 0 ∧
        (prepareLoadCalls env req s).log =
          (if req.mRobotName ≠ "" then [.addEntity req.mRobotName] else []) ++
            [.unzip req.mFileName] := by
      unfold prepareLoadCalls
      simp only [hz, and_self, if_true]
    have hload : load mgr env req s c = some
        { result := 0, state := (prepareLoadCalls env req s).state,
          setup := (prepareLoadCalls env req s).log, commit := c } := by
      unfold load
      simp only [hr.1, if_true]
    refine ⟨_, hload, rfl, ?_, ?_, ?_, rfl, fun h => absurd hz h, fun _ => hr.2⟩
    · simp only [hst, prepareLoad]
    · simp only [hst, prepareLoad]
    · simp only [hst, prepareLoad]
  · obtain ⟨hr, hl⟩ := prepareLoadCalls_ok env req s hz
    have hps : parseScene env.document (prepareLoadCalls env req s).state =
        some (0, (prepareLoadCalls env req s).state) := by
      rcases hdoc with hd | hd <;> rw [hd] <;> rfl
    have hload : load mgr env req s c = some
        { result := 0, state := (prepareLoadCalls env req s).state,
          setup := (prepareLoadCalls env req s).log, commit := c } := by
      unfold load
      simp only [hr, hps, Nat.one_ne_zero, if_false, if_true]
    refine ⟨_, hload, rfl, ?_, ?_, ?_, rfl, fun _ => hl, fun h => absurd h hz⟩
    · simp only [hst, prepareLoad]
    · simp only [hst, prepareLoad]
    · simp only [hst, prepareLoad]

/-- Witness of C21 (amended): a file that cannot be parsed and is already known
to the registry, loaded without robot name, leaves no call behind. -/
theorem C21_failed_load_witness :
    ∃ out, load acceptingCollaborators
        { document := .malformed, mappedSceneByName := fun _ => 2 }
        { mFileName := "robot.urdf" } {} {} = some out ∧
      out.result = 0 ∧ out.commit = {} ∧ out.setup = [] := by
  obtain ⟨out, h1, h2, -, -, -, h6, h7, -⟩ := C21_failed_load acceptingCollaborators
    { document := .malformed, mappedSceneByName := fun _ => 2 }
    { mFileName := "robot.urdf" } {} {} (Or.inr rfl)
  exact ⟨out, h1, h2, h6, (h7 (by decide)).trans (by decide)⟩

/-! ### The walk, link by link -/

theorem Link.subtree_eq (link : Link) :
    link.subtree = link :: Link.subtrees link.child_links := by
  cases link
  rw [Link.subtree]
  rfl

theorem groupIDsFrom_append (l1 l2 : List Bool) :
    ∀ c, groupIDsFrom c (l1 ++ l2) =
        groupIDsFrom c l1 ++ groupIDsFrom (groupCounterAfter c l1) l2 ∧
      groupCounterAfter c (l1 ++ l2) = groupCounterAfter (groupCounterAfter c l1) l2 := by
  induction l1 with
  | nil => exact fun c => ⟨rfl, rfl⟩
  | cons f rest ih =>
    intro c
    cases f
    · constructor
      · show groupIDsFrom c (false :: (rest ++ l2)) = groupIDsFrom c (false :: rest) ++ _
        simp only [groupIDsFrom, groupCounterAfter, (ih c).1, List.cons_append]
      · show groupCounterAfter c (false :: (rest ++ l2)) =
          groupCounterAfter (groupCounterAfter c (false :: rest)) l2
        simp only [groupCounterAfter, (ih c).2]
    · constructor
      · show groupIDsFrom c (true :: (rest ++ l2)) = groupIDsFrom c (true :: rest) ++ _
        simp only [groupIDsFrom, groupCounterAfter, (ih ((c + 1) % ULONG_RANGE)).1,
          List.cons_append]
      · show groupCounterAfter c (true :: (rest ++ l2)) =
          groupCounterAfter (groupCounterAfter c (true :: rest)) l2
        simp only [groupCounterAfter, (ih ((c + 1) % ULONG_RANGE)).2]

theorem WalkBlocks.nil (s : LoadState) : WalkBlocks [] s s :=
  ⟨[], by simp, List.Forall₂.nil, rfl, rfl⟩

theorem WalkBlocks.append (l1 l2 : List Link) (a b c : LoadState)
    (h1 : WalkBlocks l1 a b) (h2 : WalkBlocks l2 b c) : WalkBlocks (l1 ++ l2) a c := by
  obtain ⟨b1, n1, f1, g1, c1⟩ := h1
  obtain ⟨b2, n2, f2, g2, c2⟩ := h2
  obtain ⟨e1, e2⟩ := groupIDsFrom_append (groupFlags l1) (groupFlags l2) a.nextGroupID
  have hfl : groupFlags (l1 ++ l2) = groupFlags l1 ++ groupFlags l2 := by
    unfold groupFlags
    rw [List.map_append]
  refine ⟨b1 ++ b2, ?_, List.rel_append f1 f2, ?_, ?_⟩
  · rw [n2, n1, List.flatMap_append, List.append_assoc]
  · rw [List.map_append, g1, g2, c1, hfl, e1, List.map_append]
  · rw [c2, c1, hfl, e2]

/-- The counter `nextGroupID` behind the descriptors of one link. -/
theorem handleLink_nextGroupID (link : Link) (parent : Option Link) (s s1 : LoadState)
    (h : handleLink link parent s = some s1) :
    s1.nextGroupID =
      if (specialCaseHandling link).needGroupID = true then (s.nextGroupID + 1) % ULONG_RANGE
      else s.nextGroupID := by
  obtain ⟨p, hp⟩ := handleLink_some_primaryNode link parent s s1 h
  obtain ⟨cfg, -, -, -, -, -, -, -, -, hp2⟩ :=
    primaryNode_eq link parent s (primaryNode_some_parentAvailable link parent s p hp)
  rw [hp] at hp2
  cases hp2
  rw [handleLink_eq link parent s _ hp] at h
  cases h
  rw [(handleParentJoint_nodeList link _).2.2.2.2]

theorem handleLink_walkBlocks (link : Link) (parent : Option Link) (s s1 : LoadState)
    (h : handleLink link parent s = some s1) : WalkBlocks [link] s s1 := by
  obtain ⟨p, hp⟩ := handleLink_some_primaryNode link parent s s1 h
  obtain ⟨hnl, -⟩ := handleLink_nodeList link parent s s1 p hp h
  obtain ⟨-, -, hg⟩ := primaryNode_groupid link parent s p hp
  have hc := handleLink_nextGroupID link parent s s1 h
  refine ⟨[(p.config, childNodes link p)], ?_,
    List.Forall₂.cons ⟨parent, s, p, hp, rfl⟩ List.Forall₂.nil, ?_, ?_⟩
  · rw [hnl]
    simp [Block.nodes]
  · simp only [List.map_cons, List.map_nil, hg, groupFlags]
    by_cases hn : (specialCaseHandling link).needGroupID = true
    · simp [hn, groupIDsFrom]
    · simp only [Bool.not_eq_true] at hn
      simp [hn, groupIDsFrom]
  · rw [hc]
    simp only [groupFlags, List.map_cons, List.map_nil]
    by_cases hn : (specialCaseHandling link).needGroupID = true
    · simp [hn, groupCounterAfter]
    · simp only [Bool.not_eq_true] at hn
      simp [hn, groupCounterAfter]

mutual
/-- The walk from a link appends one block per link of the tree, in pre-order. -/
theorem handleKinematics_walkBlocks :
    ∀ (link : Link) (parent : Option Link) (s s1 : LoadState),
      handleKinematics link parent s = some s1 → WalkBlocks link.subtree s s1
  | .mk n i v c va ca j cs, parent, s, s1, h => by
    rw [handleKinematics] at h
    cases hl : handleLink (.mk n i v c va ca j cs) parent s with
    | none => simp [hl] at h
    | some sa =>
      simp only [hl] at h
      rw [Link.subtree]
      exact WalkBlocks.append [_] _ _ _ _ (handleLink_walkBlocks _ _ _ _ hl)
        (handleChildLinks_walkBlocks cs _ sa s1 h)
/-- The loop over the child links appends the blocks of their trees in order. -/
theorem handleChildLinks_walkBlocks :
    ∀ (cs : List Link) (link : Link) (s s1 : LoadState),
      handleChildLinks cs link s = some s1 → WalkBlocks (Link.subtrees cs) s s1
  | [], _, s, s1, h => by
    rw [handleChildLinks] at h
    cases h
    exact WalkBlocks.nil s
  | child :: rest, link, s, s1, h => by
    rw [handleChildLinks] at h
    cases hk : handleKinematics child (some link) s with
    | none => simp [hk] at h
    | some s2 =>
      simp only [hk] at h
      rw [Link.subtrees]
      exact WalkBlocks.append _ _ _ _ _ (handleKinematics_walkBlocks child _ s s2 hk)
        (handleChildLinks_walkBlocks rest link s2 s1 h)
end

/-! ### Child descriptors and group ids across the walk -/

theorem collisionChild_inherit (link : Link) (config : NodeDescriptor) (c : Collision)
    (i n : Nat) :
    (collisionChild link config c i n).1.groupid = config.groupid ∧
    (collisionChild link config c i n).1.relativeid = config.index ∧
    (collisionChild link config c i n).1.mass = some 0 ∧
    (collisionChild link config c i n).1.density = some 0 := by
  cases hv : candidateVisual link c i with
  | some v =>
    rw [collisionChild_eq_paired link config c i n v hv]
    exact ⟨rfl, rfl, rfl, rfl⟩
  | none =>
    rw [collisionChild_eq_unpaired link config c i n hv]
    exact ⟨rfl, rfl, rfl, rfl⟩

/-- Every child descriptor of a link has the group id of the primary
descriptor, its index as `relativeid`, mass and density `0`, and an index
behind that of the primary descriptor. -/
theorem childNodes_inherit (link : Link) (parent : Option Link) (s : LoadState) (p : Primary)
    (hp : primaryNode link parent s = some p) :
    ∀ d ∈ childNodes link p,
      d.groupid = p.config.groupid ∧ d.relativeid = p.config.index ∧
      d.mass = some 0 ∧ d.density = some 0 ∧
      ∃ i j, p.config.index = some i ∧ d.index = some j ∧ i < j := by
  intro d hd
  obtain ⟨hidx, -, -⟩ := primaryNode_groupid link parent s p hp
  obtain ⟨-, hnext, -⟩ := primaryNode_state link parent s p hp
  have hj : ∃ j, d.index = some j ∧ p.state.nextNodeID ≤ j := by
    have hm : d.index ∈ (childNodes link p).map (fun d => d.index) :=
      List.mem_map.mpr ⟨d, hd, rfl⟩
    rw [childNodes_index] at hm
    obtain ⟨j, hjr, hjd⟩ := List.mem_map.mp hm
    obtain ⟨k, -, hk⟩ := List.mem_range'.mp hjr
    exact ⟨j, hjd.symm, by omega⟩
  obtain ⟨j, hj1, hj2⟩ := hj
  have hfresh : ∃ i j, p.config.index = some i ∧ d.index = some j ∧ i < j :=
    ⟨s.nextNodeID, j, hidx, hj1, by omega⟩
  unfold childNodes at hd
  rcases List.mem_append.mp hd with h | h
  · obtain ⟨c, k, m, -, rfl⟩ := mem_collisionChildNodes link p.config d _ _ _ h
    obtain ⟨a1, a2, a3, a4⟩ := collisionChild_inherit link p.config c k m
    exact ⟨a1, a2, a3, a4, hfresh⟩
  · obtain ⟨v, m, -, rfl⟩ := mem_visualChildNodes link p.config d _ _ h
    rw [visualChild_eq] at hfresh ⊢
    exact ⟨rfl, rfl, rfl, rfl, hfresh⟩

theorem LinkBlock.children (l : Link) (b : Block) (h : LinkBlock l b) :
    b.1.name = some l.name ∧
    ∀ d ∈ b.2,
      d.groupid = b.1.groupid ∧ d.relativeid = b.1.index ∧
      d.mass = some 0 ∧ d.density = some 0 ∧
      ∃ i j, b.1.index = some i ∧ d.index = some j ∧ i < j := by
  obtain ⟨parent, s, p, hp, rfl⟩ := h
  exact ⟨(primaryNode_groupid l parent s p hp).2.1, childNodes_inherit l parent s p hp⟩

/-- C25: across the walk from a link, the node list grows by one block per link
of the tree; every child descriptor of a block has the `groupid` of the primary
descriptor of its block, the index of that primary descriptor as `relativeid`,
`mass` `0` and `density` `0`, and an index greater than that of the primary
descriptor; the descriptor at position `k` of the descriptors appended in the
walk has the index `nextNodeID + k`, so that the index of every descriptor is
greater than the index of every descriptor appended before it in the walk. -/
theorem C25_child_descriptors_inherit (link : Link) (parent : Option Link) (s : LoadState)
    (hp : parentAvailable link parent) :
    ∃ s1 blocks, handleKinematics link parent s = some s1 ∧
      s1.nodeList = s.nodeList ++ blocks.flatMap Block.nodes ∧
      List.Forall₂ LinkBlock link.subtree blocks ∧
      (∀ b ∈ blocks, ∀ d ∈ b.2,
        d.groupid = b.1.groupid ∧ d.relativeid = b.1.index ∧
        d.mass = some 0 ∧ d.density = some 0 ∧
        ∃ i j, b.1.index = some i ∧ d.index = some j ∧ i < j) ∧
      (∀ k d, (blocks.flatMap Block.nodes)[k]? = some d →
        d.index = some (s.nextNodeID + k)) := by
  obtain ⟨s1, hk⟩ := handleKinematics_isSome link parent s hp
  obtain ⟨blocks, hnl, hfa, -, -⟩ := handleKinematics_walkBlocks link parent s s1 hk
  obtain ⟨⟨new, hnew, -, hidx⟩, -⟩ := handleKinematics_idsContinue link parent s s1 hk
  have hnn : new = blocks.flatMap Block.nodes := by
    rw [hnl] at hnew
    exact (List.append_cancel_left hnew).symm
  subst hnn
  refine ⟨s1, blocks, hk, hnl, hfa, ?_, ?_⟩
  · intro b hb
    obtain ⟨l, -, hlb⟩ := forall₂_of_mem_right _ _ _ hfa b hb
    exact (LinkBlock.children l b hlb).2
  · intro k e he
    have hlt : k < (blocks.flatMap Block.nodes).length := by
      by_contra hge
      rw [List.getElem?_eq_none (by omega)] at he
      cases he
    have h1 : ((blocks.flatMap Block.nodes).map (fun d => d.index))[k]? = some e.index := by
      rw [List.getElem?_map, he]
      rfl
    rw [hidx, List.getElem?_map, List.getElem?_range' _ _ hlt] at h1
    simp only [Option.map_some', Nat.one_mul, Option.some.injEq] at h1
    exact h1.symm

/-- Witness of C25 on `retriedVisualLink`. -/
theorem C25_child_descriptors_inherit_witness :
    parentAvailable retriedVisualLink none ∧
    ∃ s1 blocks, handleKinematics retriedVisualLink none freshState = some s1 ∧
      s1.nodeList = freshState.nodeList ++ blocks.flatMap Block.nodes ∧
      List.Forall₂ LinkBlock [retriedVisualLink] blocks ∧
      (∀ b ∈ blocks, ∀ d ∈ b.2,
        d.groupid = b.1.groupid ∧ d.relativeid = b.1.index ∧
        d.mass = some 0 ∧ d.density = some 0 ∧
        ∃ i j, b.1.index = some i ∧ d.index = some j ∧ i < j) := by
  obtain ⟨s1, blocks, h1, h2, h3, h4, -⟩ :=
    C25_child_descriptors_inherit retriedVisualLink none freshState (Or.inl rfl)
  exact ⟨Or.inl rfl, s1, blocks, h1, h2, h3, h4⟩

theorem groupIDsFrom_eq_preorder :
    ∀ (flags : List Bool) (c : Nat), c + flags.count true < ULONG_RANGE →
      groupIDsFrom c flags = preorderGroupIDs c flags
  | [], _, _ => rfl
  | false :: rest, c, h => by
    rw [groupIDsFrom, preorderGroupIDs, groupIDsFrom_eq_preorder rest c]
    simpa using h
  | true :: rest, c, h => by
    have hc : rest.count true + 1 = (true :: rest).count true := by simp
    have hlt : (c + 1) % ULONG_RANGE = c + 1 := Nat.mod_eq_of_lt (by omega)
    rw [groupIDsFrom, preorderGroupIDs, hlt, groupIDsFrom_eq_preorder rest (c + 1)]
    omega

theorem preorderGroupIDs_ge :
    ∀ (flags : List Bool) (c : Nat), ∀ x ∈ preorderGroupIDs c flags, x = 0 ∨ c ≤ x
  | [], _, x, h => by simp [preorderGroupIDs] at h
  | false :: rest, c, x, h => by
    rw [preorderGroupIDs] at h
    rcases List.mem_cons.mp h with h | h
    · exact Or.inl h
    · exact preorderGroupIDs_ge rest c x h
  | true :: rest, c, x, h => by
    rw [preorderGroupIDs] at h
    rcases List.mem_cons.mp h with h | h
    · exact Or.inr (by omega)
    · rcases preorderGroupIDs_ge rest (c + 1) x h with h | h
      · exact Or.inl h
      · exact Or.inr (by omega)

/-- The group ids other than `0` are `c`, `c + 1`, ... in order. -/
theorem preorderGroupIDs_filter :
    ∀ (flags : List Bool) (c : Nat), 0 < c →
      (preorderGroupIDs c flags).filter (fun x => x ≠ 0) = List.range' c (flags.count true)
  | [], _, _ => rfl
  | false :: rest, c, h => by
    rw [preorderGroupIDs]
    simpa using preorderGroupIDs_filter rest c h
  | true :: rest, c, h => by
    have hc : c ≠ 0 := by omega
    rw [preorderGroupIDs]
    simpa [hc, List.range'_succ] using preorderGroupIDs_filter rest (c + 1) (by omega)

/-- Two links get the same group id only if it is `0`. -/
theorem preorderGroupIDs_pairwise :
    ∀ (flags : List Bool) (c : Nat), 0 < c →
      (preorderGroupIDs c flags).Pairwise (fun x y => x = y → x = 0)
  | [], _, _ => by simp [preorderGroupIDs]
  | false :: rest, c, h => by
    rw [preorderGroupIDs, List.pairwise_cons]
    exact ⟨fun _ _ _ => rfl, preorderGroupIDs_pairwise rest c h⟩
  | true :: rest, c, h => by
    rw [preorderGroupIDs, List.pairwise_cons]
    refine ⟨?_, preorderGroupIDs_pairwise rest (c + 1) (by omega)⟩
    intro y hy hcy
    rcases preorderGroupIDs_ge rest (c + 1) y hy with h0 | hge
    · rw [hcy, h0]
    · omega

theorem foldl_handleMaterial_nextGroupID (ms : List Material) :
    ∀ s : LoadState,
      (ms.foldl (fun s material => handleMaterial material s) s).nextGroupID = s.nextGroupID := by
  induction ms with
  | nil => exact fun s => rfl
  | cons m rest ih =>
    intro s
    rw [List.foldl_cons, ih]
    rfl

/-- C28: across one walk started with the prior maximum group id `g`, if the
group id counter does not wrap around, the primary descriptors of the links
that need a group id get the group ids `g + 1`, `g + 2`, ... in pre-order and
the others get `0`; all descriptors of a link have the group id of its primary
descriptor; hence two descriptors of different links have the same group id
only if that group id is `0`. -/
theorem C28_group_ids_preorder (model : ModelInterface) (g : Nat) (s0 : LoadState)
    (hroot : model.root_link_.parent_joint = none)
    (hwrap : g + 1 + (groupFlags model.root_link_.subtree).count true < ULONG_RANGE) :
    ∃ s1 blocks, parseSceneModel model (prepareLoad g s0) = some s1 ∧
      s1.nodeList = s0.nodeList ++ blocks.flatMap Block.nodes ∧
      List.Forall₂ LinkBlock model.root_link_.subtree blocks ∧
      blocks.map (fun b => b.1.groupid) =
        (preorderGroupIDs (g + 1) (groupFlags model.root_link_.subtree)).map some ∧
      (preorderGroupIDs (g + 1) (groupFlags model.root_link_.subtree)).filter (fun x => x ≠ 0) =
        List.range' (g + 1) ((groupFlags model.root_link_.subtree).count true) ∧
      (∀ b ∈ blocks, ∀ d ∈ b.nodes, d.groupid = b.1.groupid) ∧
      blocks.Pairwise (fun b1 b2 => ∀ d1 ∈ b1.nodes, ∀ d2 ∈ b2.nodes,
        d1.groupid = d2.groupid → d1.groupid = some 0) := by
  obtain ⟨newM, -, -, -, -, m5, -, -, -⟩ := foldl_handleMaterial model.materials_
    (createFakeMaterial (prepareLoad g s0))
  have mg := foldl_handleMaterial_nextGroupID model.materials_
    (createFakeMaterial (prepareLoad g s0))
  obtain ⟨s1, hk⟩ := handleKinematics_isSome model.root_link_ none
    (model.materials_.foldl (fun s material => handleMaterial material s)
      (createFakeMaterial (prepareLoad g s0))) (Or.inl hroot)
  obtain ⟨blocks, hnl, hfa, hgid, -⟩ := handleKinematics_walkBlocks _ _ _ s1 hk
  have hg1 : (g + 1) % ULONG_RANGE = g + 1 := Nat.mod_eq_of_lt (by omega)
  rw [m5] at hnl
  rw [mg] at hgid
  simp only [createFakeMaterial, prepareLoad, hg1] at hnl hgid
  rw [groupIDsFrom_eq_preorder _ _ hwrap] at hgid
  have hinh : ∀ b ∈ blocks, ∀ d ∈ b.nodes, d.groupid = b.1.groupid := by
    intro b hb d hd
    obtain ⟨l, -, hlb⟩ := forall₂_of_mem_right _ _ _ hfa b hb
    rcases List.mem_cons.mp hd with h | h
    · rw [h]
    · exact ((LinkBlock.children l b hlb).2 d h).1
  refine ⟨s1, blocks, hk, hnl, hfa, hgid, preorderGroupIDs_filter _ _ (by omega), hinh, ?_⟩
  have hpw := preorderGroupIDs_pairwise (groupFlags model.root_link_.subtree) (g + 1)
    (by omega)
  have hpw2 : (blocks.map (fun b => b.1.groupid)).Pairwise
      (fun x y => x = y → x = some 0) := by
    rw [hgid, List.pairwise_map]
    refine hpw.imp ?_
    intro a b hab h
    rw [hab (Option.some.inj h)]
  rw [List.pairwise_map] at hpw2
  refine List.Pairwise.imp_of_mem ?_ hpw2
  intro b1 b2 hb1 hb2 hR d1 hd1 d2 hd2 heq
  rw [hinh b1 hb1 d1 hd1] at heq ⊢
  rw [hinh b2 hb2 d2 hd2] at heq
  exact hR heq

/-- Witness of C28 on `sampleModel` with the prior maximum group id `4`: its
root link needs a group id and gets `5`, its child link gets `0`. -/
theorem C28_group_ids_preorder_witness :
    sampleModel.root_link_.parent_joint = none ∧
    groupFlags sampleModel.root_link_.subtree = [true, false] ∧
    ∃ (s1 : LoadState) (blocks : List Block),
      parseSceneModel sampleModel (prepareLoad 4 {}) = some s1 ∧
      s1.nodeList = blocks.flatMap Block.nodes ∧
      blocks.map (fun b => b.1.groupid) = [some 5, some 0] := by
  have hf : groupFlags sampleModel.root_link_.subtree = [true, false] := by decide
  obtain ⟨s1, blocks, h1, h2, -, h4, -⟩ :=
    C28_group_ids_preorder sampleModel 4 {} rfl (by rw [hf]; decide)
  rw [hf] at h4
  exact ⟨rfl, hf, s1, blocks, h1, by simpa using h2, h4⟩

/-! ### Every element is used exactly once -/

/-- What the primary descriptor is built from, by the flags `loadVisual` and
`loadCollision`. -/
theorem primaryNode_uses (link : Link) (parent : Option Link) (s : LoadState) (p : Primary)
    (h : primaryNode link parent s = some p) :
    p.visualArrayIndex = (if (specialCaseHandling link).loadVisual = true then 1 else 0) ∧
    p.collisionArrayIndex =
      (if (specialCaseHandling link).loadCollision = true then 1 else 0) ∧
    ((specialCaseHandling link).loadVisual = true →
      ∃ v, link.visual = some v ∧ carriesVisual p.config v) ∧
    ((specialCaseHandling link).loadVisual = false →
      p.config.materialName = some "_fakeMaterial") ∧
    ((specialCaseHandling link).loadCollision = true →
      ∃ c, link.collision = some c ∧ carriesCollision p.config c) ∧
    ((specialCaseHandling link).loadCollision = false → hasFakeCollision p.config) := by
  obtain ⟨cfg, -, -, -, -, -, -, -, -, hcfg, hvi, hci⟩ := primaryNode_config link parent s p h
  have hpcf : ∀ cfg2, primaryCollision false link cfg2 = (createFakeCollision cfg2, 0) := by
    intro cfg2
    unfold primaryCollision
    cases link.collision <;> rfl
  have hpvf : ∀ cfg2, primaryVisual false link cfg2 = (createFakeVisual cfg2, 0) := by
    intro cfg2
    unfold primaryVisual
    cases link.visual <;> rfl
  refine ⟨?_, ?_, ?_, ?_, ?_, ?_⟩
  · cases hlv : (specialCaseHandling link).loadVisual with
    | false =>
      rw [hlv, hpvf] at hvi
      simpa using hvi
    | true =>
      obtain ⟨hs, -⟩ := (specialCaseHandling_loadVisual link).mp hlv
      obtain ⟨v, hv⟩ := Option.isSome_iff_exists.mp hs
      rw [hlv] at hvi
      simp only [primaryVisual, hv] at hvi
      simpa using hvi
  · cases hlc : (specialCaseHandling link).loadCollision with
    | false =>
      rw [hlc, hpcf] at hci
      simpa using hci
    | true =>
      obtain ⟨hs, -⟩ := (specialCaseHandling_loadCollision link).mp hlc
      obtain ⟨c, hc⟩ := Option.isSome_iff_exists.mp hs
      rw [hlc] at hci
      simp only [primaryCollision, hc] at hci
      simpa using hci
  · intro hlv
    obtain ⟨hs, hr⟩ := (specialCaseHandling_loadVisual link).mp hlv
    obtain ⟨v, hv⟩ := Option.isSome_iff_exists.mp hs
    refine ⟨v, hv, ?_⟩
    cases hlc : (specialCaseHandling link).loadCollision with
    | false =>
      rw [hlv, hlc, hpcf] at hcfg
      simp only [primaryVisual, hv, handleVisual_eq, createFakeCollision] at hcfg
      rw [hcfg]
      exact carriesVisual_of_fields _ _ rfl rfl rfl rfl rfl
    | true =>
      obtain ⟨hsc, hr2⟩ := (specialCaseHandling_loadCollision link).mp hlc
      obtain ⟨c, hc⟩ := Option.isSome_iff_exists.mp hsc
      exact (primaryNode_shared link parent s p v c h hv hc hr2 (fun h3 => hr2 (hr h3))).1
  · intro hlv
    rw [hlv, hpvf] at hcfg
    obtain ⟨-, -, -, -, -, -, c7, -⟩ := primaryCollision_header
      (specialCaseHandling link).loadCollision link (createFakeVisual cfg)
    rw [hcfg, c7]
    rfl
  · intro hlc
    obtain ⟨hs, -⟩ := (specialCaseHandling_loadCollision link).mp hlc
    obtain ⟨c, hc⟩ := Option.isSome_iff_exists.mp hs
    refine ⟨c, hc, ?_⟩
    rw [hlc] at hcfg
    simp only [primaryCollision, hc] at hcfg
    rw [hcfg]
    unfold carriesCollision
    simp only [handleCollision_eq, and_self]
  · intro hlc
    rw [hlc, hpcf] at hcfg
    rw [hcfg]
    exact ⟨rfl, rfl, rfl⟩

theorem collisionChildNodes_uses (link : Link) (config : NodeDescriptor) :
    ∀ (cs : List Collision) (i n ci : Nat),
      (∀ k c, cs[k]? = some c → link.collision_array[ci + k]? = some c) →
      List.Forall₂ (Uses link) (collisionChildNodes link config cs i n)
        (collisionChildUsages link cs i ci)
  | [], _, _, _, _ => by
    rw [collisionChildNodes, collisionChildUsages]
    exact List.Forall₂.nil
  | c :: rest, i, n, ci, h => by
    have hrest : ∀ k c2, rest[k]? = some c2 → link.collision_array[ci + 1 + k]? = some c2 := by
      intro k c2 hk
      have := h (k + 1) c2 (by simpa using hk)
      rw [← this]
      congr 1
      omega
    have hc0 : link.collision_array[ci]? = some c := h 0 c (by simp)
    rw [collisionChildNodes, collisionChildUsages]
    cases hv : candidateVisual link c i with
    | some v =>
      rw [collisionChild_snd_paired link config c i n v hv]
      refine List.Forall₂.cons ⟨?_, ?_, ?_, ?_⟩
        (collisionChildNodes_uses link config rest (i + 1) (n + 1) (ci + 1) hrest)
      · intro k hk
        cases hk
        exact ⟨v, candidateVisual_some link c i v hv,
          (collisionChild_fst_paired link config c i n v hv).1⟩
      · intro hk
        cases hk
      · intro k hk
        cases hk
        exact ⟨c, hc0, collisionChild_carriesCollision link config c i n⟩
      · intro hk
        cases hk
    | none =>
      rw [collisionChild_snd_unpaired link config c i n hv]
      refine List.Forall₂.cons ⟨?_, ?_, ?_, ?_⟩
        (collisionChildNodes_uses link config rest i (n + 1) (ci + 1) hrest)
      · intro k hk
        cases hk
      · intro _
        exact (collisionChild_hasFakeVisual link config c i n hv).2.2.2.2
      · intro k hk
        cases hk
        exact ⟨c, hc0, collisionChild_carriesCollision link config c i n⟩
      · intro hk
        cases hk

theorem visualChildNodes_uses (link : Link) (config : NodeDescriptor) :
    ∀ (vs : List Visual) (f n : Nat),
      (∀ k v, vs[k]? = some v → link.visual_array[f + k]? = some v) →
      List.Forall₂ (Uses link) (visualChildNodes link config vs n)
        (visualChildUsages f vs.length)
  | [], _, _, _ => by
    rw [visualChildNodes]
    exact List.Forall₂.nil
  | v :: rest, f, n, h => by
    have hrest : ∀ k v2, rest[k]? = some v2 → link.visual_array[f + 1 + k]? = some v2 := by
      intro k v2 hk
      have := h (k + 1) v2 (by simpa using hk)
      rw [← this]
      congr 1
      omega
    have hv0 : link.visual_array[f]? = some v := h 0 v (by simp)
    have hu : visualChildUsages f (v :: rest).length =
        { visual := some f, collision := none } :: visualChildUsages (f + 1) rest.length := by
      unfold visualChildUsages
      rw [List.length_cons, List.range'_succ, List.map_cons]
    rw [visualChildNodes, hu]
    obtain ⟨c1, c2⟩ := visualChild_carriesVisual link config v n
    refine List.Forall₂.cons ⟨?_, ?_, ?_, ?_⟩
      (visualChildNodes_uses link config rest (f + 1) (n + 1) hrest)
    · intro k hk
      cases hk
      exact ⟨v, hv0, c1⟩
    · intro hk
      cases hk
    · intro k hk
      cases hk
    · intro _
      exact Or.inr c2

theorem collisionChildrenIndex_le (link : Link) (config : NodeDescriptor) :
    ∀ (cs : List Collision) (i n : Nat), i ≤ link.visual_array.length →
      collisionChildrenIndex link config cs i n ≤ link.visual_array.length
  | [], i, n, h => by
    rw [collisionChildrenIndex]
    exact h
  | c :: rest, i, n, h => by
    rw [collisionChildrenIndex]
    cases hv : candidateVisual link c i with
    | some v =>
      rw [collisionChild_snd_paired link config c i n v hv]
      have hlt : i < link.visual_array.length := by
        have := candidateVisual_some link c i v hv
        by_contra hge
        rw [List.getElem?_eq_none (by omega)] at this
        cases this
      exact collisionChildrenIndex_le link config rest (i + 1) (n + 1) hlt
    | none =>
      rw [collisionChild_snd_unpaired link config c i n hv]
      exact collisionChildrenIndex_le link config rest i (n + 1) h

theorem range'_split (a b c : Nat) (h1 : a ≤ b) (h2 : b ≤ c) :
    List.range' a (b - a) ++ List.range' b (c - b) = List.range' a (c - a) := by
  have h := List.range'_append a (b - a) (c - b) 1
  rw [Nat.one_mul, Nat.add_sub_cancel' h1] at h
  rw [h]
  congr 1
  omega

/-- The positions the first child loop takes its visuals and its collisions
from. -/
theorem collisionChildUsages_positions (link : Link) (config : NodeDescriptor) :
    ∀ (cs : List Collision) (i n ci : Nat),
      (collisionChildUsages link cs i ci).filterMap (fun u => u.visual) =
        List.range' i (collisionChildrenIndex link config cs i n - i) ∧
      (collisionChildUsages link cs i ci).filterMap (fun u => u.collision) =
        List.range' ci cs.length
  | [], i, n, ci => by
    rw [collisionChildUsages, collisionChildrenIndex]
    simp
  | c :: rest, i, n, ci => by
    rw [collisionChildUsages, collisionChildrenIndex]
    cases hv : candidateVisual link c i with
    | some v =>
      obtain ⟨h1, h2⟩ := collisionChildUsages_positions link config rest (i + 1) (n + 1)
        (ci + 1)
      have hge := collisionChildrenIndex_ge link config rest (i + 1) (n + 1)
      rw [collisionChild_snd_paired link config c i n v hv]
      simp only [List.filterMap_cons, h1, h2, List.length_cons, List.range'_succ]
      refine ⟨?_, trivial⟩
      have e : collisionChildrenIndex link config rest (i + 1) (n + 1) - i =
          (collisionChildrenIndex link config rest (i + 1) (n + 1) - (i + 1)) + 1 := by omega
      rw [e, List.range'_succ]
    | none =>
      obtain ⟨h1, h2⟩ := collisionChildUsages_positions link config rest i (n + 1) (ci + 1)
      rw [collisionChild_snd_unpaired link config c i n hv]
      simp only [List.filterMap_cons, h1, h2, List.length_cons, List.range'_succ, and_self]

theorem visualChildUsages_positions (f count : Nat) :
    (visualChildUsages f count).filterMap (fun u => u.visual) = List.range' f count ∧
    (visualChildUsages f count).filterMap (fun u => u.collision) = [] := by
  unfold visualChildUsages
  constructor
  · rw [List.filterMap_map]
    exact (congrFun (List.filterMap_eq_map (fun k => k)) _).trans (List.map_id _)
  · rw [List.filterMap_map, List.filterMap_eq_nil_iff]
    intro a _
    rfl

theorem pairingIndex_length (link : Link) (p : Primary) :
    pairingIndex link p (remainingCollisions link p).length =
      collisionChildrenIndex link p.config (remainingCollisions link p) p.visualArrayIndex
        p.state.nextNodeID := by
  unfold pairingIndex
  rw [List.take_length]

/-- C27: for a link whose primary visual and primary collision are element `0` of
`visual_array` and `collision_array` (and absent when the array is empty), the
descriptors `handleKinematics` appends for the link are built from the
elements `linkUsages` lists; the positions of the visuals used are `0`, `1`,
..., each position of `visual_array` exactly once, and so are the positions of
the collisions used; the link yields `1` plus the number of collision elements
behind `collisionArrayIndex` plus the number of visual elements left when the
first child loop ends. -/
theorem C27_every_element_used_once (link : Link) (parent : Option Link) (s : LoadState)
    (hp : parentAvailable link parent)
    (hv : link.visual = link.visual_array[0]?)
    (hc : link.collision = link.collision_array[0]?) :
    ∃ p s1 rest, primaryNode link parent s = some p ∧
      handleKinematics link parent s = some s1 ∧
      s1.nodeList = s.nodeList ++ p.config :: (childNodes link p ++ rest) ∧
      List.Forall₂ (Uses link) (p.config :: childNodes link p) (linkUsages link p) ∧
      (linkUsages link p).filterMap (fun u => u.visual) =
        List.range link.visual_array.length ∧
      (linkUsages link p).filterMap (fun u => u.collision) =
        List.range link.collision_array.length ∧
      (p.config :: childNodes link p).length =
        1 + (link.collision_array.length - p.collisionArrayIndex) +
          (link.visual_array.length -
            pairingIndex link p (remainingCollisions link p).length) := by
  obtain ⟨p, s1, rest, h1, h2, h3, -⟩ := handleKinematics_nodes link parent s hp
  obtain ⟨hvi, hci, u1, u2, u3, u4⟩ := primaryNode_uses link parent s p h1
  have hfin := pairingIndex_length link p
  have hvlen : (specialCaseHandling link).loadVisual = true → 0 < link.visual_array.length := by
    intro hl
    obtain ⟨v, hv1, -⟩ := u1 hl
    rw [hv] at hv1
    by_contra hge
    rw [List.getElem?_eq_none (by omega)] at hv1
    cases hv1
  have hclen : (specialCaseHandling link).loadCollision = true →
      0 < link.collision_array.length := by
    intro hl
    obtain ⟨c, hc1, -⟩ := u3 hl
    rw [hc] at hc1
    by_contra hge
    rw [List.getElem?_eq_none (by omega)] at hc1
    cases hc1
  have hvile : p.visualArrayIndex ≤ link.visual_array.length := by
    rw [hvi]
    split_ifs with hl
    · exact hvlen hl
    · exact Nat.zero_le _
  have hge := collisionChildrenIndex_ge link p.config (remainingCollisions link p)
    p.visualArrayIndex p.state.nextNodeID
  have hle := collisionChildrenIndex_le link p.config (remainingCollisions link p)
    p.visualArrayIndex p.state.nextNodeID hvile
  rw [← hfin] at hge hle
  obtain ⟨q1, q2⟩ := collisionChildUsages_positions link p.config (remainingCollisions link p)
    p.visualArrayIndex p.state.nextNodeID p.collisionArrayIndex
  rw [← hfin] at q1
  obtain ⟨r1, r2⟩ := visualChildUsages_positions
    (pairingIndex link p (remainingCollisions link p).length)
    (link.visual_array.length - pairingIndex link p (remainingCollisions link p).length)
  have hrl : (remainingCollisions link p).length =
      link.collision_array.length - p.collisionArrayIndex := by
    unfold remainingCollisions
    rw [List.length_drop]
  refine ⟨p, s1, rest, h1, h2, h3, ?_, ?_, ?_, ?_⟩
  · unfold linkUsages
    rw [childNodes_eq_append]
    refine List.Forall₂.cons ⟨?_, ?_, ?_, ?_⟩ (List.rel_append ?_ ?_)
    · intro k hk
      unfold primaryUsage at hk
      by_cases hl : (specialCaseHandling link).loadVisual = true
      · simp only [hl, if_true, Option.some.injEq] at hk
        subst hk
        obtain ⟨v, hv1, hv2⟩ := u1 hl
        exact ⟨v, by rw [← hv, hv1], hv2⟩
      · simp [hl] at hk
    · intro hk
      unfold primaryUsage at hk
      by_cases hl : (specialCaseHandling link).loadVisual = true
      · simp [hl] at hk
      · exact u2 (by simpa using hl)
    · intro k hk
      unfold primaryUsage at hk
      by_cases hl : (specialCaseHandling link).loadCollision = true
      · simp only [hl, if_true, Option.some.injEq] at hk
        subst hk
        obtain ⟨c, hc1, hc2⟩ := u3 hl
        exact ⟨c, by rw [← hc, hc1], hc2⟩
      · simp [hl] at hk
    · intro hk
      unfold primaryUsage at hk
      by_cases hl : (specialCaseHandling link).loadCollision = true
      · simp [hl] at hk
      · exact Or.inl (u4 (by simpa using hl))
    · unfold collisionChildrenOf
      refine collisionChildNodes_uses link p.config _ _ _ _ ?_
      intro k c hk
      unfold remainingCollisions at hk
      rw [List.getElem?_drop] at hk
      exact hk
    · unfold visualChildrenOf
      have hl : (link.visual_array.drop
          (pairingIndex link p (remainingCollisions link p).length)).length =
          link.visual_array.length -
            pairingIndex link p (remainingCollisions link p).length := List.length_drop _ _
      rw [← hl]
      refine visualChildNodes_uses link p.config _ _ _ ?_
      intro k v hk
      rw [List.getElem?_drop] at hk
      exact hk
  · unfold linkUsages
    rw [List.range_eq_range', List.filterMap_cons, List.filterMap_append, q1, r1,
      range'_split _ _ _ hge hle]
    unfold primaryUsage
    by_cases hl : (specialCaseHandling link).loadVisual = true
    · have hpos := hvlen hl
      simp only [hl, if_true] at hvi ⊢
      rw [hvi]
      have e : link.visual_array.length = (link.visual_array.length - 1) + 1 := by omega
      rw [e, List.range'_succ]
      simp
    · simp only [hl, if_false] at hvi ⊢
      rw [hvi]
      simp
  · unfold linkUsages
    rw [List.range_eq_range', List.filterMap_cons, List.filterMap_append, q2, r2,
      List.append_nil, hrl]
    unfold primaryUsage
    by_cases hl : (specialCaseHandling link).loadCollision = true
    · have hpos := hclen hl
      simp only [hl, if_true] at hci ⊢
      rw [hci]
      have e : link.collision_array.length = (link.collision_array.length - 1) + 1 := by omega
      rw [e, List.range'_succ]
      simp
    · simp only [hl, if_false] at hci ⊢
      rw [hci]
      simp
  · rw [childNodes_eq_append, List.length_cons, List.length_append]
    unfold collisionChildrenOf visualChildrenOf
    rw [collisionChildNodes_length, visualChildNodes_length, List.length_drop, hrl]
    omega

/-- Witness of C27 on `retriedVisualLink`: two visual and three collision
elements in four descriptors. -/
theorem C27_every_element_used_once_witness :
    parentAvailable retriedVisualLink none ∧
    retriedVisualLink.visual = retriedVisualLink.visual_array[0]? ∧
    retriedVisualLink.collision = retriedVisualLink.collision_array[0]? ∧
    ∃ p s1 rest, primaryNode retriedVisualLink none freshState = some p ∧
      handleKinematics retriedVisualLink none freshState = some s1 ∧
      s1.nodeList = freshState.nodeList ++ p.config :: (childNodes retriedVisualLink p ++ rest) ∧
      List.Forall₂ (Uses retriedVisualLink) (p.config :: childNodes retriedVisualLink p)
        (linkUsages retriedVisualLink p) ∧
      (linkUsages retriedVisualLink p).filterMap (fun u => u.visual) = [0, 1] ∧
      (linkUsages retriedVisualLink p).filterMap (fun u => u.collision) = [0, 1, 2] := by
  obtain ⟨p, s1, rest, h1, h2, h3, h4, h5, h6, -⟩ :=
    C27_every_element_used_once retriedVisualLink none freshState (Or.inl rfl) rfl rfl
  exact ⟨Or.inl rfl, rfl, rfl, p, s1, rest, h1, h2, h3, h4, h5, h6⟩

end Mars
